import Mathlib

/-!
# Galois IR builder and matrix-multiply lowering

A shallow embedding of `galois/ir/builder.hpp` and `galois/op/matrix_multiply_op.hpp`.

* IR objects live in an arena (`Builder.heap`); a `std::shared_ptr` to an object is its index
  in the arena, a natural number.
* Methods of `Builder` that mutate `this` become functions that take and return the builder.
* `GALOIS_ASSERT` failures, undefined behaviour and exhaustion of the recursion budget of the
  model are the three ways a call can end without returning (`Fault`).
-/

namespace Galois

/-- Ways in which a call does not return normally. -/
inductive Fault
  /-- A `GALOIS_ASSERT` failed. -/
  | assertion
  /-- Undefined behaviour: null dereference, index out of range, `pop` of an empty stack,
  insertion through an iterator of another list. -/
  | undefined
  /-- The recursion budget of the model ran out before the call returned. -/
  | fuel
deriving DecidableEq, Repr

/-- Macro `GALOIS_ASSERT(cond)`. -/
def GALOIS_ASSERT (cond : Bool) : Except Fault Unit :=
  if cond then .ok () else .error .assertion

/-- Element access `v[i]` of a `std::vector` or an Eigen vector; out of range is undefined. -/
def index {α : Type} (v : List α) (i : Nat) : Except Fault α :=
  match v[i]? with
  | some a => .ok a
  | none => .error .undefined

/-- Modelled from the spec: the type hierarchy of `galois/ir/ir.hpp` (`TensorType`, `FloatType`,
`IntType`), which is not among the sources. A type is a scalar (`FloatType`, `IntType`) or a
tensor of elements of `value_type` with extent vector `shape`. Types are interned by the IR, so
the pointer comparison `==` of the source is structural equality here. -/
inductive TensorType
  | FloatType (bits : Nat)
  | IntType (bits : Nat) (is_signed : Bool)
  | Tensor (value_type : TensorType) (shape : List Int)
deriving DecidableEq, Repr

namespace TensorType

/-- Modelled from the spec: `TensorType::IsScalar`, the scalar-ness query. -/
def IsScalar : TensorType → Bool
  | FloatType _ => true
  | IntType _ _ => true
  | Tensor _ _ => false

/-- Modelled from the spec: field `shape`; a scalar has the empty extent vector. -/
def shape : TensorType → List Int
  | Tensor _ sh => sh
  | _ => []

/-- Modelled from the spec: field `value_type`, the element type; null on a scalar. -/
def value_type : TensorType → Option TensorType
  | Tensor v _ => some v
  | _ => none

/-- Modelled from the spec: field `data_type`, the scalar type at the bottom of the type. -/
def data_type : TensorType → TensorType
  | Tensor v _ => data_type v
  | t => t

/-- Modelled from the spec: `TensorType::Create(value_type, shape)`. -/
def Create (value_type : TensorType) (shape : List Int) : TensorType :=
  Tensor value_type shape

/-- Modelled from the spec: `TensorType::CreateMatrixType(value_type, rows, cols)`. -/
def CreateMatrixType (value_type : TensorType) (rows cols : Int) : TensorType :=
  Tensor value_type [rows, cols]

end TensorType

/-- Dense integer matrix `Eigen::MatrixXi64`, stored row by row. -/
structure MatrixXi64 where
  rows : Nat
  cols : Nat
  coeffs : List (List Int)
deriving DecidableEq, Repr

namespace MatrixXi64

/-- `Eigen::MatrixXi64::Zero(rows, cols)`. -/
def Zero (rows cols : Nat) : MatrixXi64 :=
  ⟨rows, cols, List.replicate rows (List.replicate cols 0)⟩

/-- `Eigen::MatrixXi64::Identity(rows, cols)`: ones on the main diagonal, also when rectangular. -/
def Identity (rows cols : Nat) : MatrixXi64 :=
  ⟨rows, cols, (List.range rows).map fun i => (List.range cols).map fun j => if i = j then 1 else 0⟩

/-- Coefficient read `m(i, j)`; zero outside the matrix. -/
def coeff (m : MatrixXi64) (i j : Nat) : Int :=
  ((m.coeffs.getD i []).getD j 0)

/-- Coefficient write `m(i, j) = v`; out of range is undefined. -/
def setCoeff (m : MatrixXi64) (i j : Nat) (v : Int) : Except Fault MatrixXi64 :=
  if i < m.rows ∧ j < m.cols then
    .ok { m with coeffs := m.coeffs.set i ((m.coeffs.getD i []).set j v) }
  else .error .undefined

/-- Matrix-vector product `m * i`. -/
def mulVec (m : MatrixXi64) (i : List Int) : List Int :=
  m.coeffs.map fun row => (List.zipWith (· * ·) row i).sum

end MatrixXi64

/-- `Eigen::VectorXi64::Zero(n)`. -/
def VectorXi64.Zero (n : Nat) : List Int := List.replicate n 0

/-- The class of an IR object together with the fields that class adds to `Tensor`. -/
inductive Kind
  | Tensor
  | Grid (shape : List Int) (enable_multi_thread : Bool)
  | OperatorInstance (input_types output_types : List TensorType) (name fullname : String)
  | Accessor (value : Nat) (transform_matrix : MatrixXi64) (shift_vector : List Int)
  | Write (value target : Nat)
  | Add (lhs rhs : Nat)
  | Mul (lhs rhs : Nat)
  | BitCast (value : Nat)
  | VectorBroadcast (value : Nat) (lane : Int)
deriving DecidableEq, Repr

/-- An IR object. Every object is a `Tensor` (field `type`, null where the sources do not
determine it); `values` is the instruction sequence of a `Block` (`Grid`, `OperatorInstance`)
and stays empty on the other classes. -/
structure Node where
  kind : Kind
  type : Option TensorType
  values : List Nat
deriving DecidableEq, Repr

/-- Whether the object is a `Grid`. -/
def Node.isGrid (n : Node) : Bool :=
  match n.kind with
  | .Grid _ _ => true
  | _ => false

/-- Whether the object is a `Write`. -/
def Node.isWrite (n : Node) : Bool :=
  match n.kind with
  | .Write _ _ => true
  | _ => false

/-- Number of points of the iteration space of a grid with the extent vector `shape`. -/
def Grid.points (shape : List Int) : Int := shape.prod

/-- Position in the `values` list of the block `list`. The builder only ever stores
`values.end()`, which stays the end of its list under insertion, so the block is all there is
to record. -/
structure Iterator where
  list : Nat
deriving DecidableEq, Repr

/-- Class `Builder`: the arena of the IR objects built so far and the five stacks (top first).
The member `kernel_queue` is filled before lowering starts and only read by it; it is passed
alongside the builder to the lowering functions. -/
structure Builder where
  heap : List Node
  parallel_stack : List Nat
  operator_stack : List Nat
  block_stack : List Nat
  iterator_stack : List Iterator
  temp_tensors_stack : List (List Nat)
deriving DecidableEq, Repr

/-- A `ScopeGuard`: the callback it runs when it is released. -/
abbrev ScopeGuard := Builder → Except Fault Builder

/-- `std::stack::pop`; undefined on an empty stack. -/
def pop {α : Type} : List α → Except Fault (List α)
  | [] => .error .undefined
  | _ :: rest => .ok rest

namespace Builder

/-- `Builder::Create()`: the empty builder. -/
def empty : Builder := ⟨[], [], [], [], [], []⟩

/-- The five stacks of a builder. -/
def stackState (s : Builder) :
    List Nat × List Nat × List Nat × List Iterator × List (List Nat) :=
  (s.parallel_stack, s.operator_stack, s.block_stack, s.iterator_stack, s.temp_tensors_stack)

/-- The stacks are in step with the arena: every open block is an object of the arena, every
open operator is an `OperatorInstance`, and the iterator stored at a level is the end of the
instruction sequence of the block stored at that level. -/
def Coherent (s : Builder) : Prop :=
  (∀ b ∈ s.block_stack, b < s.heap.length) ∧
  (∀ o ∈ s.operator_stack, ∃ i t n f ty vs,
    s.heap[o]? = some ⟨.OperatorInstance i t n f, ty, vs⟩) ∧
  s.iterator_stack.map Iterator.list = s.block_stack

/-- Every open block is an object of the arena. -/
def BlocksAllocated (s : Builder) : Prop := ∀ b ∈ s.block_stack, b < s.heap.length

/-- The builder `s` after the values `vs` were appended to the instruction sequence of the
block `block`, whose object is `n` apart from its sequence, and the objects `news` were added
to the arena. -/
def emit (s : Builder) (block : Nat) (n : Node) (vs : List Nat) (news : List Node) : Builder :=
  { s with heap := s.heap.set block { n with values := n.values ++ vs } ++ news }

/-- The three pushes of `CreateGrid`: the grid becomes the innermost grid and the current block,
with the insertion point at the end of its instruction sequence. -/
def pushGrid (s : Builder) (ir_grid : Nat) : Builder :=
  { s with parallel_stack := ir_grid :: s.parallel_stack,
           block_stack := ir_grid :: s.block_stack,
           iterator_stack := ⟨ir_grid⟩ :: s.iterator_stack }

/-- `Builder::CreateMatrixShape`. -/
def CreateMatrixShape (rows cols : Int) : List Int := [rows, cols]

/-- `Builder::CurrentBlock`. -/
def CurrentBlock (s : Builder) : Except Fault Nat :=
  match s.block_stack with
  | [] => .error .assertion
  | b :: _ => .ok b

/-- `Builder::CurrentGrid`. -/
def CurrentGrid (s : Builder) : Except Fault Nat :=
  match s.parallel_stack with
  | [] => .error .assertion
  | g :: _ => .ok g

/-- `Builder::CurrentOperator`. -/
def CurrentOperator (s : Builder) : Except Fault Nat :=
  match s.operator_stack with
  | [] => .error .assertion
  | o :: _ => .ok o

/-- Dereference of a shared pointer; a reference outside the arena is undefined. -/
def deref (s : Builder) (r : Nat) : Except Fault Node :=
  index s.heap r

/-- Allocation of a new IR object (any `Value_::Create(...)`): the object and the arena. -/
def alloc (s : Builder) (v : Node) : Nat × Builder :=
  (s.heap.length, { s with heap := s.heap ++ [v] })

/-- Call `block->values.insert(it, ir_value)` of `std::list`. `it` is the end of the list
of `it.list`, so the value is appended; an iterator of another list is undefined. -/
def listInsert (s : Builder) (block : Nat) (it : Iterator) (ir_value : Nat) :
    Except Fault Builder :=
  if it.list = block then
    match s.heap[block]? with
    | some n => .ok { s with heap := s.heap.set block { n with values := n.values ++ [ir_value] } }
    | none => .error .undefined
  else .error .undefined

/-- `Builder::Insert`. -/
def Insert (s : Builder) (ir_value : Nat) : Except Fault Builder :=
  match s.iterator_stack with
  | [] => .error .assertion
  | it :: _ =>
    match s.CurrentBlock with
    | .error e => .error e
    | .ok b => s.listInsert b it ir_value

/-- `Builder::Create<Value_>(args...)`: `v` is the object `Value_::Create(args...)` builds. -/
def Create (s : Builder) (v : Node) : Except Fault (Nat × Builder) :=
  match (s.alloc v).2.Insert (s.alloc v).1 with
  | .error e => .error e
  | .ok s1 => .ok ((s.alloc v).1, s1)

/-- Modelled from the spec: `Grid::Create(shape)` of `ir.hpp`, a block with the given extents,
an empty body and the parallel flag not set. -/
def Grid.Create (shape : List Int) : Node :=
  ⟨.Grid shape false, none, []⟩

/-- The callback of the guard `CreateGrid` returns. -/
def gridRelease : ScopeGuard := fun s =>
  match pop s.parallel_stack, pop s.block_stack, pop s.iterator_stack with
  | .ok p, .ok b, .ok i => .ok { s with parallel_stack := p, block_stack := b, iterator_stack := i }
  | _, _, _ => .error .undefined

/-- `Builder::CreateGrid`: the grid, its guard, the builder. -/
def CreateGrid (s : Builder) (shape : List Int) : Except Fault (Nat × ScopeGuard × Builder) :=
  match s.Create (Grid.Create shape) with
  | .error e => .error e
  | .ok (ir_grid, s1) =>
    .ok (ir_grid, gridRelease,
      { s1 with parallel_stack := ir_grid :: s1.parallel_stack,
                block_stack := ir_grid :: s1.block_stack,
                iterator_stack := ⟨ir_grid⟩ :: s1.iterator_stack })

/-- Field `fullname` of the operator at `r`; undefined when `r` is no operator. -/
def fullnameOf (s : Builder) (r : Nat) : Except Fault String :=
  match s.heap[r]? with
  | some ⟨.OperatorInstance _ _ _ fullname, _, _⟩ => .ok fullname
  | _ => .error .undefined

/-- Modelled from the spec: `OperatorInstance::Create(input_types, output_types)` of `ir.hpp`
followed by the two assignments to `name` and `fullname`. -/
def OperatorInstance.Create (ir_input_types ir_output_types : List TensorType)
    (name fullname : String) : Node :=
  ⟨.OperatorInstance ir_input_types ir_output_types name fullname, none, []⟩

/-- The callback of the guard `CreateOperator` returns. -/
def operatorRelease : ScopeGuard := fun s =>
  match pop s.operator_stack, pop s.block_stack, pop s.iterator_stack,
        pop s.temp_tensors_stack with
  | .ok o, .ok b, .ok i, .ok t =>
    .ok { s with operator_stack := o, block_stack := b, iterator_stack := i,
                 temp_tensors_stack := t }
  | _, _, _, _ => .error .undefined

/-- `Builder::CreateOperator`: the operator, its guard, the builder. -/
def CreateOperator (s : Builder) (ir_input_types ir_output_types : List TensorType)
    (name : String) : Except Fault (Nat × ScopeGuard × Builder) :=
  match (match s.operator_stack with
         | [] => Except.ok name
         | top :: _ =>
           match s.fullnameOf top with
           | .ok f => Except.ok (name ++ f)
           | .error e => .error e) with
  | .error e => .error e
  | .ok fullname =>
    match (if s.block_stack.length ≠ 0 then
             (s.alloc (OperatorInstance.Create ir_input_types ir_output_types name fullname)).2.Insert
               (s.alloc (OperatorInstance.Create ir_input_types ir_output_types name fullname)).1
           else
             .ok (s.alloc (OperatorInstance.Create ir_input_types ir_output_types name fullname)).2)
    with
    | .error e => .error e
    | .ok s1 =>
      .ok (s.heap.length, operatorRelease,
        { s1 with operator_stack := s.heap.length :: s1.operator_stack,
                  block_stack := s.heap.length :: s1.block_stack,
                  iterator_stack := ⟨s.heap.length⟩ :: s1.iterator_stack,
                  temp_tensors_stack := [] :: s1.temp_tensors_stack })

/-- Field `type` of the object at `r`; a null type or a dangling reference is undefined. -/
def typeOf (s : Builder) (r : Nat) : Except Fault TensorType :=
  match s.heap[r]? with
  | some ⟨_, some t, _⟩ => .ok t
  | _ => .error .undefined

/-- Field `shape` of the grid at `r`; undefined when `r` is no grid. -/
def gridShape (s : Builder) (r : Nat) : Except Fault (List Int) :=
  match s.heap[r]? with
  | some ⟨.Grid shape _, _, _⟩ => .ok shape
  | _ => .error .undefined

/-- Modelled from the spec: `Accessor::Create(value, transform_matrix, shift_vector)` of
`ir.hpp`. The accessor stands for one element of the tensor it references (it hides the rank
behind the grid), so its type is the element type. -/
def Accessor.Create (value_type : TensorType) (ir_value : Nat) (transform_matrix : MatrixXi64)
    (shift_vector : List Int) : Node :=
  ⟨.Accessor ir_value transform_matrix shift_vector, value_type.value_type, []⟩

/-- The local `parallel_rank` of `Builder::CreateAccessor`: the rank of the innermost open
grid, 0 when no grid is open. -/
def parallel_rank (s : Builder) : Except Fault Nat :=
  if s.parallel_stack.isEmpty then .ok 0
  else
    match s.CurrentGrid with
    | .error e => .error e
    | .ok g =>
      match s.gridShape g with
      | .error e => .error e
      | .ok sh => .ok sh.length

/-- `Builder::CreateAccessor`. -/
def CreateAccessor (s : Builder) (ir_value : Nat) : Except Fault (Nat × Builder) :=
  match s.typeOf ir_value with
  | .error e => .error e
  | .ok ir_tensor_type =>
    match s.parallel_rank with
    | .error e => .error e
    | .ok parallel_rank =>
      s.Create (Accessor.Create ir_tensor_type ir_value
        (MatrixXi64.Zero ir_tensor_type.shape.length parallel_rank)
        (VectorXi64.Zero ir_tensor_type.shape.length))

/-- `Builder::CreateIdentityAccessor`. -/
def CreateIdentityAccessor (s : Builder) (ir_value : Nat) : Except Fault (Nat × Builder) :=
  match s.typeOf ir_value with
  | .error e => .error e
  | .ok ir_tensor_type =>
    match s.CurrentGrid with
    | .error e => .error e
    | .ok g =>
      match s.gridShape g with
      | .error e => .error e
      | .ok sh =>
        s.Create (Accessor.Create ir_tensor_type ir_value
          (MatrixXi64.Identity ir_tensor_type.shape.length sh.length)
          (VectorXi64.Zero ir_tensor_type.shape.length))

/-- Assignment `accessor->shift_vector[k] = v`; undefined when `r` is no accessor or `k` is
out of range. -/
def setShift (s : Builder) (r : Nat) (k : Nat) (v : Int) : Except Fault Builder :=
  match s.heap[r]? with
  | some ⟨.Accessor value m shift, t, vs⟩ =>
    if k < shift.length then
      .ok { s with heap := s.heap.set r ⟨.Accessor value m (shift.set k v), t, vs⟩ }
    else .error .undefined
  | _ => .error .undefined

/-- Assignment `accessor->transform_matrix(i, j) = v`; undefined when `r` is no accessor or the
position is outside the matrix. -/
def setTransform (s : Builder) (r : Nat) (i j : Nat) (v : Int) : Except Fault Builder :=
  match s.heap[r]? with
  | some ⟨.Accessor value m shift, t, vs⟩ =>
    match m.setCoeff i j v with
    | .ok m1 => .ok { s with heap := s.heap.set r ⟨.Accessor value m1 shift, t, vs⟩ }
    | .error e => .error e
  | _ => .error .undefined

/-- Assignment `grid->enable_multi_thread = v`; undefined when `r` is no grid. -/
def setEnableMultiThread (s : Builder) (r : Nat) (v : Bool) : Except Fault Builder :=
  match s.heap[r]? with
  | some ⟨.Grid shape _, t, vs⟩ => .ok { s with heap := s.heap.set r ⟨.Grid shape v, t, vs⟩ }
  | _ => .error .undefined

/-- Modelled from the spec: `Accessor::Clone` of `ir.hpp`, a new object with its own copy of the
transform matrix and of the shift vector. The clone is not inserted into any block. -/
def Clone (s : Builder) (r : Nat) : Except Fault (Nat × Builder) :=
  match s.heap[r]? with
  | some n => .ok (s.alloc n)
  | none => .error .undefined

end Builder

/-- Modelled from the spec: `Write::Create(value, target)` of `ir.hpp`. -/
def Write.Create (value target : Nat) : Node := ⟨.Write value target, none, []⟩

/-- Modelled from the spec: `Add::Create(lhs, rhs)` of `ir.hpp`. -/
def Add.Create (lhs rhs : Nat) : Node := ⟨.Add lhs rhs, none, []⟩

/-- Modelled from the spec: `Mul::Create(lhs, rhs)` of `ir.hpp`. -/
def Mul.Create (lhs rhs : Nat) : Node := ⟨.Mul lhs rhs, none, []⟩

/-- Modelled from the spec: `BitCast::Create(value, type)` of `ir.hpp`, a view of `value` under
the type `type`. -/
def BitCast.Create (value : Nat) (type : Option TensorType) : Node := ⟨.BitCast value, type, []⟩

/-- Modelled from the spec: `VectorBroadcast::Create(value, lane)` of `ir.hpp`. -/
def VectorBroadcast.Create (value : Nat) (lane : Int) : Node :=
  ⟨.VectorBroadcast value lane, none, []⟩

/-- A properly nested use of the builder: a sequence of calls in which the guard of every
`CreateGrid` / `CreateOperator` is released after the calls of its `body`, so that guards are
released in reverse order of opening. -/
inductive Script
  | done
  | Create (v : Node) (rest : Script)
  | Insert (ir_value : Nat) (rest : Script)
  | CreateAccessor (ir_value : Nat) (rest : Script)
  | CreateIdentityAccessor (ir_value : Nat) (rest : Script)
  | CreateGrid (shape : List Int) (body rest : Script)
  | CreateOperator (ir_input_types ir_output_types : List TensorType) (name : String)
      (body rest : Script)
deriving Repr

namespace Script

/-- Runs the calls of a script on a builder. -/
def run : Script → Builder → Except Fault Builder
  | done, s => .ok s
  | Create v rest, s =>
    match s.Create v with
    | .error e => .error e
    | .ok (_, s1) => rest.run s1
  | Insert ir_value rest, s =>
    match s.Insert ir_value with
    | .error e => .error e
    | .ok s1 => rest.run s1
  | CreateAccessor ir_value rest, s =>
    match s.CreateAccessor ir_value with
    | .error e => .error e
    | .ok (_, s1) => rest.run s1
  | CreateIdentityAccessor ir_value rest, s =>
    match s.CreateIdentityAccessor ir_value with
    | .error e => .error e
    | .ok (_, s1) => rest.run s1
  | CreateGrid shape body rest, s =>
    match s.CreateGrid shape with
    | .error e => .error e
    | .ok (_, scope_guard, s1) =>
      match body.run s1 with
      | .error e => .error e
      | .ok s2 =>
        match scope_guard s2 with
        | .error e => .error e
        | .ok s3 => rest.run s3
  | CreateOperator ins outs name body rest, s =>
    match s.CreateOperator ins outs name with
    | .error e => .error e
    | .ok (_, scope_guard, s1) =>
      match body.run s1 with
      | .error e => .error e
      | .ok s2 =>
        match scope_guard s2 with
        | .error e => .error e
        | .ok s3 => rest.run s3

/-- The values a script passes to `Builder::Insert` (directly, or through `Create` and the
calls built on it), in the order of the calls. With `nested` the values of the bodies of the
scopes the script opens are included; without it only the values inserted while the scope the
script starts in is the innermost open one. -/
def inserted (nested : Bool) : Script → Builder → List Nat
  | done, _ => []
  | Create v rest, s =>
    match s.Create v with
    | .error _ => []
    | .ok (r, s1) => r :: rest.inserted nested s1
  | Insert ir_value rest, s =>
    match s.Insert ir_value with
    | .error _ => []
    | .ok s1 => ir_value :: rest.inserted nested s1
  | CreateAccessor ir_value rest, s =>
    match s.CreateAccessor ir_value with
    | .error _ => []
    | .ok (r, s1) => r :: rest.inserted nested s1
  | CreateIdentityAccessor ir_value rest, s =>
    match s.CreateIdentityAccessor ir_value with
    | .error _ => []
    | .ok (r, s1) => r :: rest.inserted nested s1
  | CreateGrid shape body rest, s =>
    match s.CreateGrid shape with
    | .error _ => []
    | .ok (g, scope_guard, s1) =>
      g :: ((if nested then body.inserted nested s1 else []) ++
        match body.run s1 with
        | .error _ => []
        | .ok s2 =>
          match scope_guard s2 with
          | .error _ => []
          | .ok s3 => rest.inserted nested s3)
  | CreateOperator ins outs name body rest, s =>
    match s.CreateOperator ins outs name with
    | .error _ => []
    | .ok (o, scope_guard, s1) =>
      (if s.block_stack.length ≠ 0 then [o] else []) ++
        ((if nested then body.inserted nested s1 else []) ++
          match body.run s1 with
          | .error _ => []
          | .ok s2 =>
            match scope_guard s2 with
            | .error _ => []
            | .ok s3 => rest.inserted nested s3)

/-- Scripts made of `Create`, `Insert`, `CreateGrid` and `CreateOperator` calls only: no call
in them reads the type of a value, which a value need not have. -/
def plain : Script → Bool
  | done => true
  | Create _ rest => rest.plain
  | Insert _ rest => rest.plain
  | CreateAccessor _ _ => false
  | CreateIdentityAccessor _ _ => false
  | CreateGrid _ body rest => body.plain && rest.plain
  | CreateOperator _ _ _ body rest => body.plain && rest.plain

end Script

/-- Modelled from the spec: the abstract class `Kernel` of `ir.hpp`, a specialised lowering rule
with a match predicate and a body-emission procedure. -/
structure Kernel where
  Match : List Nat → List Nat → Builder → Except Fault Bool
  Build : List Nat → List Nat → Builder → Except Fault Builder

namespace ProductKernel

open TensorType in
/-- The list `supported_types` of `ProductKernel::Match`. -/
def supported_types : List TensorType :=
  [CreateMatrixType (FloatType 16) 4 1,
   CreateMatrixType (FloatType 32) 4 1,
   CreateMatrixType (FloatType 64) 4 1,
   CreateMatrixType (IntType 8 true) 4 1]

/-- The `for` loop of `ProductKernel::Match` over the supported types. -/
def Match.loop (s : Builder) (ir_mat_a ir_mat_b : Nat) : List TensorType → Except Fault Bool
  | [] => .ok false
  | type :: rest => do
    let a ← s.deref ir_mat_a
    if a.type = some type then
      let b ← s.deref ir_mat_b
      match type.value_type with
      | none => .error .undefined
      | some value_type =>
        if b.type = some (TensorType.CreateMatrixType value_type 1 4) then
          pure true
        else Match.loop s ir_mat_a ir_mat_b rest
    else Match.loop s ir_mat_a ir_mat_b rest

/-- `ProductKernel::Match`. -/
def Match (ir_inputs _ir_outputs : List Nat) (s : Builder) : Except Fault Bool := do
  let ir_mat_a ← index ir_inputs 0
  let ir_mat_b ← index ir_inputs 1
  Match.loop s ir_mat_a ir_mat_b supported_types

/-- The vector type `ir_f_type` that `ProductKernel::Build` selects from the operand type;
`none` when no branch assigns it and the pointer stays null. -/
def Build.ir_f_type (type : TensorType) : Option TensorType :=
  match type.data_type with
  | .FloatType bits =>
    if bits = 16 then some (TensorType.Create (.FloatType 16) [4])
    else if bits = 32 then some (TensorType.Create (.FloatType 32) [4])
    else if bits = 64 then some (TensorType.Create (.FloatType 64) [4])
    else none
  | .IntType bits _ =>
    if bits = 8 then some (TensorType.Create (.IntType 8 true) [4]) else none
  | _ => none

/-- One iteration of the `for` loop of `ProductKernel::Build`. -/
def Build.body (ir_bit_cast_a ir_bit_cast_b ir_bit_cast_c : Nat) (i : Int) (s : Builder) :
    Except Fault Builder := do
  let (ir_vector_broadcast_a, s) ← s.Create (VectorBroadcast.Create ir_bit_cast_a i)
  let (ir_mul, s) ← s.Create (Mul.Create ir_vector_broadcast_a ir_bit_cast_b)
  let (ir_accessor_c, s) ← s.CreateAccessor ir_bit_cast_c
  let s ← s.setShift ir_accessor_c 0 i
  let (ir_sum, s) ← s.Create (Add.Create ir_mul ir_accessor_c)
  let (ir_clone, s) ← s.Clone ir_accessor_c
  let (_, s) ← s.Create (Write.Create ir_sum ir_clone)
  pure s

/-- The `for` loop of `ProductKernel::Build` over the lanes still to do. -/
def Build.loop (ir_bit_cast_a ir_bit_cast_b ir_bit_cast_c : Nat) :
    List Int → Builder → Except Fault Builder
  | [], s => .ok s
  | i :: rest, s => do
    let s ← Build.body ir_bit_cast_a ir_bit_cast_b ir_bit_cast_c i s
    Build.loop ir_bit_cast_a ir_bit_cast_b ir_bit_cast_c rest s

/-- `ProductKernel::Build`. -/
def Build (ir_inputs ir_outputs : List Nat) (s : Builder) : Except Fault Builder := do
  let ir_mat_a ← index ir_inputs 0
  let ir_mat_b ← index ir_inputs 1
  let ir_mat_c ← index ir_outputs 0
  let v4 : List Int := [4]
  let type_a ← s.typeOf ir_mat_a
  let ir_f_type := Build.ir_f_type type_a
  let (ir_bit_cast_a, s) ← s.Create (BitCast.Create ir_mat_a ir_f_type)
  let (ir_bit_cast_b, s) ← s.Create (BitCast.Create ir_mat_b ir_f_type)
  match ir_f_type with
  | none => .error .undefined
  | some f_type =>
    let (ir_bit_cast_c, s) ← s.Create (BitCast.Create ir_mat_c (some (TensorType.Create f_type v4)))
    Build.loop ir_bit_cast_a ir_bit_cast_b ir_bit_cast_c [0, 1, 2, 3] s

/-- The group of lane `i` as the loop of `ProductKernel::Build` leaves it in the arena, its first
object at address `first`: the broadcast of lane `i` of the reinterpreted left operand, its
product with the reinterpreted right operand, the accessor over the reinterpreted output with
shift `[i]`, the sum of the product and the accessor, the clone of the accessor, and the write of
the sum to the clone. -/
def Build.lane (ir_bit_cast_a ir_bit_cast_b ir_bit_cast_c : Nat) (f_type : TensorType)
    (first : Nat) (i : Int) : List Node :=
  [VectorBroadcast.Create ir_bit_cast_a i,
   Mul.Create first ir_bit_cast_b,
   ⟨.Accessor ir_bit_cast_c (MatrixXi64.Zero 1 0) [i], some f_type, []⟩,
   Add.Create (first + 1) (first + 2),
   ⟨.Accessor ir_bit_cast_c (MatrixXi64.Zero 1 0) [i], some f_type, []⟩,
   Write.Create (first + 3) (first + 4)]

/-- The objects of the group at address `first` that are inserted into the current block, in
order: all but the clone of the accessor. -/
def Build.laneValues (first : Nat) : List Nat :=
  [first, first + 1, first + 2, first + 3, first + 5]

/-- What `ProductKernel::Build` adds to the arena for `float32` operands `a`, `b` and output
`c`, the first object at address `first`: the three reinterpretations (of `a` and `b` as a vector
of 4, of `c` as 4 vectors of 4) and the groups of the lanes 0 to 3, in this order. -/
def Build.nodes (a b c first : Nat) : List Node :=
  BitCast.Create a (some (TensorType.Create (.FloatType 32) [4])) ::
  BitCast.Create b (some (TensorType.Create (.FloatType 32) [4])) ::
  BitCast.Create c (some (TensorType.Create (TensorType.Create (.FloatType 32) [4]) [4])) ::
  (Build.lane first (first + 1) (first + 2) (TensorType.Create (.FloatType 32) [4])
      (first + 3) 0 ++
   (Build.lane first (first + 1) (first + 2) (TensorType.Create (.FloatType 32) [4])
      (first + 9) 1 ++
   (Build.lane first (first + 1) (first + 2) (TensorType.Create (.FloatType 32) [4])
      (first + 15) 2 ++
    Build.lane first (first + 1) (first + 2) (TensorType.Create (.FloatType 32) [4])
      (first + 21) 3)))

/-- The objects of `Build.nodes` that are inserted into the current block, in order. -/
def Build.values (first : Nat) : List Nat :=
  first :: (first + 1) :: (first + 2) ::
  (Build.laneValues (first + 3) ++ (Build.laneValues (first + 9) ++
    (Build.laneValues (first + 15) ++ Build.laneValues (first + 21))))

end ProductKernel

/-- The kernel `ProductKernel` as an entry of the kernel queue. -/
def ProductKernel : Kernel := ⟨ProductKernel.Match, ProductKernel.Build⟩

namespace MatrixMultiplyCreator

/-- `MatrixMultiplyCreator::InferType` on the two types it reads. -/
def InferType.go : TensorType → TensorType → Except Fault TensorType
  | .Tensor value_type0 shape0, .Tensor value_type1 shape1 => do
    let ir_value_type ← InferType.go value_type0 value_type1
    let rows ← index shape0 0
    let cols ← index shape1 1
    pure (TensorType.CreateMatrixType ir_value_type rows cols)
  | .Tensor _ _, _ => .error .undefined
  | type0, type1 =>
    if type0.IsScalar && type1.IsScalar then do
      GALOIS_ASSERT (type0 = type1)
      pure type0
    else .error .undefined

/-- `MatrixMultiplyCreator::InferType`. -/
def InferType (ir_input_types : List TensorType) : Except Fault TensorType := do
  let type0 ← index ir_input_types 0
  let type1 ← index ir_input_types 1
  InferType.go type0 type1

/-- The kernel loop at the head of `MatrixMultiplyCreator::AffineExpress`: `some r` when the loop
returns from the function with the outcome `r` of a `Build`, `none` when it runs to its end. -/
def AffineExpress.kernels (ir_inputs ir_outputs : List Nat) (s : Builder) :
    List Kernel → Option (Except Fault Builder)
  | [] => none
  | ir_kernel :: rest =>
    match ir_kernel.Match ir_inputs ir_outputs s with
    | .error e => some (.error e)
    | .ok true => some (ir_kernel.Build ir_inputs ir_outputs s)
    | .ok false => AffineExpress.kernels ir_inputs ir_outputs s rest

/-- The scalar case of `MatrixMultiplyCreator::AffineExpress`: `output ← a * b + output`. -/
def AffineExpress.scalar (ir_mat_a ir_mat_b ir_mat_c : Nat) (s : Builder) :
    Except Fault Builder := do
  let (ir_mul, s) ← s.Create (Mul.Create ir_mat_a ir_mat_b)
  let (ir_re, s) ← s.Create (Add.Create ir_mul ir_mat_c)
  let (_, s) ← s.Create (Write.Create ir_re ir_mat_c)
  pure s

/-- The three assertions of the tensor case of `MatrixMultiplyCreator::AffineExpress`, the shape
law; returns the extents `(a.shape[0], a.shape[1], b.shape[1])` that the call of `CreateGrid`
after them reads. -/
def AffineExpress.shapeLaw (type_a : TensorType) (ir_mat_b ir_mat_c : Nat) (s : Builder) :
    Except Fault (List Int) := do
  let a1 ← index type_a.shape 1
  let type_b ← s.typeOf ir_mat_b
  let b0 ← index type_b.shape 0
  GALOIS_ASSERT (a1 = b0)
  let type_c ← s.typeOf ir_mat_c
  let c0 ← index type_c.shape 0
  let a0 ← index type_a.shape 0
  GALOIS_ASSERT (c0 = a0)
  let c1 ← index type_c.shape 1
  let b1 ← index type_b.shape 1
  GALOIS_ASSERT (c1 = b1)
  pure [a0, a1, b1]

/-- The three accessors of the tensor case of `MatrixMultiplyCreator::AffineExpress`: each is
created by `CreateAccessor` and gets two coefficients of its transform matrix set to 1. -/
def AffineExpress.accessors (ir_mat_a ir_mat_b ir_mat_c : Nat) (s : Builder) :
    Except Fault (Nat × Nat × Nat × Builder) := do
  let (ir_accessor_a, s) ← s.CreateAccessor ir_mat_a
  let s ← s.setTransform ir_accessor_a 0 0 1
  let s ← s.setTransform ir_accessor_a 1 1 1
  let (ir_accessor_b, s) ← s.CreateAccessor ir_mat_b
  let s ← s.setTransform ir_accessor_b 0 1 1
  let s ← s.setTransform ir_accessor_b 1 2 1
  let (ir_accessor_c, s) ← s.CreateAccessor ir_mat_c
  let s ← s.setTransform ir_accessor_c 0 0 1
  let s ← s.setTransform ir_accessor_c 1 2 1
  pure (ir_accessor_a, ir_accessor_b, ir_accessor_c, s)

/-- The builder at the recursive call of the tensor case of
`MatrixMultiplyCreator::AffineExpress` on matrices `a`, `b`, `c` of shapes `(m, k)`, `(k, n)`,
`(m, n)` over the element types `ea`, `eb`, `ec`, started in the builder `s` whose current block
is `block`, the object `nd`: the grid, at the address `s.heap.length`, is inserted into `block`
and open, and holds the three accessors, which follow it in the arena. -/
def AffineExpress.inGrid (s : Builder) (block : Nat) (nd : Node) (flag : Bool) (a b c : Nat)
    (ea eb ec : TensorType) (m k n : Int) : Builder :=
  (s.emit block nd [s.heap.length]
    [⟨.Grid [m, k, n] flag, none, [s.heap.length + 1, s.heap.length + 2, s.heap.length + 3]⟩,
     ⟨.Accessor a ⟨2, 3, [[1, 0, 0], [0, 1, 0]]⟩ [0, 0], some ea, []⟩,
     ⟨.Accessor b ⟨2, 3, [[0, 1, 0], [0, 0, 1]]⟩ [0, 0], some eb, []⟩,
     ⟨.Accessor c ⟨2, 3, [[1, 0, 0], [0, 0, 1]]⟩ [0, 0], some ec, []⟩]).pushGrid s.heap.length

/-- The tensor case of `MatrixMultiplyCreator::AffineExpress`; `recurse` is the call
`this->AffineExpress`, and the guard of the grid is released when the function returns. -/
def AffineExpress.tensor (enable_multi_thread : TensorType → Bool)
    (recurse : List Nat → List Nat → Builder → Except Fault Builder)
    (ir_mat_a ir_mat_b ir_mat_c : Nat) (type_a : TensorType) (s : Builder) :
    Except Fault Builder := do
  let extents ← AffineExpress.shapeLaw type_a ir_mat_b ir_mat_c s
  let (ir_grid, scope_guard, s) ← s.CreateGrid extents
  let s ← s.setEnableMultiThread ir_grid (enable_multi_thread type_a)
  let (ir_accessor_a, ir_accessor_b, ir_accessor_c, s) ←
    AffineExpress.accessors ir_mat_a ir_mat_b ir_mat_c s
  let s ← recurse [ir_accessor_a, ir_accessor_b] [ir_accessor_c] s
  scope_guard s

/-- The part of `MatrixMultiplyCreator::AffineExpress` after the kernel loop, the generic
expansion; `recurse` is the call `this->AffineExpress`. -/
def AffineExpress.generic (enable_multi_thread : TensorType → Bool)
    (recurse : List Nat → List Nat → Builder → Except Fault Builder)
    (ir_inputs ir_outputs : List Nat) (s : Builder) : Except Fault Builder :=
  match index ir_inputs 0 with
  | .error e => .error e
  | .ok ir_mat_a =>
    match index ir_inputs 1 with
    | .error e => .error e
    | .ok ir_mat_b =>
      match index ir_outputs 0 with
      | .error e => .error e
      | .ok ir_mat_c =>
        match s.typeOf ir_mat_a with
        | .error e => .error e
        | .ok type_a =>
          if type_a.IsScalar then
            AffineExpress.scalar ir_mat_a ir_mat_b ir_mat_c s
          else
            AffineExpress.tensor enable_multi_thread recurse ir_mat_a ir_mat_b ir_mat_c type_a s

/-- `MatrixMultiplyCreator::AffineExpress`. The first argument stands for the field
`enable_multi_thread` of the types of `ir.hpp`, the second is the `kernel_queue` of the builder,
the third bounds the depth of the recursion. -/
def AffineExpress (enable_multi_thread : TensorType → Bool) (kernel_queue : List Kernel) :
    Nat → List Nat → List Nat → Builder → Except Fault Builder
  | 0, _, _, _ => .error .fuel
  | fuel + 1, ir_inputs, ir_outputs, s =>
    match AffineExpress.kernels ir_inputs ir_outputs s kernel_queue with
    | some r => r
    | none =>
      AffineExpress.generic enable_multi_thread
        (AffineExpress enable_multi_thread kernel_queue fuel) ir_inputs ir_outputs s

end MatrixMultiplyCreator

namespace CopyOperatorCreator

/-- `CopyOperatorCreator::AffineExpress`; the first argument bounds the depth of the recursion.
The `if` on a scalar input has no `return`: the code after it runs in both cases. -/
def AffineExpress : Nat → List Nat → List Nat → Builder → Except Fault Builder
  | 0, _, _, _ => .error .fuel
  | fuel + 1, ir_inputs, ir_outputs, s => do
    let input0 ← index ir_inputs 0
    let type0 ← s.typeOf input0
    let s ← (if type0.IsScalar then do
        let output0 ← index ir_outputs 0
        let (_, s1) ← s.Create (Write.Create input0 output0)
        pure s1
      else pure s)
    let (_, scope_guard, s) ← s.CreateGrid type0.shape
    let (ir_input_accessor, s) ← s.CreateIdentityAccessor input0
    let output0 ← index ir_outputs 0
    let (ir_output_accessor, s) ← s.CreateIdentityAccessor output0
    let s ← AffineExpress fuel [ir_input_accessor] [ir_output_accessor] s
    scope_guard s

end CopyOperatorCreator

/-- What `run_frame` establishes about a run from `s` to `s'` that passed the values
`vs` to `Insert` while the scope it started in was the innermost: the block on top of `s` got
`vs` appended, and every other object that existed in `s` is unchanged. -/
def Script.Frame (s s' : Builder) (vs : List Nat) : Prop :=
  (∀ x, x < s.heap.length → s.block_stack.head? ≠ some x → s'.heap[x]? = s.heap[x]?) ∧
  (∀ b n, s.block_stack.head? = some b → s.heap[b]? = some n →
    s'.heap[b]? = some { n with values := n.values ++ vs })

/-- Nested calls of `Builder::CreateOperator` with the given names, outermost first: each call is
made while the scopes of the calls before it are still open. -/
def Builder.CreateOperators (ir_input_types ir_output_types : List TensorType) :
    List String → Builder → Except Fault Builder
  | [], s => .ok s
  | name :: rest, s =>
    match s.CreateOperator ir_input_types ir_output_types name with
    | .error e => .error e
    | .ok (_, _, s1) => Builder.CreateOperators ir_input_types ir_output_types rest s1

/-- Modelled from the spec: the coordinate of the referenced tensor that an accessor with the
transform `transform_matrix` and the shift `shift_vector` reads at the index vector `i` of the
enclosing grid, `M·i + s`. The class `Accessor` is in `ir.hpp`. -/
def Accessor.coordinate (transform_matrix : MatrixXi64) (shift_vector : List Int)
    (i : List Int) : List Int :=
  List.zipWith (· + ·) (transform_matrix.mulVec i) shift_vector

/-- The builder states reachable from the empty builder by the operations of the builder,
together with the guards of the scopes that are open, innermost first. A guard is released
only when it is the innermost one, that is in reverse order of opening. -/
inductive Builder.Reachable : Builder → List ScopeGuard → Prop
  | empty : Builder.Reachable Builder.empty []
  | Create {s s' : Builder} {guards : List ScopeGuard} {v : Node} {r : Nat} :
      Builder.Reachable s guards → s.Create v = .ok (r, s') → Builder.Reachable s' guards
  | Insert {s s' : Builder} {guards : List ScopeGuard} {v : Nat} :
      Builder.Reachable s guards → s.Insert v = .ok s' → Builder.Reachable s' guards
  | CreateAccessor {s s' : Builder} {guards : List ScopeGuard} {v r : Nat} :
      Builder.Reachable s guards → s.CreateAccessor v = .ok (r, s') →
      Builder.Reachable s' guards
  | CreateIdentityAccessor {s s' : Builder} {guards : List ScopeGuard} {v r : Nat} :
      Builder.Reachable s guards → s.CreateIdentityAccessor v = .ok (r, s') →
      Builder.Reachable s' guards
  | CreateGrid {s s' : Builder} {guards : List ScopeGuard} {shape : List Int} {g : Nat}
      {guard : ScopeGuard} :
      Builder.Reachable s guards → s.CreateGrid shape = .ok (g, guard, s') →
      Builder.Reachable s' (guard :: guards)
  | CreateOperator {s s' : Builder} {guards : List ScopeGuard}
      {ir_input_types ir_output_types : List TensorType} {name : String} {o : Nat}
      {guard : ScopeGuard} :
      Builder.Reachable s guards →
      s.CreateOperator ir_input_types ir_output_types name = .ok (o, guard, s') →
      Builder.Reachable s' (guard :: guards)
  | release {s s' : Builder} {guards : List ScopeGuard} {guard : ScopeGuard} :
      Builder.Reachable s (guard :: guards) → guard s = .ok s' → Builder.Reachable s' guards

/-- One step of a function body with the place of a fault kept: when the step `r`, made in the
builder `s`, faults, the fault is reported together with `s`, the builder at the start of the
step; otherwise the body goes on with `k`. -/
def Builder.located {α β : Type} (s : Builder) (r : Except Fault α)
    (k : α → Except (Fault × Builder) β) : Except (Fault × Builder) β :=
  match r with
  | .error e => .error (e, s)
  | .ok a => k a

/-- The outcome of a run without the builder of its fault. -/
def forgetBuilder {α : Type} : Except (Fault × Builder) α → Except Fault α
  | .error (e, _) => .error e
  | .ok a => .ok a

namespace MatrixMultiplyCreator

/-- The kernel loop of `MatrixMultiplyCreator::AffineExpress` as in `AffineExpress.kernels`,
with the builder of a fault kept. -/
def AffineExpress.kernels.traced (ir_inputs ir_outputs : List Nat) (s : Builder) :
    List Kernel → Option (Except (Fault × Builder) Builder)
  | [] => none
  | ir_kernel :: rest =>
    match ir_kernel.Match ir_inputs ir_outputs s with
    | .error e => some (.error (e, s))
    | .ok true => some (s.located (ir_kernel.Build ir_inputs ir_outputs s) .ok)
    | .ok false => AffineExpress.kernels.traced ir_inputs ir_outputs s rest

/-- The scalar case of `MatrixMultiplyCreator::AffineExpress` as in `AffineExpress.scalar`,
with the builder of a fault kept. -/
def AffineExpress.scalar.traced (ir_mat_a ir_mat_b ir_mat_c : Nat) (s : Builder) :
    Except (Fault × Builder) Builder :=
  s.located (s.Create (Mul.Create ir_mat_a ir_mat_b)) fun ir_mul =>
  ir_mul.2.located (ir_mul.2.Create (Add.Create ir_mul.1 ir_mat_c)) fun ir_re =>
  ir_re.2.located (ir_re.2.Create (Write.Create ir_re.1 ir_mat_c)) fun ir_write =>
  .ok ir_write.2

/-- The three accessors of the tensor case as in `AffineExpress.accessors`, with the builder
of a fault kept. -/
def AffineExpress.accessors.traced (ir_mat_a ir_mat_b ir_mat_c : Nat) (s : Builder) :
    Except (Fault × Builder) (Nat × Nat × Nat × Builder) :=
  s.located (s.CreateAccessor ir_mat_a) fun ir_accessor_a =>
  ir_accessor_a.2.located (ir_accessor_a.2.setTransform ir_accessor_a.1 0 0 1) fun s1 =>
  s1.located (s1.setTransform ir_accessor_a.1 1 1 1) fun s2 =>
  s2.located (s2.CreateAccessor ir_mat_b) fun ir_accessor_b =>
  ir_accessor_b.2.located (ir_accessor_b.2.setTransform ir_accessor_b.1 0 1 1) fun s3 =>
  s3.located (s3.setTransform ir_accessor_b.1 1 2 1) fun s4 =>
  s4.located (s4.CreateAccessor ir_mat_c) fun ir_accessor_c =>
  ir_accessor_c.2.located (ir_accessor_c.2.setTransform ir_accessor_c.1 0 0 1) fun s5 =>
  s5.located (s5.setTransform ir_accessor_c.1 1 2 1) fun s6 =>
  .ok (ir_accessor_a.1, ir_accessor_b.1, ir_accessor_c.1, s6)

/-- The tensor case of `MatrixMultiplyCreator::AffineExpress` as in `AffineExpress.tensor`,
with the builder of a fault kept: the three assertions of the shape law, `CreateGrid`, the
assignment of the flag, the accessors, the recursive call and the release of the guard, in the
order of the source. -/
def AffineExpress.tensor.traced (enable_multi_thread : TensorType → Bool)
    (recurse : List Nat → List Nat → Builder → Except (Fault × Builder) Builder)
    (ir_mat_a ir_mat_b ir_mat_c : Nat) (type_a : TensorType) (s : Builder) :
    Except (Fault × Builder) Builder :=
  s.located (AffineExpress.shapeLaw type_a ir_mat_b ir_mat_c s) fun extents =>
  s.located (s.CreateGrid extents) fun ir_grid =>
  ir_grid.2.2.located
    (ir_grid.2.2.setEnableMultiThread ir_grid.1 (enable_multi_thread type_a)) fun s1 =>
  match AffineExpress.accessors.traced ir_mat_a ir_mat_b ir_mat_c s1 with
  | .error e => .error e
  | .ok accessors =>
    match recurse [accessors.1, accessors.2.1] [accessors.2.2.1] accessors.2.2.2 with
    | .error e => .error e
    | .ok s2 => s2.located (ir_grid.2.1 s2) .ok

/-- The generic expansion as in `AffineExpress.generic`, with the builder of a fault kept. -/
def AffineExpress.generic.traced (enable_multi_thread : TensorType → Bool)
    (recurse : List Nat → List Nat → Builder → Except (Fault × Builder) Builder)
    (ir_inputs ir_outputs : List Nat) (s : Builder) : Except (Fault × Builder) Builder :=
  s.located (index ir_inputs 0) fun ir_mat_a =>
  s.located (index ir_inputs 1) fun ir_mat_b =>
  s.located (index ir_outputs 0) fun ir_mat_c =>
  s.located (s.typeOf ir_mat_a) fun type_a =>
  if type_a.IsScalar then
    AffineExpress.scalar.traced ir_mat_a ir_mat_b ir_mat_c s
  else
    AffineExpress.tensor.traced enable_multi_thread recurse ir_mat_a ir_mat_b ir_mat_c type_a s

/-- `MatrixMultiplyCreator::AffineExpress` as in `AffineExpress`, with the builder of a fault
kept: a failing call reports the builder in which the failing step started, so what had been
emitted when the call failed can be read off. -/
def AffineExpress.traced (enable_multi_thread : TensorType → Bool) (kernel_queue : List Kernel) :
    Nat → List Nat → List Nat → Builder → Except (Fault × Builder) Builder
  | 0, _, _, s => .error (.fuel, s)
  | fuel + 1, ir_inputs, ir_outputs, s =>
    match AffineExpress.kernels.traced ir_inputs ir_outputs s kernel_queue with
    | some r => r
    | none =>
      AffineExpress.generic.traced enable_multi_thread
        (AffineExpress.traced enable_multi_thread kernel_queue fuel) ir_inputs ir_outputs s

end MatrixMultiplyCreator

/-! ## Example states and scripts -/

namespace Example

open TensorType

/-- A builder in which one top-level operator `op` is open; the arena also holds a 4×1, a 1×4
and a 4×4 `float32` tensor (objects 1, 2 and 3) that are in no block. -/
def opened : Builder :=
  { heap := [⟨.OperatorInstance [] [] "op" "op", none, []⟩,
             ⟨.Tensor, some (CreateMatrixType (FloatType 32) 4 1), []⟩,
             ⟨.Tensor, some (CreateMatrixType (FloatType 32) 1 4), []⟩,
             ⟨.Tensor, some (CreateMatrixType (FloatType 32) 4 4), []⟩],
    parallel_stack := [],
    operator_stack := [0],
    block_stack := [0],
    iterator_stack := [⟨0⟩],
    temp_tensors_stack := [[]] }

/-- A plain tensor value of type `float32`. -/
def scalarTensor : Node := ⟨.Tensor, some (FloatType 32), []⟩

/-- The calls made while the grid of `nested` is open: a value, a nested operator (with a grid
of its own that holds one value) and a second value. -/
def body : Script :=
  .Create scalarTensor
    (.CreateOperator [] [] "inner"
      (.CreateGrid [3] (.Create scalarTensor .done) .done)
      (.Create scalarTensor .done))

/-- The call made after the grid of `nested` is closed: one more value. -/
def after : Script := .Create scalarTensor .done

/-- A grid of extent 2 opened around `body` and followed by `after`. -/
def nested : Script := .CreateGrid [2] body after

/-- A builder in which one top-level operator is open; objects 1 and 2 are two `float32`
scalars that are in no block. -/
def scalars : Builder :=
  { heap := [⟨.OperatorInstance [] [] "op" "op", none, []⟩,
             ⟨.Tensor, some (FloatType 32), []⟩,
             ⟨.Tensor, some (FloatType 32), []⟩],
    parallel_stack := [],
    operator_stack := [0],
    block_stack := [0],
    iterator_stack := [⟨0⟩],
    temp_tensors_stack := [[]] }

/-- The builder `scalars` at the recursive call of the passthrough lowering of object 1 into
object 2: the `Write` (object 3) is followed by a grid of rank 0 (object 4), which is open and
holds the accessors 5 and 6. -/
def scalarsInGrid : Builder :=
  { heap := [⟨.OperatorInstance [] [] "op" "op", none, [3, 4]⟩,
             ⟨.Tensor, some (FloatType 32), []⟩,
             ⟨.Tensor, some (FloatType 32), []⟩,
             ⟨.Write 1 2, none, []⟩,
             ⟨.Grid [] false, none, [5, 6]⟩,
             ⟨.Accessor 1 ⟨0, 0, []⟩ [], none, []⟩,
             ⟨.Accessor 2 ⟨0, 0, []⟩ [], none, []⟩],
    parallel_stack := [4],
    operator_stack := [0],
    block_stack := [4, 0],
    iterator_stack := [⟨4⟩, ⟨0⟩],
    temp_tensors_stack := [[]] }

/-- A builder in which one top-level operator is open; objects 1 and 2 are two `float32`
tensors of shape `(2)` that are in no block. -/
def vectors : Builder :=
  { heap := [⟨.OperatorInstance [] [] "op" "op", none, []⟩,
             ⟨.Tensor, some (TensorType.Create (FloatType 32) [2]), []⟩,
             ⟨.Tensor, some (TensorType.Create (FloatType 32) [2]), []⟩],
    parallel_stack := [],
    operator_stack := [0],
    block_stack := [0],
    iterator_stack := [⟨0⟩],
    temp_tensors_stack := [[]] }

/-- The builder `vectors` at the second recursive call of the passthrough lowering of object 1
into object 2: the grid of extent 2 (object 3) holds the identity accessors 4 and 5, the `Write`
(object 6) and a second grid, of rank 0 (object 7), which is open and holds the accessors 8
and 9. -/
def vectorsSecondGrid : Builder :=
  { heap := [⟨.OperatorInstance [] [] "op" "op", none, [3]⟩,
             ⟨.Tensor, some (TensorType.Create (FloatType 32) [2]), []⟩,
             ⟨.Tensor, some (TensorType.Create (FloatType 32) [2]), []⟩,
             ⟨.Grid [2] false, none, [4, 5, 6, 7]⟩,
             ⟨.Accessor 1 ⟨1, 1, [[1]]⟩ [0], some (FloatType 32), []⟩,
             ⟨.Accessor 2 ⟨1, 1, [[1]]⟩ [0], some (FloatType 32), []⟩,
             ⟨.Write 4 5, none, []⟩,
             ⟨.Grid [] false, none, [8, 9]⟩,
             ⟨.Accessor 4 ⟨0, 0, []⟩ [], none, []⟩,
             ⟨.Accessor 5 ⟨0, 0, []⟩ [], none, []⟩],
    parallel_stack := [7, 3],
    operator_stack := [0],
    block_stack := [7, 3, 0],
    iterator_stack := [⟨7⟩, ⟨3⟩, ⟨0⟩],
    temp_tensors_stack := [[]] }

/-- A kernel that accepts every operand list and emits nothing. -/
def fallback : Kernel := ⟨fun _ _ _ => .ok true, fun _ _ s => .ok s⟩

/-- The builder `opened` right after `CreateGrid` of extent 2: the grid is object 4. -/
def inGrid : Builder :=
  { heap := [⟨.OperatorInstance [] [] "op" "op", none, [4]⟩,
             ⟨.Tensor, some (CreateMatrixType (FloatType 32) 4 1), []⟩,
             ⟨.Tensor, some (CreateMatrixType (FloatType 32) 1 4), []⟩,
             ⟨.Tensor, some (CreateMatrixType (FloatType 32) 4 4), []⟩,
             ⟨.Grid [2] false, none, []⟩],
    parallel_stack := [4],
    operator_stack := [0],
    block_stack := [4, 0],
    iterator_stack := [⟨4⟩, ⟨0⟩],
    temp_tensors_stack := [[]] }

/-- The builder `vectors` right after `CreateGrid` of extent 2: the grid is object 3. -/
def vectorsInGrid : Builder :=
  { heap := [⟨.OperatorInstance [] [] "op" "op", none, [3]⟩,
             ⟨.Tensor, some (TensorType.Create (FloatType 32) [2]), []⟩,
             ⟨.Tensor, some (TensorType.Create (FloatType 32) [2]), []⟩,
             ⟨.Grid [2] false, none, []⟩],
    parallel_stack := [3],
    operator_stack := [0],
    block_stack := [3, 0],
    iterator_stack := [⟨3⟩, ⟨0⟩],
    temp_tensors_stack := [[]] }

/-- A builder in which one top-level operator `op` is open; the arena also holds a 2×3, a 3×5
and a 2×5 `float32` tensor (objects 1, 2 and 3) that are in no block. -/
def rect : Builder :=
  { heap := [⟨.OperatorInstance [] [] "op" "op", none, []⟩,
             ⟨.Tensor, some (CreateMatrixType (FloatType 32) 2 3), []⟩,
             ⟨.Tensor, some (CreateMatrixType (FloatType 32) 3 5), []⟩,
             ⟨.Tensor, some (CreateMatrixType (FloatType 32) 2 5), []⟩],
    parallel_stack := [],
    operator_stack := [0],
    block_stack := [0],
    iterator_stack := [⟨0⟩],
    temp_tensors_stack := [[]] }

/-- A builder in which one top-level operator `op` is open; the objects 1, 2 and 3 are matrices
of shapes `(2, 3)`, `(3, 5)` and `(2, 5)` whose elements are themselves `float32` matrices, of
shapes `(2, 3)`, `(4, 5)` and `(2, 5)`. -/
def nestedMatrices : Builder :=
  { heap := [⟨.OperatorInstance [] [] "op" "op", none, []⟩,
             ⟨.Tensor, some (CreateMatrixType (CreateMatrixType (FloatType 32) 2 3) 2 3), []⟩,
             ⟨.Tensor, some (CreateMatrixType (CreateMatrixType (FloatType 32) 4 5) 3 5), []⟩,
             ⟨.Tensor, some (CreateMatrixType (CreateMatrixType (FloatType 32) 2 5) 2 5), []⟩],
    parallel_stack := [],
    operator_stack := [0],
    block_stack := [0],
    iterator_stack := [⟨0⟩],
    temp_tensors_stack := [[]] }

/-- The builder `opened` with the 1×4 right operand replaced by a 2×4 matrix, whose row count
differs from the column count of the 4×1 left operand. -/
def mismatched : Builder :=
  { heap := [⟨.OperatorInstance [] [] "op" "op", none, []⟩,
             ⟨.Tensor, some (CreateMatrixType (FloatType 32) 4 1), []⟩,
             ⟨.Tensor, some (CreateMatrixType (FloatType 32) 2 4), []⟩,
             ⟨.Tensor, some (CreateMatrixType (FloatType 32) 4 4), []⟩],
    parallel_stack := [],
    operator_stack := [0],
    block_stack := [0],
    iterator_stack := [⟨0⟩],
    temp_tensors_stack := [[]] }

end Example

/-! ## Basic facts about the builder operations -/

theorem index_zero {α : Type} (a : α) (l : List α) : index (a :: l) 0 = .ok a := by
  simp only [index, List.getElem?_cons_zero]

theorem index_one {α : Type} (a b : α) (l : List α) : index (a :: b :: l) 1 = .ok b := by
  simp only [index, List.getElem?_cons_zero, List.getElem?_cons_succ]

namespace Builder

theorem stackState_eq_iff (s t : Builder) :
    s.stackState = t.stackState ↔
      s.parallel_stack = t.parallel_stack ∧ s.operator_stack = t.operator_stack ∧
      s.block_stack = t.block_stack ∧ s.iterator_stack = t.iterator_stack ∧
      s.temp_tensors_stack = t.temp_tensors_stack := by
  simp [stackState]

/-- What a successful `Insert` did: it appended the value to the block on top. -/
theorem Insert_eq_ok {s s' : Builder} {v : Nat} (h : s.Insert v = .ok s') :
    ∃ b bs its n, s.block_stack = b :: bs ∧ s.iterator_stack = ⟨b⟩ :: its ∧
      s.heap[b]? = some n ∧
      s' = { s with heap := s.heap.set b { n with values := n.values ++ [v] } } := by
  unfold Insert at h
  cases hi : s.iterator_stack with
  | nil => simp [hi] at h
  | cons it its =>
    cases hb : s.block_stack with
    | nil => simp [hi, hb, CurrentBlock] at h
    | cons b bs =>
      simp only [hi, hb, CurrentBlock, listInsert] at h
      by_cases hit : it.list = b
      · cases hn : s.heap[b]? with
        | none => simp [hit, hn] at h
        | some n =>
          simp only [hit, hn, if_true] at h
          refine ⟨b, bs, its, n, rfl, ?_, hn, ?_⟩
          · cases it; simp_all
          · injection h with h; exact h.symm
      · simp [hit] at h

/-- When `Insert` succeeds. -/
theorem Insert_ok {s : Builder} {b : Nat} {bs : List Nat} {its : List Iterator} {n : Node}
    (v : Nat) (hb : s.block_stack = b :: bs) (hi : s.iterator_stack = ⟨b⟩ :: its)
    (hn : s.heap[b]? = some n) :
    s.Insert v = .ok { s with heap := s.heap.set b { n with values := n.values ++ [v] } } := by
  simp [Insert, hb, hi, CurrentBlock, listInsert, hn]

/-- What a successful `Create` did. -/
theorem Create_eq_ok {s s' : Builder} {v : Node} {r : Nat} (h : s.Create v = .ok (r, s')) :
    r = s.heap.length ∧
    ∃ b bs its n, s.block_stack = b :: bs ∧ s.iterator_stack = ⟨b⟩ :: its ∧
      (s.heap ++ [v])[b]? = some n ∧
      s' = { s with heap := (s.heap ++ [v]).set b { n with values := n.values ++ [r] } } := by
  unfold Create at h
  cases hI : (s.alloc v).2.Insert (s.alloc v).1 with
  | error e => simp [hI] at h
  | ok s1 =>
    simp only [hI, Except.ok.injEq, Prod.mk.injEq] at h
    obtain ⟨hr, hs⟩ := h
    obtain ⟨b, bs, its, n, h1, h2, h3, h4⟩ := Insert_eq_ok hI
    subst hs
    refine ⟨by simp [← hr, alloc], b, bs, its, n, h1, h2, h3, ?_⟩
    rw [h4, ← hr]; rfl

/-- When `Create` succeeds. -/
theorem Create_ok {s : Builder} {b : Nat} {bs : List Nat} {its : List Iterator} {n : Node}
    (v : Node) (hb : s.block_stack = b :: bs) (hi : s.iterator_stack = ⟨b⟩ :: its)
    (hn : s.heap[b]? = some n) :
    s.Create v = .ok (s.heap.length,
      { s with heap := s.heap.set b { n with values := n.values ++ [s.heap.length] } ++ [v] }) := by
  have hlt : b < s.heap.length := by
    rcases Nat.lt_or_ge b s.heap.length with h | h
    · exact h
    · rw [List.getElem?_eq_none h] at hn; cases hn
  have hn' : (s.heap ++ [v])[b]? = some n := by
    rw [List.getElem?_append_left hlt]; exact hn
  have := Insert_ok (s := (s.alloc v).2) (s.alloc v).1 hb hi hn'
  unfold Create
  rw [this]
  simp only [alloc]
  congr 2
  simp [List.set_append, hlt]

theorem Insert_stacks {s s' : Builder} {v : Nat} (h : s.Insert v = .ok s') :
    s'.stackState = s.stackState ∧ s'.heap.length = s.heap.length := by
  obtain ⟨b, bs, its, n, -, -, -, rfl⟩ := Insert_eq_ok h
  simp [stackState]

theorem Create_stacks {s s' : Builder} {v : Node} {r : Nat} (h : s.Create v = .ok (r, s')) :
    s'.stackState = s.stackState ∧ s'.heap.length = s.heap.length + 1 ∧ r = s.heap.length := by
  obtain ⟨hr, b, bs, its, n, -, -, -, rfl⟩ := Create_eq_ok h
  exact ⟨by simp [stackState], by simp, hr⟩

theorem CreateAccessor_stacks {s s' : Builder} {v r : Nat}
    (h : s.CreateAccessor v = .ok (r, s')) :
    s'.stackState = s.stackState ∧ s'.heap.length = s.heap.length + 1 ∧ r = s.heap.length := by
  unfold CreateAccessor at h
  cases ht : s.typeOf v with
  | error e => simp [ht] at h
  | ok t =>
    cases hp : s.parallel_rank with
    | error e => simp [ht, hp] at h
    | ok p =>
      simp only [ht, hp] at h
      exact Create_stacks h

theorem CreateIdentityAccessor_stacks {s s' : Builder} {v r : Nat}
    (h : s.CreateIdentityAccessor v = .ok (r, s')) :
    s'.stackState = s.stackState ∧ s'.heap.length = s.heap.length + 1 ∧ r = s.heap.length := by
  unfold CreateIdentityAccessor at h
  cases ht : s.typeOf v with
  | error e => simp [ht] at h
  | ok t =>
    cases hg : s.CurrentGrid with
    | error e => simp [ht, hg] at h
    | ok g =>
      cases hs : s.gridShape g with
      | error e => simp [ht, hg, hs] at h
      | ok sh =>
        simp only [ht, hg, hs] at h
        exact Create_stacks h

/-- What a successful `CreateGrid` did. -/
theorem CreateGrid_eq_ok {s s1 : Builder} {shape : List Int} {g : Nat} {guard : ScopeGuard}
    (h : s.CreateGrid shape = .ok (g, guard, s1)) :
    ∃ s0, s.Create (Grid.Create shape) = .ok (g, s0) ∧ guard = gridRelease ∧
      s1 = { s0 with parallel_stack := g :: s0.parallel_stack,
                     block_stack := g :: s0.block_stack,
                     iterator_stack := ⟨g⟩ :: s0.iterator_stack } := by
  unfold CreateGrid at h
  cases hc : s.Create (Grid.Create shape) with
  | error e => simp [hc] at h
  | ok p =>
    obtain ⟨g0, s0⟩ := p
    simp only [hc, Except.ok.injEq, Prod.mk.injEq] at h
    obtain ⟨rfl, rfl, rfl⟩ := h
    exact ⟨s0, rfl, rfl, rfl⟩

/-- What a successful `CreateOperator` did. -/
theorem CreateOperator_eq_ok {s s1 : Builder} {ins outs : List TensorType} {name : String}
    {o : Nat} {guard : ScopeGuard} (h : s.CreateOperator ins outs name = .ok (o, guard, s1)) :
    ∃ fullname s0, o = s.heap.length ∧ guard = operatorRelease ∧
      (s.block_stack.length ≠ 0 →
        (s.alloc (OperatorInstance.Create ins outs name fullname)).2.Insert o = .ok s0) ∧
      (s.block_stack.length = 0 →
        s0 = (s.alloc (OperatorInstance.Create ins outs name fullname)).2) ∧
      s1 = { s0 with operator_stack := o :: s0.operator_stack,
                     block_stack := o :: s0.block_stack,
                     iterator_stack := ⟨o⟩ :: s0.iterator_stack,
                     temp_tensors_stack := [] :: s0.temp_tensors_stack } := by
  unfold CreateOperator at h
  split at h
  · cases h
  · rename_i fullname _
    split at h
    · cases h
    · rename_i s0 hs0
      simp only [Except.ok.injEq, Prod.mk.injEq] at h
      obtain ⟨rfl, rfl, rfl⟩ := h
      refine ⟨fullname, s0, rfl, rfl, ?_, ?_, rfl⟩
      · intro hne
        rw [if_pos hne] at hs0
        exact hs0
      · intro he
        rw [if_neg (by simp [he])] at hs0
        injection hs0 with hs0
        exact hs0.symm

theorem gridRelease_eq_ok {s s' : Builder} (h : gridRelease s = .ok s') :
    s'.heap = s.heap ∧ s'.operator_stack = s.operator_stack ∧
    s'.temp_tensors_stack = s.temp_tensors_stack ∧
    (∃ g, s.parallel_stack = g :: s'.parallel_stack) ∧
    (∃ b, s.block_stack = b :: s'.block_stack) ∧
    (∃ i, s.iterator_stack = i :: s'.iterator_stack) := by
  unfold gridRelease at h
  cases hp : s.parallel_stack with
  | nil => simp [hp, pop] at h
  | cons g ps =>
    cases hb : s.block_stack with
    | nil => simp [hp, hb, pop] at h
    | cons b bs =>
      cases hi : s.iterator_stack with
      | nil => simp [hp, hb, hi, pop] at h
      | cons i is =>
        simp only [hp, hb, hi, pop, Except.ok.injEq] at h
        subst h
        simp

theorem operatorRelease_eq_ok {s s' : Builder} (h : operatorRelease s = .ok s') :
    s'.heap = s.heap ∧ s'.parallel_stack = s.parallel_stack ∧
    (∃ o, s.operator_stack = o :: s'.operator_stack) ∧
    (∃ b, s.block_stack = b :: s'.block_stack) ∧
    (∃ i, s.iterator_stack = i :: s'.iterator_stack) ∧
    (∃ t, s.temp_tensors_stack = t :: s'.temp_tensors_stack) := by
  unfold operatorRelease at h
  cases ho : s.operator_stack with
  | nil => simp [ho, pop] at h
  | cons g ps =>
    cases hb : s.block_stack with
    | nil => simp [ho, hb, pop] at h
    | cons b bs =>
      cases hi : s.iterator_stack with
      | nil => simp [ho, hb, hi, pop] at h
      | cons i is =>
        cases ht : s.temp_tensors_stack with
        | nil => simp [ho, hb, hi, ht, pop] at h
        | cons t ts =>
          simp only [ho, hb, hi, ht, pop, Except.ok.injEq] at h
          subst h
          simp

end Builder

namespace Script

open Builder

/-- A script that runs to its end leaves the five stacks as they were and only adds objects
to the arena. -/
theorem run_stackState (p : Script) : ∀ (s s' : Builder), p.run s = .ok s' →
    s'.stackState = s.stackState ∧ s.heap.length ≤ s'.heap.length := by
  induction p with
  | done =>
    intro s s' h
    simp only [run, Except.ok.injEq] at h
    subst h
    exact ⟨rfl, le_refl _⟩
  | Create v rest ih =>
    intro s s' h
    simp only [run] at h
    cases hc : s.Create v with
    | error e => simp [hc] at h
    | ok q =>
      obtain ⟨r, s1⟩ := q
      simp only [hc] at h
      obtain ⟨h1, h2, -⟩ := Create_stacks hc
      obtain ⟨h3, h4⟩ := ih s1 s' h
      exact ⟨h3.trans h1, by omega⟩
  | Insert v rest ih =>
    intro s s' h
    simp only [run] at h
    cases hc : s.Insert v with
    | error e => simp [hc] at h
    | ok s1 =>
      simp only [hc] at h
      obtain ⟨h1, h2⟩ := Insert_stacks hc
      obtain ⟨h3, h4⟩ := ih s1 s' h
      exact ⟨h3.trans h1, by omega⟩
  | CreateAccessor v rest ih =>
    intro s s' h
    simp only [run] at h
    cases hc : s.CreateAccessor v with
    | error e => simp [hc] at h
    | ok q =>
      obtain ⟨r, s1⟩ := q
      simp only [hc] at h
      obtain ⟨h1, h2, -⟩ := CreateAccessor_stacks hc
      obtain ⟨h3, h4⟩ := ih s1 s' h
      exact ⟨h3.trans h1, by omega⟩
  | CreateIdentityAccessor v rest ih =>
    intro s s' h
    simp only [run] at h
    cases hc : s.CreateIdentityAccessor v with
    | error e => simp [hc] at h
    | ok q =>
      obtain ⟨r, s1⟩ := q
      simp only [hc] at h
      obtain ⟨h1, h2, -⟩ := CreateIdentityAccessor_stacks hc
      obtain ⟨h3, h4⟩ := ih s1 s' h
      exact ⟨h3.trans h1, by omega⟩
  | CreateGrid shape body rest ihb ihr =>
    intro s s' h
    simp only [run] at h
    cases hc : s.CreateGrid shape with
    | error e => simp [hc] at h
    | ok q =>
      obtain ⟨g, guard, s1⟩ := q
      simp only [hc] at h
      cases hb : body.run s1 with
      | error e => simp [hb] at h
      | ok s2 =>
        simp only [hb] at h
        cases hg : guard s2 with
        | error e => simp [hg] at h
        | ok s3 =>
          simp only [hg] at h
          obtain ⟨s0, hs0, rfl, rfl⟩ := CreateGrid_eq_ok hc
          obtain ⟨h1, h2, -⟩ := Create_stacks hs0
          obtain ⟨h3, h4⟩ := ihb _ s2 hb
          obtain ⟨h5, h6⟩ := ihr s3 s' h
          obtain ⟨k1, k2, k3, ⟨g', k4⟩, ⟨b', k5⟩, ⟨i', k6⟩⟩ := gridRelease_eq_ok hg
          refine ⟨?_, by simp only [k1] at h6; simp only at h4; omega⟩
          rw [h5]
          simp only [stackState_eq_iff] at h1 h3 ⊢
          obtain ⟨a1, a2, a3, a4, a5⟩ := h1
          obtain ⟨b1, b2, b3, b4, b5⟩ := h3
          rw [k4] at b1; rw [k5] at b3; rw [k6] at b4
          injection b1 with _ b1
          injection b3 with _ b3
          injection b4 with _ b4
          exact ⟨b1.trans a1, (k2.trans b2).trans a2, b3.trans a3, b4.trans a4,
            (k3.trans b5).trans a5⟩
  | CreateOperator ins outs name body rest ihb ihr =>
    intro s s' h
    simp only [run] at h
    cases hc : s.CreateOperator ins outs name with
    | error e => simp [hc] at h
    | ok q =>
      obtain ⟨g, guard, s1⟩ := q
      simp only [hc] at h
      cases hb : body.run s1 with
      | error e => simp [hb] at h
      | ok s2 =>
        simp only [hb] at h
        cases hg : guard s2 with
        | error e => simp [hg] at h
        | ok s3 =>
          simp only [hg] at h
          obtain ⟨fullname, s0, rfl, rfl, hins, hnone, rfl⟩ := CreateOperator_eq_ok hc
          have h12 : s0.stackState = s.stackState ∧ s0.heap.length = s.heap.length + 1 := by
            by_cases hne : s.block_stack.length = 0
            · rw [hnone hne]; simp [stackState, alloc]
            · obtain ⟨e1, e2⟩ := Insert_stacks (hins hne)
              exact ⟨e1, by simp [e2, alloc]⟩
          obtain ⟨h1, h2⟩ := h12
          obtain ⟨h3, h4⟩ := ihb _ s2 hb
          obtain ⟨h5, h6⟩ := ihr s3 s' h
          obtain ⟨k1, k2, ⟨o', k3⟩, ⟨b', k4⟩, ⟨i', k5⟩, ⟨t', k6⟩⟩ := operatorRelease_eq_ok hg
          refine ⟨?_, by simp only [k1] at h6; simp only at h4; omega⟩
          rw [h5]
          simp only [stackState_eq_iff] at h1 h3 ⊢
          obtain ⟨a1, a2, a3, a4, a5⟩ := h1
          obtain ⟨b1, b2, b3, b4, b5⟩ := h3
          rw [k3] at b2; rw [k4] at b3; rw [k5] at b4; rw [k6] at b5
          injection b2 with _ b2
          injection b3 with _ b3
          injection b4 with _ b4
          injection b5 with _ b5
          exact ⟨(k2.trans b1).trans a1, b2.trans a2, b3.trans a3, b4.trans a4, b5.trans a5⟩

end Script

namespace Builder

/-- Appending a value to the instruction sequence of a block and adding new objects to the
arena keeps the stacks in step with the arena. -/
theorem Coherent_set_append {s : Builder} {b : Nat} {n : Node} (vs : List Nat)
    (news : List Node) (hc : s.Coherent) (hn : s.heap[b]? = some n) :
    Coherent { s with heap := s.heap.set b { n with values := vs } ++ news } := by
  obtain ⟨h1, h2, h3⟩ := hc
  refine ⟨?_, ?_, h3⟩
  · intro x hx
    have := h1 x (by simpa using hx)
    simp only [List.length_append, List.length_set]
    omega
  · intro o ho
    obtain ⟨i, t, nm, f, ty, ws, hw⟩ := h2 o ho
    have hlt : o < s.heap.length := by
      rcases Nat.lt_or_ge o s.heap.length with h | h
      · exact h
      · rw [List.getElem?_eq_none h] at hw; cases hw
    by_cases hbo : b = o
    · subst hbo
      rw [hw] at hn
      injection hn with hn
      subst hn
      refine ⟨i, t, nm, f, ty, vs, ?_⟩
      simp only
      rw [List.getElem?_append_left (by simpa using hlt)]
      simp [List.getElem?_set, hlt]
    · refine ⟨i, t, nm, f, ty, ws, ?_⟩
      simp only
      rw [List.getElem?_append_left (by simpa using hlt)]
      simp [List.getElem?_set, hbo, hw]

/-- In a coherent builder with a block open, `Create` succeeds and keeps the builder
coherent. -/
theorem Coherent.Create {s : Builder} (hc : s.Coherent) (hb : s.block_stack ≠ []) (v : Node) :
    ∃ s', s.Create v = .ok (s.heap.length, s') ∧ s'.Coherent := by
  obtain ⟨h1, h2, h3⟩ := hc
  cases hbs : s.block_stack with
  | nil => exact absurd hbs hb
  | cons b bs =>
    cases his : s.iterator_stack with
    | nil => rw [his, hbs] at h3; cases h3
    | cons it its =>
      have h3' := h3
      rw [his, hbs] at h3'
      simp only [List.map_cons, List.cons.injEq] at h3'
      obtain ⟨hit, -⟩ := h3'
      have hlt : b < s.heap.length := h1 b (by simp [hbs])
      have hn : s.heap[b]? = some (s.heap[b]) := List.getElem?_eq_getElem hlt
      have hit' : it = ⟨b⟩ := by cases it; simp_all
      subst hit'
      refine ⟨_, Create_ok v hbs his hn, ?_⟩
      exact Coherent_set_append _ [v] ⟨h1, h2, h3⟩ hn

/-- In a coherent builder with a block open, `Insert` succeeds and keeps the builder
coherent. -/
theorem Coherent.Insert {s : Builder} (hc : s.Coherent) (hb : s.block_stack ≠ []) (v : Nat) :
    ∃ s', s.Insert v = .ok s' ∧ s'.Coherent := by
  obtain ⟨h1, h2, h3⟩ := hc
  cases hbs : s.block_stack with
  | nil => exact absurd hbs hb
  | cons b bs =>
    cases his : s.iterator_stack with
    | nil => rw [his, hbs] at h3; cases h3
    | cons it its =>
      have h3' := h3
      rw [his, hbs] at h3'
      simp only [List.map_cons, List.cons.injEq] at h3'
      obtain ⟨hit, -⟩ := h3'
      have hlt : b < s.heap.length := h1 b (by simp [hbs])
      have hn : s.heap[b]? = some (s.heap[b]) := List.getElem?_eq_getElem hlt
      have hit' : it = ⟨b⟩ := by cases it; simp_all
      subst hit'
      refine ⟨_, Insert_ok v hbs his hn, ?_⟩
      have := Coherent_set_append (s.heap[b].values ++ [v]) [] ⟨h1, h2, h3⟩ hn
      simpa using this

/-- In a coherent builder with a block open, `CreateGrid` succeeds, pushes the new grid on the
three stacks it uses, and keeps the builder coherent. -/
theorem Coherent.CreateGrid {s : Builder} (hc : s.Coherent) (hb : s.block_stack ≠ [])
    (shape : List Int) :
    ∃ s1, s.CreateGrid shape = .ok (s.heap.length, gridRelease, s1) ∧ s1.Coherent ∧
      s1.parallel_stack = s.heap.length :: s.parallel_stack ∧
      s1.block_stack = s.heap.length :: s.block_stack ∧
      s1.iterator_stack = ⟨s.heap.length⟩ :: s.iterator_stack ∧
      s1.operator_stack = s.operator_stack ∧
      s1.temp_tensors_stack = s.temp_tensors_stack := by
  obtain ⟨s0, h0, hc0⟩ := hc.Create hb (Grid.Create shape)
  obtain ⟨e1, e2, -⟩ := Create_stacks h0
  simp only [stackState_eq_iff] at e1
  obtain ⟨a1, a2, a3, a4, a5⟩ := e1
  refine ⟨{ s0 with parallel_stack := s.heap.length :: s0.parallel_stack,
                     block_stack := s.heap.length :: s0.block_stack,
                     iterator_stack := ⟨s.heap.length⟩ :: s0.iterator_stack },
    by simp only [Builder.CreateGrid, h0], ?_, ?_⟩
  · obtain ⟨h1, h2, h3⟩ := hc0
    refine ⟨?_, h2, ?_⟩
    · intro x hx
      simp only [List.mem_cons] at hx
      rcases hx with rfl | hx
      · simp only; omega
      · exact h1 x hx
    · simp only [List.map_cons, h3]
  · simp [a1, a2, a3, a4, a5]

/-- Releasing the guard of a grid pops what `CreateGrid` pushed and keeps a coherent builder
coherent. -/
theorem Coherent.gridRelease {s : Builder} (hc : s.Coherent) {g b : Nat} {i : Iterator}
    {ps bs : List Nat} {is : List Iterator} (hp : s.parallel_stack = g :: ps)
    (hb : s.block_stack = b :: bs) (hi : s.iterator_stack = i :: is) :
    ∃ s', Builder.gridRelease s = .ok s' ∧ s'.Coherent ∧ s'.heap = s.heap ∧
      s'.parallel_stack = ps ∧ s'.block_stack = bs ∧ s'.iterator_stack = is ∧
      s'.operator_stack = s.operator_stack ∧ s'.temp_tensors_stack = s.temp_tensors_stack := by
  refine ⟨{ s with parallel_stack := ps, block_stack := bs, iterator_stack := is },
    by simp only [Builder.gridRelease, hp, hb, hi, pop], ?_, rfl, rfl, rfl, rfl, rfl, rfl⟩
  obtain ⟨h1, h2, h3⟩ := hc
  refine ⟨?_, h2, ?_⟩
  · intro x hx
    exact h1 x (by rw [hb]; exact List.mem_cons_of_mem _ hx)
  · rw [hb, hi] at h3
    simp only [List.map_cons, List.cons.injEq] at h3
    exact h3.2

/-- In a coherent builder `CreateOperator` succeeds, pushes the new operator on the four stacks
it uses, and keeps the builder coherent. -/
theorem Coherent.CreateOperator {s : Builder} (hc : s.Coherent)
    (ins outs : List TensorType) (name : String) :
    ∃ s1, s.CreateOperator ins outs name = .ok (s.heap.length, operatorRelease, s1) ∧
      s1.Coherent ∧
      s1.parallel_stack = s.parallel_stack ∧
      s1.block_stack = s.heap.length :: s.block_stack ∧
      s1.iterator_stack = ⟨s.heap.length⟩ :: s.iterator_stack ∧
      s1.operator_stack = s.heap.length :: s.operator_stack ∧
      s1.temp_tensors_stack = [] :: s.temp_tensors_stack := by
  have hfull : ∃ fullname, (match s.operator_stack with
         | [] => Except.ok name
         | top :: _ =>
           match s.fullnameOf top with
           | .ok f => Except.ok (name ++ f)
           | .error e => .error e) = (Except.ok fullname : Except Fault String) := by
    cases ho : s.operator_stack with
    | nil => exact ⟨name, rfl⟩
    | cons top rest =>
      obtain ⟨i, t, nm, f, ty, vs, hw⟩ := hc.2.1 top (by simp [ho])
      exact ⟨name ++ f, by simp [fullnameOf, hw]⟩
  obtain ⟨fullname, hfull⟩ := hfull
  have hca : Coherent (s.alloc (OperatorInstance.Create ins outs name fullname)).2 := by
    obtain ⟨h1, h2, h3⟩ := hc
    refine ⟨?_, ?_, h3⟩
    · intro x hx
      have := h1 x hx
      simp only [alloc, List.length_append, List.length_singleton]
      omega
    · intro o ho
      obtain ⟨i, t, nm, f, ty, vs, hw⟩ := h2 o ho
      refine ⟨i, t, nm, f, ty, vs, ?_⟩
      have hlt : o < s.heap.length := by
        rcases Nat.lt_or_ge o s.heap.length with h | h
        · exact h
        · rw [List.getElem?_eq_none h] at hw; cases hw
      simp only [alloc]
      rw [List.getElem?_append_left hlt]
      exact hw
  have hstep : ∃ s0, (if s.block_stack.length ≠ 0 then
             (s.alloc (OperatorInstance.Create ins outs name fullname)).2.Insert
               (s.alloc (OperatorInstance.Create ins outs name fullname)).1
           else
             .ok (s.alloc (OperatorInstance.Create ins outs name fullname)).2) = .ok s0 ∧
        s0.Coherent ∧ s0.stackState = s.stackState ∧ s0.heap.length = s.heap.length + 1 ∧
        ∃ i t nm f ty vs, s0.heap[s.heap.length]? = some ⟨.OperatorInstance i t nm f, ty, vs⟩ := by
    by_cases hne : s.block_stack.length = 0
    · refine ⟨_, by rw [if_neg (by simp [hne])], hca, rfl, by simp [alloc], ?_⟩
      exact ⟨ins, outs, name, fullname, none, [], by simp [alloc, OperatorInstance.Create]⟩
    · have hb : (s.alloc (OperatorInstance.Create ins outs name fullname)).2.block_stack ≠ [] := by
        intro h0
        apply hne
        have : s.block_stack = [] := h0
        simp [this]
      obtain ⟨s0, h0, hc0⟩ := hca.Insert hb (s.alloc (OperatorInstance.Create ins outs name fullname)).1
      obtain ⟨e1, e2⟩ := Insert_stacks h0
      refine ⟨s0, by rw [if_pos hne]; exact h0, hc0, e1, by simp [e2, alloc], ?_⟩
      obtain ⟨b, bs, its, n, -, -, hn, rfl⟩ := Insert_eq_ok h0
      simp only [alloc] at hn ⊢
      by_cases hbo : b = s.heap.length
      · subst hbo
        simp only [List.getElem?_concat_length, Option.some.injEq] at hn
        subst hn
        exact ⟨ins, outs, name, fullname, none, [] ++ [s.heap.length],
          by simp [OperatorInstance.Create]⟩
      · exact ⟨ins, outs, name, fullname, none, [],
          by simp [List.getElem?_set, hbo, OperatorInstance.Create]⟩
  obtain ⟨s0, hs0, hc0, e1, e2, hop⟩ := hstep
  simp only [stackState_eq_iff] at e1
  obtain ⟨a1, a2, a3, a4, a5⟩ := e1
  refine ⟨{ s0 with operator_stack := s.heap.length :: s0.operator_stack,
                     block_stack := s.heap.length :: s0.block_stack,
                     iterator_stack := ⟨s.heap.length⟩ :: s0.iterator_stack,
                     temp_tensors_stack := [] :: s0.temp_tensors_stack },
    by simp only [Builder.CreateOperator, hfull, hs0], ?_, ?_⟩
  · obtain ⟨h1, h2, h3⟩ := hc0
    refine ⟨?_, ?_, ?_⟩
    · intro x hx
      simp only [List.mem_cons] at hx
      rcases hx with rfl | hx
      · simp only; omega
      · exact h1 x hx
    · intro o ho
      simp only [List.mem_cons] at ho
      rcases ho with rfl | ho
      · exact hop
      · exact h2 o ho
    · simp only [List.map_cons, h3]
  · simp [a1, a2, a3, a4, a5]

/-- Releasing the guard of an operator pops what `CreateOperator` pushed and keeps a coherent
builder coherent. -/
theorem Coherent.operatorRelease {s : Builder} (hc : s.Coherent) {o b : Nat} {i : Iterator}
    {t : List Nat} {os bs : List Nat} {is : List Iterator} {ts : List (List Nat)}
    (ho : s.operator_stack = o :: os) (hb : s.block_stack = b :: bs)
    (hi : s.iterator_stack = i :: is) (ht : s.temp_tensors_stack = t :: ts) :
    ∃ s', Builder.operatorRelease s = .ok s' ∧ s'.Coherent ∧ s'.heap = s.heap ∧
      s'.parallel_stack = s.parallel_stack ∧ s'.block_stack = bs ∧ s'.iterator_stack = is ∧
      s'.operator_stack = os ∧ s'.temp_tensors_stack = ts := by
  refine ⟨{ s with operator_stack := os, block_stack := bs, iterator_stack := is,
                    temp_tensors_stack := ts },
    by simp only [Builder.operatorRelease, ho, hb, hi, ht, pop], ?_,
    rfl, rfl, rfl, rfl, rfl, rfl⟩
  obtain ⟨h1, h2, h3⟩ := hc
  refine ⟨?_, ?_, ?_⟩
  · intro x hx
    exact h1 x (by rw [hb]; exact List.mem_cons_of_mem _ hx)
  · intro x hx
    exact h2 x (by rw [ho]; exact List.mem_cons_of_mem _ hx)
  · rw [hb, hi] at h3
    simp only [List.map_cons, List.cons.injEq] at h3
    exact h3.2

end Builder

namespace Script

open Builder

/-- A script without accessor calls, started in a coherent builder with a block open, runs to
its end, and the builder is coherent again. -/
theorem run_plain (p : Script) : ∀ s : Builder, s.Coherent → s.block_stack ≠ [] →
    p.plain = true → ∃ s', p.run s = .ok s' ∧ s'.Coherent := by
  induction p with
  | done => intro s hc _ _; exact ⟨s, rfl, hc⟩
  | Create v rest ih =>
    intro s hc hb hp
    obtain ⟨s1, h1, hc1⟩ := hc.Create hb v
    have hst := (Create_stacks h1).1
    simp only [stackState_eq_iff] at hst
    obtain ⟨s', h2, hc2⟩ := ih s1 hc1 (by rw [hst.2.2.1]; exact hb) (by simpa [plain] using hp)
    exact ⟨s', by simp only [run, h1, h2], hc2⟩
  | Insert v rest ih =>
    intro s hc hb hp
    obtain ⟨s1, h1, hc1⟩ := hc.Insert hb v
    have hst := (Insert_stacks h1).1
    simp only [stackState_eq_iff] at hst
    obtain ⟨s', h2, hc2⟩ := ih s1 hc1 (by rw [hst.2.2.1]; exact hb) (by simpa [plain] using hp)
    exact ⟨s', by simp only [run, h1, h2], hc2⟩
  | CreateAccessor v rest _ => intro s _ _ hp; simp [plain] at hp
  | CreateIdentityAccessor v rest _ => intro s _ _ hp; simp [plain] at hp
  | CreateGrid shape body rest ihb ihr =>
    intro s hc hb hp
    simp only [plain, Bool.and_eq_true] at hp
    obtain ⟨s1, h1, hc1, p1, b1, i1, o1, t1⟩ := hc.CreateGrid hb shape
    obtain ⟨s2, h2, hc2⟩ := ihb s1 hc1 (by rw [b1]; simp) hp.1
    have hst := (run_stackState body s1 s2 h2).1
    simp only [stackState_eq_iff] at hst
    obtain ⟨q1, q2, q3, q4, q5⟩ := hst
    obtain ⟨s3, h3, hc3, -, -, b3, -, -, -⟩ :=
      hc2.gridRelease (q1.trans p1) (q3.trans b1) (q4.trans i1)
    obtain ⟨s', h4, hc4⟩ := ihr s3 hc3 (by rw [b3]; exact hb) hp.2
    exact ⟨s', by simp only [run, h1, h2, h3, h4], hc4⟩
  | CreateOperator ins outs name body rest ihb ihr =>
    intro s hc hb hp
    simp only [plain, Bool.and_eq_true] at hp
    obtain ⟨s1, h1, hc1, p1, b1, i1, o1, t1⟩ := hc.CreateOperator ins outs name
    obtain ⟨s2, h2, hc2⟩ := ihb s1 hc1 (by rw [b1]; simp) hp.1
    have hst := (run_stackState body s1 s2 h2).1
    simp only [stackState_eq_iff] at hst
    obtain ⟨q1, q2, q3, q4, q5⟩ := hst
    obtain ⟨s3, h3, hc3, -, -, b3, -, -, -⟩ :=
      hc2.operatorRelease (q2.trans o1) (q3.trans b1) (q4.trans i1) (q5.trans t1)
    obtain ⟨s', h4, hc4⟩ := ihr s3 hc3 (by rw [b3]; exact hb) hp.2
    exact ⟨s', by simp only [run, h1, h2, h3, h4], hc4⟩

end Script

theorem Example.opened_coherent : Example.opened.Coherent := by
  refine ⟨by decide, ?_, by decide⟩
  intro o ho
  simp only [Example.opened, List.mem_singleton] at ho
  subst ho
  exact ⟨[], [], "op", "op", none, [], rfl⟩

/-! ## Which objects an operation changes -/

namespace Builder

theorem Coherent.blocksAllocated {s : Builder} (hc : s.Coherent) : s.BlocksAllocated := hc.1

/-- `Insert` changes the block on top, by appending the value, and no other object. -/
theorem Insert_frame {s s' : Builder} {v : Nat} (h : s.Insert v = .ok s') :
    (∀ x, s.block_stack.head? ≠ some x → s'.heap[x]? = s.heap[x]?) ∧
    (∀ b n, s.block_stack.head? = some b → s.heap[b]? = some n →
      s'.heap[b]? = some { n with values := n.values ++ [v] }) := by
  obtain ⟨b, bs, its, n, hb, -, hn, rfl⟩ := Insert_eq_ok h
  have hlt : b < s.heap.length := by
    rcases Nat.lt_or_ge b s.heap.length with h | h
    · exact h
    · rw [List.getElem?_eq_none h] at hn; cases hn
  constructor
  · intro x hx
    have hbx : b ≠ x := by
      intro e; apply hx; rw [hb, e]; rfl
    simp [List.getElem?_set, hbx]
  · intro b' n' hb' hn'
    rw [hb] at hb'
    simp only [List.head?_cons, Option.some.injEq] at hb'
    subst hb'
    rw [hn] at hn'
    injection hn' with hn'
    subst hn'
    simp [List.getElem?_set, hlt]

/-- `Create` adds the new object at the end of the arena, appends it to the block on top, and
changes no other object. -/
theorem Create_frame {s s' : Builder} {v : Node} {r : Nat} (hwf : s.BlocksAllocated)
    (h : s.Create v = .ok (r, s')) :
    (∀ x, x < s.heap.length → s.block_stack.head? ≠ some x → s'.heap[x]? = s.heap[x]?) ∧
    (∀ b n, s.block_stack.head? = some b → s.heap[b]? = some n →
      s'.heap[b]? = some { n with values := n.values ++ [r] }) ∧
    s'.heap[r]? = some v := by
  obtain ⟨hr, b, bs, its, n, hb, -, hn, rfl⟩ := Create_eq_ok h
  have hlt : b < s.heap.length := hwf b (by simp [hb])
  rw [List.getElem?_append_left hlt] at hn
  refine ⟨?_, ?_, ?_⟩
  · intro x hxl hx
    have hbx : b ≠ x := by
      intro e; apply hx; rw [hb, e]; rfl
    simp only [List.getElem?_set, hbx, if_false]
    exact List.getElem?_append_left hxl
  · intro b' n' hb' hn'
    rw [hb] at hb'
    simp only [List.head?_cons, Option.some.injEq] at hb'
    subst hb'
    rw [hn] at hn'
    injection hn' with hn'
    subst hn'
    have hlt' : b < (s.heap ++ [v]).length := by simp; omega
    simp only [List.getElem?_set, hlt', if_true]
  · subst hr
    have hne : b ≠ s.heap.length := by omega
    simp [List.getElem?_set, hne]

/-- `CreateAccessor` is a `Create` of some accessor. -/
theorem CreateAccessor_eq_Create {s s' : Builder} {v r : Nat}
    (h : s.CreateAccessor v = .ok (r, s')) : ∃ node, s.Create node = .ok (r, s') := by
  unfold CreateAccessor at h
  cases ht : s.typeOf v with
  | error e => simp [ht] at h
  | ok t =>
    cases hp : s.parallel_rank with
    | error e => simp [ht, hp] at h
    | ok p =>
      simp only [ht, hp] at h
      exact ⟨_, h⟩

/-- `CreateIdentityAccessor` is a `Create` of some accessor. -/
theorem CreateIdentityAccessor_eq_Create {s s' : Builder} {v r : Nat}
    (h : s.CreateIdentityAccessor v = .ok (r, s')) : ∃ node, s.Create node = .ok (r, s') := by
  unfold CreateIdentityAccessor at h
  cases ht : s.typeOf v with
  | error e => simp [ht] at h
  | ok t =>
    cases hg : s.CurrentGrid with
    | error e => simp [ht, hg] at h
    | ok g =>
      cases hs : s.gridShape g with
      | error e => simp [ht, hg, hs] at h
      | ok sh =>
        simp only [ht, hg, hs] at h
        exact ⟨_, h⟩

theorem BlocksAllocated.of_stackState {s s' : Builder} (hwf : s.BlocksAllocated)
    (hst : s'.stackState = s.stackState) (hle : s.heap.length ≤ s'.heap.length) :
    s'.BlocksAllocated := by
  intro b hb
  simp only [stackState_eq_iff] at hst
  rw [hst.2.2.1] at hb
  exact Nat.lt_of_lt_of_le (hwf b hb) hle

end Builder

namespace Script

open Builder

theorem Frame.refl (s : Builder) : Frame s s [] := by
  refine ⟨fun _ _ _ => rfl, ?_⟩
  intro b n _ hn
  simp [hn]

/-- A step that appends `r` to the block on top, followed by a run that appends `vs`. -/
theorem Frame.step {s s1 s' : Builder} {r : Nat} {vs : List Nat}
    (hst : s1.stackState = s.stackState) (hle : s.heap.length ≤ s1.heap.length)
    (h1 : Frame s s1 [r]) (h2 : Frame s1 s' vs) : Frame s s' (r :: vs) := by
  simp only [stackState_eq_iff] at hst
  have hb : s1.block_stack = s.block_stack := hst.2.2.1
  refine ⟨?_, ?_⟩
  · intro x hx hne
    rw [h2.1 x (by omega) (by rw [hb]; exact hne), h1.1 x hx hne]
  · intro b n hbn hn
    have := h2.2 b _ (by rw [hb]; exact hbn) (h1.2 b n hbn hn)
    rw [this]
    simp

theorem Frame.of_Create {s s1 : Builder} {v : Node} {r : Nat} (hwf : s.BlocksAllocated)
    (h : s.Create v = .ok (r, s1)) : Frame s s1 [r] :=
  ⟨(Create_frame hwf h).1, (Create_frame hwf h).2.1⟩

theorem Frame.of_Insert {s s1 : Builder} {v : Nat} (h : s.Insert v = .ok s1) :
    Frame s s1 [v] :=
  ⟨fun x _ hne => (Insert_frame h).1 x hne, (Insert_frame h).2⟩

/-- A scope: a step from `s` to `s0` that allocates the block `g`, the push of `g`, a body run
from `s1` to `s2`, the release, and a run from `s3` to `s'`. -/
theorem Frame.scope {s s0 s1 s2 s3 s' : Builder} {g : Nat} (pre : List Nat)
    {bodyvs vs : List Nat} (hwf : s.BlocksAllocated) (h0 : Frame s s0 pre)
    (hl0 : s0.heap.length = s.heap.length + 1) (hg : g = s.heap.length)
    (h1heap : s1.heap = s0.heap) (h1top : s1.block_stack.head? = some g)
    (hbody : Frame s1 s2 bodyvs) (hl2 : s1.heap.length ≤ s2.heap.length)
    (h3heap : s3.heap = s2.heap) (h3st : s3.block_stack = s.block_stack)
    (hrest : Frame s3 s' vs) : Frame s s' (pre ++ vs) := by
  have hl1 : s1.heap.length = s.heap.length + 1 := by rw [h1heap, hl0]
  have hl3 : s3.heap.length = s2.heap.length := by rw [h3heap]
  have key : ∀ x, x < s.heap.length → s3.heap[x]? = s0.heap[x]? := by
    intro x hx
    rw [h3heap, hbody.1 x (by omega) (by rw [h1top]; simp; omega), h1heap]
  refine ⟨?_, ?_⟩
  · intro x hx hne
    rw [hrest.1 x (by omega) (by rw [h3st]; exact hne), key x hx, h0.1 x hx hne]
  · intro b n hbn hn
    have hb : b < s.heap.length := by
      apply hwf
      cases hs : s.block_stack with
      | nil => rw [hs] at hbn; cases hbn
      | cons c cs =>
        rw [hs] at hbn
        simp only [List.head?_cons, Option.some.injEq] at hbn
        simp [hbn]
    have h3 : s3.heap[b]? = some { n with values := n.values ++ pre } := by
      rw [key b hb]; exact h0.2 b n hbn hn
    rw [hrest.2 b _ (by rw [h3st]; exact hbn) h3]
    simp

/-- A script that runs to its end appends, to the block that is on top when it starts, the
values it inserts while that block is the innermost scope, in order, and changes no other
object that existed when it started. -/
theorem run_frame (p : Script) : ∀ (s s' : Builder), s.BlocksAllocated → p.run s = .ok s' →
    Frame s s' (p.inserted false s) := by
  induction p with
  | done =>
    intro s s' _ h
    simp only [run, Except.ok.injEq] at h
    subst h
    exact Frame.refl s
  | Create v rest ih =>
    intro s s' hwf h
    simp only [run] at h
    cases hc : s.Create v with
    | error e => simp [hc] at h
    | ok q =>
      obtain ⟨r, s1⟩ := q
      simp only [hc] at h
      obtain ⟨e1, e2, -⟩ := Create_stacks hc
      have := Frame.step e1 (by omega) (Frame.of_Create hwf hc)
        (ih s1 s' (hwf.of_stackState e1 (by omega)) h)
      simpa only [inserted, hc] using this
  | Insert v rest ih =>
    intro s s' hwf h
    simp only [run] at h
    cases hc : s.Insert v with
    | error e => simp [hc] at h
    | ok s1 =>
      simp only [hc] at h
      obtain ⟨e1, e2⟩ := Insert_stacks hc
      have := Frame.step e1 (by omega) (Frame.of_Insert hc)
        (ih s1 s' (hwf.of_stackState e1 (by omega)) h)
      simpa only [inserted, hc] using this
  | CreateAccessor v rest ih =>
    intro s s' hwf h
    simp only [run] at h
    cases hc : s.CreateAccessor v with
    | error e => simp [hc] at h
    | ok q =>
      obtain ⟨r, s1⟩ := q
      simp only [hc] at h
      obtain ⟨node, hn⟩ := CreateAccessor_eq_Create hc
      obtain ⟨e1, e2, -⟩ := Create_stacks hn
      have := Frame.step e1 (by omega) (Frame.of_Create hwf hn)
        (ih s1 s' (hwf.of_stackState e1 (by omega)) h)
      simpa only [inserted, hc] using this
  | CreateIdentityAccessor v rest ih =>
    intro s s' hwf h
    simp only [run] at h
    cases hc : s.CreateIdentityAccessor v with
    | error e => simp [hc] at h
    | ok q =>
      obtain ⟨r, s1⟩ := q
      simp only [hc] at h
      obtain ⟨node, hn⟩ := CreateIdentityAccessor_eq_Create hc
      obtain ⟨e1, e2, -⟩ := Create_stacks hn
      have := Frame.step e1 (by omega) (Frame.of_Create hwf hn)
        (ih s1 s' (hwf.of_stackState e1 (by omega)) h)
      simpa only [inserted, hc] using this
  | CreateGrid shape body rest ihb ihr =>
    intro s s' hwf h
    simp only [run] at h
    cases hc : s.CreateGrid shape with
    | error e => simp [hc] at h
    | ok q =>
      obtain ⟨g, guard, s1⟩ := q
      simp only [hc] at h
      cases hb : body.run s1 with
      | error e => simp [hb] at h
      | ok s2 =>
        simp only [hb] at h
        cases hg : guard s2 with
        | error e => simp [hg] at h
        | ok s3 =>
          simp only [hg] at h
          obtain ⟨s0, hs0, hgd, hs1⟩ := CreateGrid_eq_ok hc
          obtain ⟨e1, e2, e3⟩ := Create_stacks hs0
          have e1' := e1
          simp only [stackState_eq_iff] at e1'
          have hwf1 : s1.BlocksAllocated := by
            intro b hb'
            rw [hs1] at hb' ⊢
            simp only [List.mem_cons] at hb'
            rcases hb' with rfl | hb'
            · simp only; omega
            · have := hwf b (by rw [← e1'.2.2.1]; exact hb')
              simp only; omega
          obtain ⟨f1, f2⟩ := run_stackState body s1 s2 hb
          simp only [stackState_eq_iff] at f1
          rw [hgd] at hg
          obtain ⟨k1, -, -, -, ⟨b', k5⟩, -⟩ := gridRelease_eq_ok hg
          have hb3 : s3.block_stack = s.block_stack := by
            have := f1.2.2.1
            rw [k5, hs1] at this
            simp only [List.cons.injEq] at this
            rw [this.2, e1'.2.2.1]
          have hwf3 : s3.BlocksAllocated := by
            intro b hb'
            rw [hb3] at hb'
            have := hwf b hb'
            rw [k1]
            have : s1.heap.length = s0.heap.length := by rw [hs1]
            omega
          have := Frame.scope [g] hwf (Frame.of_Create hwf hs0) e2 e3
            (by rw [hs1]) (by rw [hs1]; rfl) (ihb s1 s2 hwf1 hb) f2 k1 hb3 (ihr s3 s' hwf3 h)
          simpa only [inserted, hc, hb, hgd, hg, Bool.false_eq_true, if_false, List.nil_append,
            List.singleton_append] using this
  | CreateOperator ins outs name body rest ihb ihr =>
    intro s s' hwf h
    simp only [run] at h
    cases hc : s.CreateOperator ins outs name with
    | error e => simp [hc] at h
    | ok q =>
      obtain ⟨g, guard, s1⟩ := q
      simp only [hc] at h
      cases hb : body.run s1 with
      | error e => simp [hb] at h
      | ok s2 =>
        simp only [hb] at h
        cases hg : guard s2 with
        | error e => simp [hg] at h
        | ok s3 =>
          simp only [hg] at h
          obtain ⟨fullname, s0, hg0, hgd, hins, hnone, hs1⟩ := CreateOperator_eq_ok hc
          have hwfa : (s.alloc (OperatorInstance.Create ins outs name fullname)).2.BlocksAllocated := by
            intro b hb'
            have := hwf b hb'
            simp only [alloc, List.length_append, List.length_singleton]
            omega
          have h0 : Frame s s0 (if s.block_stack.length ≠ 0 then [g] else []) ∧
              s0.stackState = s.stackState ∧ s0.heap.length = s.heap.length + 1 := by
            by_cases hne : s.block_stack.length = 0
            · rw [hnone hne, if_neg (by simp [hne])]
              refine ⟨⟨?_, ?_⟩, rfl, by simp [alloc]⟩
              · intro x hx _
                simp only [alloc]
                exact List.getElem?_append_left hx
              · intro b n hbn _
                have : s.block_stack = [] := List.length_eq_zero.mp hne
                rw [this] at hbn
                cases hbn
            · rw [if_pos hne]
              obtain ⟨i1, i2⟩ := Insert_frame (hins hne)
              obtain ⟨j1, j2⟩ := Insert_stacks (hins hne)
              refine ⟨⟨?_, ?_⟩, j1, by simp [j2, alloc]⟩
              · intro x hx hxne
                rw [i1 x hxne]
                simp only [alloc]
                exact List.getElem?_append_left hx
              · intro b n hbn hn
                have hbl : b < s.heap.length := by
                  rcases Nat.lt_or_ge b s.heap.length with h | h
                  · exact h
                  · rw [List.getElem?_eq_none h] at hn; cases hn
                exact i2 b n hbn (by simp only [alloc]; rw [List.getElem?_append_left hbl]; exact hn)
          obtain ⟨h0, e1, e2⟩ := h0
          have e1' := e1
          simp only [stackState_eq_iff] at e1'
          have hwf1 : s1.BlocksAllocated := by
            intro b hb'
            rw [hs1] at hb' ⊢
            simp only [List.mem_cons] at hb'
            rcases hb' with rfl | hb'
            · simp only; omega
            · have := hwf b (by rw [← e1'.2.2.1]; exact hb')
              simp only; omega
          obtain ⟨f1, f2⟩ := run_stackState body s1 s2 hb
          simp only [stackState_eq_iff] at f1
          rw [hgd] at hg
          obtain ⟨k1, -, -, ⟨b', k5⟩, -, -⟩ := operatorRelease_eq_ok hg
          have hb3 : s3.block_stack = s.block_stack := by
            have := f1.2.2.1
            rw [k5, hs1] at this
            simp only [List.cons.injEq] at this
            rw [this.2, e1'.2.2.1]
          have hwf3 : s3.BlocksAllocated := by
            intro b hb'
            rw [hb3] at hb'
            have := hwf b hb'
            rw [k1]
            have : s1.heap.length = s0.heap.length := by rw [hs1]
            omega
          have := Frame.scope _ hwf h0 e2 hg0
            (by rw [hs1]) (by rw [hs1]; rfl) (ihb s1 s2 hwf1 hb) f2 k1 hb3 (ihr s3 s' hwf3 h)
          simpa only [inserted, hc, hb, hgd, hg, Bool.false_eq_true, if_false, List.nil_append]
            using this

end Script

/-! ## Scope balance -/

/-- C1. Scope balance: from any builder with a block open, a properly nested sequence of
`CreateGrid` / `CreateOperator` openings with `Create` / `Insert` calls in between, every guard
released in reverse order of opening, leaves each of the five stacks at its previous size and
`CurrentBlock()` at the same block. Scripts of such calls do run to their end when the stacks
are in step with the arena. -/
theorem scope_balance (p : Script) (s : Builder) (hopen : s.block_stack ≠ []) :
    (∀ s', p.run s = .ok s' →
      s'.parallel_stack.length = s.parallel_stack.length ∧
      s'.operator_stack.length = s.operator_stack.length ∧
      s'.block_stack.length = s.block_stack.length ∧
      s'.iterator_stack.length = s.iterator_stack.length ∧
      s'.temp_tensors_stack.length = s.temp_tensors_stack.length ∧
      ∃ b, s.CurrentBlock = .ok b ∧ s'.CurrentBlock = .ok b) ∧
    (s.Coherent → p.plain = true → ∃ s', p.run s = .ok s') := by
  constructor
  · intro s' h
    have hst := (Script.run_stackState p s s' h).1
    simp only [Builder.stackState_eq_iff] at hst
    obtain ⟨q1, q2, q3, q4, q5⟩ := hst
    refine ⟨by rw [q1], by rw [q2], by rw [q3], by rw [q4], by rw [q5], ?_⟩
    cases hb : s.block_stack with
    | nil => exact absurd hb hopen
    | cons b bs => exact ⟨b, by simp [Builder.CurrentBlock, hb], by simp [Builder.CurrentBlock, q3, hb]⟩
  · intro hc hp
    obtain ⟨s', h, -⟩ := Script.run_plain p s hc hopen hp
    exact ⟨s', h⟩

/-- The nested example script, run in the example builder, ends with one block, one operator
and no grid open, and with the operator `op` (object 0) as the current block. -/
theorem scope_balance_witness :
    ∃ s', Example.nested.run Example.opened = .ok s' ∧
      s'.parallel_stack.length = 0 ∧ s'.operator_stack.length = 1 ∧
      s'.block_stack.length = 1 ∧ s'.iterator_stack.length = 1 ∧
      s'.temp_tensors_stack.length = 1 ∧ s'.CurrentBlock = .ok 0 := by
  have hopen : Example.opened.block_stack ≠ [] := by decide
  obtain ⟨s', h⟩ := (scope_balance Example.nested Example.opened hopen).2
    Example.opened_coherent rfl
  obtain ⟨h1, h2, h3, h4, h5, b, hb, hb'⟩ :=
    (scope_balance Example.nested Example.opened hopen).1 s' h
  have hb0 : b = 0 := by
    have : Example.opened.CurrentBlock = .ok 0 := rfl
    rw [this] at hb
    injection hb with hb
    exact hb.symm
  subst hb0
  exact ⟨s', h, h1, h2, h3, h4, h5, hb'⟩

/-! ## Insertion ordering -/

/-- C2, as stated, fails: if all the values created between the opening of a scope and the
release of its guard had to make up the scope's instruction sequence, the values created inside
a scope nested in it would have to be in it too. In the example the outer grid (object 4) ends
with the sequence 5, 6, 9, while the values created before its release are 5, 6, 7, 8, 9. -/
theorem insertion_order_counterexample :
    ¬ ∀ (s s1 s' : Builder) (shape : List Int) (body rest : Script) (g : Nat)
        (guard : ScopeGuard),
      s.BlocksAllocated → s.CreateGrid shape = .ok (g, guard, s1) →
      (Script.CreateGrid shape body rest).run s = .ok s' →
      ∃ n, s'.heap[g]? = some n ∧ n.values = body.inserted true s1 := by
  intro h
  have hrun : ∃ s', (Script.CreateGrid [2] Example.body Example.after).run Example.opened
      = .ok s' ∧ s'.heap[4]? = some ⟨.Grid [2] false, none, [5, 6, 9]⟩ := ⟨_, rfl, rfl⟩
  obtain ⟨s', h1, h2⟩ := hrun
  obtain ⟨n, hn, hv⟩ := h Example.opened Example.inGrid s' [2] Example.body Example.after 4
    Builder.gridRelease Example.opened_coherent.blocksAllocated rfl h1
  rw [h2] at hn
  injection hn with hn
  subst hn
  have : Example.body.inserted true Example.inGrid = [5, 6, 7, 8, 9] := rfl
  rw [this] at hv
  simp at hv

/-- C2, amended. The instruction sequence of a scope opened by `CreateGrid` or `CreateOperator`
consists of exactly the values inserted (through `Create`, `Insert` and the calls built on
them) between the opening and the release while that scope is the innermost open one, in the
order of the calls; nothing inserted after the release is added to it. The values of a scope
nested in it are in the nested scope's sequence, of which only the scope object itself is in
the enclosing sequence. -/
theorem insertion_order (s s' : Builder) (body rest : Script) (hwf : s.BlocksAllocated) :
    (∀ shape, (Script.CreateGrid shape body rest).run s = .ok s' →
      ∃ guard s1, s.CreateGrid shape = .ok (s.heap.length, guard, s1) ∧
        s'.heap[s.heap.length]? = some ⟨.Grid shape false, none, body.inserted false s1⟩) ∧
    (∀ ins outs name, (Script.CreateOperator ins outs name body rest).run s = .ok s' →
      ∃ guard s1 fullname, s.CreateOperator ins outs name = .ok (s.heap.length, guard, s1) ∧
        s'.heap[s.heap.length]? =
          some ⟨.OperatorInstance ins outs name fullname, none, body.inserted false s1⟩) := by
  constructor
  · intro shape h
    simp only [Script.run] at h
    cases hc : s.CreateGrid shape with
    | error e => simp [hc] at h
    | ok q =>
      obtain ⟨g, guard, s1⟩ := q
      simp only [hc] at h
      cases hb : body.run s1 with
      | error e => simp [hb] at h
      | ok s2 =>
        simp only [hb] at h
        cases hg : guard s2 with
        | error e => simp [hg] at h
        | ok s3 =>
          simp only [hg] at h
          obtain ⟨s0, hs0, hgd, hs1⟩ := Builder.CreateGrid_eq_ok hc
          obtain ⟨e1, e2, e3⟩ := Builder.Create_stacks hs0
          have e1' := e1
          simp only [Builder.stackState_eq_iff] at e1'
          have hnew := (Builder.Create_frame hwf hs0).2.2
          have hwf1 : s1.BlocksAllocated := by
            intro b hb'
            rw [hs1] at hb' ⊢
            simp only [List.mem_cons] at hb'
            rcases hb' with rfl | hb'
            · simp only; omega
            · have := hwf b (by rw [← e1'.2.2.1]; exact hb')
              simp only; omega
          obtain ⟨f1, f2⟩ := Script.run_stackState body s1 s2 hb
          simp only [Builder.stackState_eq_iff] at f1
          rw [hgd] at hg
          obtain ⟨k1, -, -, -, ⟨b', k5⟩, -⟩ := Builder.gridRelease_eq_ok hg
          have hb3 : s3.block_stack = s.block_stack := by
            have := f1.2.2.1
            rw [k5, hs1] at this
            simp only [List.cons.injEq] at this
            rw [this.2, e1'.2.2.1]
          have hl1 : s1.heap.length = s0.heap.length := by rw [hs1]
          have hwf3 : s3.BlocksAllocated := by
            intro b hb'
            rw [hb3] at hb'
            have := hwf b hb'
            rw [k1]
            omega
          have hbody := (Script.run_frame body s1 s2 hwf1 hb).2 g (Builder.Grid.Create shape)
            (by rw [hs1]; rfl) (by rw [hs1]; exact hnew)
          have hrest := (Script.run_frame rest s3 s' hwf3 h).1 g (by rw [k1]; omega) (by
            rw [hb3]
            intro hh
            cases hs : s.block_stack with
            | nil => rw [hs] at hh; cases hh
            | cons c cs =>
              rw [hs] at hh
              simp only [List.head?_cons, Option.some.injEq] at hh
              have := hwf c (by simp [hs])
              omega)
          refine ⟨guard, s1, by rw [← e3], ?_⟩
          rw [← e3, hrest, k1, hbody]
          simp [Builder.Grid.Create]
  · intro ins outs name h
    simp only [Script.run] at h
    cases hc : s.CreateOperator ins outs name with
    | error e => simp [hc] at h
    | ok q =>
      obtain ⟨g, guard, s1⟩ := q
      simp only [hc] at h
      cases hb : body.run s1 with
      | error e => simp [hb] at h
      | ok s2 =>
        simp only [hb] at h
        cases hg : guard s2 with
        | error e => simp [hg] at h
        | ok s3 =>
          simp only [hg] at h
          obtain ⟨fullname, s0, hg0, hgd, hins, hnone, hs1⟩ := Builder.CreateOperator_eq_ok hc
          have h0 : s0.stackState = s.stackState ∧ s0.heap.length = s.heap.length + 1 ∧
              s0.heap[g]? = some (Builder.OperatorInstance.Create ins outs name fullname) := by
            by_cases hne : s.block_stack.length = 0
            · rw [hnone hne, hg0]
              exact ⟨rfl, by simp [Builder.alloc], by simp [Builder.alloc]⟩
            · obtain ⟨i1, -⟩ := Builder.Insert_frame (hins hne)
              obtain ⟨j1, j2⟩ := Builder.Insert_stacks (hins hne)
              refine ⟨j1, by simp [j2, Builder.alloc], ?_⟩
              rw [i1 g (by
                intro hh
                cases hs : s.block_stack with
                | nil => simp [hs] at hne
                | cons c cs =>
                  have hh' : (c :: cs).head? = some g := by
                    have : (s.alloc (Builder.OperatorInstance.Create ins outs name fullname)).2.block_stack
                        = s.block_stack := rfl
                    rw [this, hs] at hh
                    exact hh
                  simp only [List.head?_cons, Option.some.injEq] at hh'
                  have := hwf c (by simp [hs])
                  omega)]
              simp [Builder.alloc, hg0]
          obtain ⟨e1, e2, hnew⟩ := h0
          have e1' := e1
          simp only [Builder.stackState_eq_iff] at e1'
          have hwf1 : s1.BlocksAllocated := by
            intro b hb'
            rw [hs1] at hb' ⊢
            simp only [List.mem_cons] at hb'
            rcases hb' with rfl | hb'
            · simp only; omega
            · have := hwf b (by rw [← e1'.2.2.1]; exact hb')
              simp only; omega
          obtain ⟨f1, f2⟩ := Script.run_stackState body s1 s2 hb
          simp only [Builder.stackState_eq_iff] at f1
          rw [hgd] at hg
          obtain ⟨k1, -, -, ⟨b', k5⟩, -, -⟩ := Builder.operatorRelease_eq_ok hg
          have hb3 : s3.block_stack = s.block_stack := by
            have := f1.2.2.1
            rw [k5, hs1] at this
            simp only [List.cons.injEq] at this
            rw [this.2, e1'.2.2.1]
          have hl1 : s1.heap.length = s0.heap.length := by rw [hs1]
          have hwf3 : s3.BlocksAllocated := by
            intro b hb'
            rw [hb3] at hb'
            have := hwf b hb'
            rw [k1]
            omega
          have hbody := (Script.run_frame body s1 s2 hwf1 hb).2 g
            (Builder.OperatorInstance.Create ins outs name fullname)
            (by rw [hs1]; rfl) (by rw [hs1]; exact hnew)
          have hrest := (Script.run_frame rest s3 s' hwf3 h).1 g (by rw [k1]; omega) (by
            rw [hb3]
            intro hh
            cases hs : s.block_stack with
            | nil => rw [hs] at hh; cases hh
            | cons c cs =>
              rw [hs] at hh
              simp only [List.head?_cons, Option.some.injEq] at hh
              have := hwf c (by simp [hs])
              omega)
          refine ⟨guard, s1, fullname, by rw [← hg0], ?_⟩
          rw [← hg0, hrest, k1, hbody]
          simp [Builder.OperatorInstance.Create]

/-- In the example the grid (object 4) ends with the sequence 5, 6, 9: the first value, the
nested operator and the second value, and neither the values created inside the nested
operator (7, 8) nor the value created after the release (10). -/
theorem insertion_order_witness :
    ∃ s', Example.nested.run Example.opened = .ok s' ∧
      s'.heap[4]? = some ⟨.Grid [2] false, none, [5, 6, 9]⟩ := by
  have hrun : ∃ s', Example.nested.run Example.opened = .ok s' := ⟨_, rfl⟩
  obtain ⟨s', h⟩ := hrun
  obtain ⟨guard, s1, h1, h2⟩ :=
    (insertion_order Example.opened s' Example.body Example.after
      Example.opened_coherent.blocksAllocated).1 [2] h
  have hc : Example.opened.CreateGrid [2] = .ok (4, Builder.gridRelease, Example.inGrid) := rfl
  have hlen : Example.opened.heap.length = 4 := rfl
  rw [hlen] at h1 h2
  rw [hc] at h1
  simp only [Except.ok.injEq, Prod.mk.injEq, true_and] at h1
  obtain ⟨-, rfl⟩ := h1
  have hv : Example.body.inserted false Example.inGrid = [5, 6, 9] := rfl
  rw [hv] at h2
  exact ⟨s', h, h2⟩

/-! ## Kernel selection -/

namespace MatrixMultiplyCreator

/-- The kernel loop stops at the first kernel that matches. -/
theorem AffineExpress.kernels_first (ir_inputs ir_outputs : List Nat) (s : Builder)
    (pre : List Kernel) (k : Kernel) (post : List Kernel)
    (hpre : ∀ j ∈ pre, j.Match ir_inputs ir_outputs s = .ok false)
    (hk : k.Match ir_inputs ir_outputs s = .ok true) :
    AffineExpress.kernels ir_inputs ir_outputs s (pre ++ k :: post)
      = some (k.Build ir_inputs ir_outputs s) := by
  induction pre with
  | nil => simp [AffineExpress.kernels, hk]
  | cons j pre ih =>
    have hj := hpre j (by simp)
    simp only [List.cons_append, AffineExpress.kernels, hj]
    exact ih (fun x hx => hpre x (by simp [hx]))

/-- The kernel loop runs to its end when no kernel matches. -/
theorem AffineExpress.kernels_none (ir_inputs ir_outputs : List Nat) (s : Builder)
    (kernel_queue : List Kernel)
    (h : ∀ k ∈ kernel_queue, k.Match ir_inputs ir_outputs s = .ok false) :
    AffineExpress.kernels ir_inputs ir_outputs s kernel_queue = none := by
  induction kernel_queue with
  | nil => rfl
  | cons j rest ih =>
    have hj := h j (by simp)
    simp only [AffineExpress.kernels, hj]
    exact ih (fun x hx => h x (by simp [hx]))

end MatrixMultiplyCreator

/-- C3. Kernel selection is first-match-wins: when the kernel queue splits into kernels that do
not match, a kernel `k` that matches, and any later kernels (matching or not),
`MatrixMultiplyCreator::AffineExpress` is exactly the `Build` of `k`: it returns what that
`Build` returns, with nothing emitted by the generic expansion or by a later kernel. When no
kernel of the queue matches, the call is exactly the generic expansion. -/
theorem kernel_first_match (enable_multi_thread : TensorType → Bool) (kernel_queue : List Kernel)
    (fuel : Nat) (ir_inputs ir_outputs : List Nat) (s : Builder) :
    (∀ pre k post, kernel_queue = pre ++ k :: post →
      (∀ j ∈ pre, j.Match ir_inputs ir_outputs s = .ok false) →
      k.Match ir_inputs ir_outputs s = .ok true →
      MatrixMultiplyCreator.AffineExpress enable_multi_thread kernel_queue (fuel + 1)
        ir_inputs ir_outputs s = k.Build ir_inputs ir_outputs s) ∧
    ((∀ k ∈ kernel_queue, k.Match ir_inputs ir_outputs s = .ok false) →
      MatrixMultiplyCreator.AffineExpress enable_multi_thread kernel_queue (fuel + 1)
        ir_inputs ir_outputs s =
      MatrixMultiplyCreator.AffineExpress.generic enable_multi_thread
        (MatrixMultiplyCreator.AffineExpress enable_multi_thread kernel_queue fuel)
        ir_inputs ir_outputs s) := by
  constructor
  · intro pre k post hq hpre hk
    subst hq
    simp only [MatrixMultiplyCreator.AffineExpress,
      MatrixMultiplyCreator.AffineExpress.kernels_first ir_inputs ir_outputs s pre k post hpre hk]
  · intro h
    simp only [MatrixMultiplyCreator.AffineExpress,
      MatrixMultiplyCreator.AffineExpress.kernels_none ir_inputs ir_outputs s kernel_queue h]

/-- With `ProductKernel` registered ahead of a kernel that accepts everything, the 4×1 by 1×4
product of the example is lowered by `ProductKernel::Build` alone, although the second kernel
matches the operands too. -/
theorem kernel_first_match_witness :
    Example.fallback.Match [1, 2] [3] Example.opened = .ok true ∧
    MatrixMultiplyCreator.AffineExpress (fun _ => false) [ProductKernel, Example.fallback] 1
      [1, 2] [3] Example.opened = ProductKernel.Build [1, 2] [3] Example.opened :=
  ⟨rfl, (kernel_first_match (fun _ => false) [ProductKernel, Example.fallback] 0 [1, 2] [3]
    Example.opened).1 [] ProductKernel [Example.fallback] rfl (by simp) rfl⟩

/-! ## Type inference of the matrix product -/

/-- C4. Contraction typing, success cases: on two equal scalar types
`MatrixMultiplyCreator::InferType` returns that type, and on matrix types of shapes `(m, k)` and
`(k, n)` over the same scalar element type it returns the matrix type of shape `(m, n)` over
that element type. -/
theorem InferType_success (e : TensorType) (he : e.IsScalar = true) :
    MatrixMultiplyCreator.InferType [e, e] = .ok e ∧
    ∀ m k n : Int,
      MatrixMultiplyCreator.InferType
        [TensorType.CreateMatrixType e m k, TensorType.CreateMatrixType e k n]
        = .ok (TensorType.CreateMatrixType e m n) := by
  have hgo : MatrixMultiplyCreator.InferType.go e e = .ok e := by
    cases e with
    | FloatType bits =>
      simp [MatrixMultiplyCreator.InferType.go, TensorType.IsScalar, GALOIS_ASSERT, bind,
        Except.bind, pure, Except.pure]
    | IntType bits sg =>
      simp [MatrixMultiplyCreator.InferType.go, TensorType.IsScalar, GALOIS_ASSERT, bind,
        Except.bind, pure, Except.pure]
    | Tensor v sh => simp [TensorType.IsScalar] at he
  constructor
  · simp [MatrixMultiplyCreator.InferType, index, bind, Except.bind, hgo]
  · intro m k n
    simp [MatrixMultiplyCreator.InferType, index, bind, Except.bind,
      TensorType.CreateMatrixType, MatrixMultiplyCreator.InferType.go, hgo, pure, Except.pure]

/-- For `float32`: the type of a product of two scalars is `float32`, and a 2×3 by 3×5 product
has type 2×5. -/
theorem InferType_success_witness :
    MatrixMultiplyCreator.InferType [.FloatType 32, .FloatType 32] = .ok (.FloatType 32) ∧
    MatrixMultiplyCreator.InferType
      [TensorType.CreateMatrixType (.FloatType 32) 2 3,
       TensorType.CreateMatrixType (.FloatType 32) 3 5]
      = .ok (TensorType.CreateMatrixType (.FloatType 32) 2 5) :=
  ⟨(InferType_success (.FloatType 32) rfl).1, (InferType_success (.FloatType 32) rfl).2 2 3 5⟩

/-- C5, the code at the failing input. `MatrixMultiplyCreator::InferType` never compares the
inner dimensions: on the shapes `(2, 3)` and `(4, 5)` it returns the matrix type of shape
`(2, 5)` instead of failing, and so it does for every pair of shapes over one floating-point
element type. Two different scalar types do fail the assertion. -/
theorem InferType_inner_dimension_unchecked :
    MatrixMultiplyCreator.InferType
      [TensorType.CreateMatrixType (.FloatType 32) 2 3,
       TensorType.CreateMatrixType (.FloatType 32) 4 5]
      = .ok (TensorType.CreateMatrixType (.FloatType 32) 2 5) ∧
    (∀ (bits : Nat) (m k k' n : Int),
      MatrixMultiplyCreator.InferType
        [TensorType.CreateMatrixType (.FloatType bits) m k,
         TensorType.CreateMatrixType (.FloatType bits) k' n]
        = .ok (TensorType.CreateMatrixType (.FloatType bits) m n)) ∧
    MatrixMultiplyCreator.InferType [.FloatType 32, .FloatType 16] = .error .assertion := by
  refine ⟨rfl, ?_, rfl⟩
  intro bits m k k' n
  simp [MatrixMultiplyCreator.InferType, index, bind, Except.bind,
    TensorType.CreateMatrixType, MatrixMultiplyCreator.InferType.go, pure, Except.pure,
    TensorType.IsScalar, GALOIS_ASSERT]

/-! ## The vector kernel -/

namespace ProductKernel

/-- A successful match names the supported type that matched. -/
theorem Match.loop_eq_true (s : Builder) (a b : Nat) (types : List TensorType)
    (h : Match.loop s a b types = .ok true) :
    ∃ type ∈ types, ∃ na nb vt, s.deref a = .ok na ∧ na.type = some type ∧
      s.deref b = .ok nb ∧ type.value_type = some vt ∧
      nb.type = some (TensorType.CreateMatrixType vt 1 4) := by
  induction types with
  | nil => simp [Match.loop] at h
  | cons type rest ih =>
    simp only [Match.loop, bind, Except.bind] at h
    cases ha : s.deref a with
    | error e => simp [ha] at h
    | ok na =>
      simp only [ha] at h
      by_cases hta : na.type = some type
      · simp only [hta, if_true] at h
        cases hb : s.deref b with
        | error e => simp [hb] at h
        | ok nb =>
          simp only [hb] at h
          cases hv : type.value_type with
          | none => simp [hv] at h
          | some vt =>
            simp only [hv] at h
            by_cases htb : nb.type = some (TensorType.CreateMatrixType vt 1 4)
            · exact ⟨type, by simp, na, nb, vt, rfl, hta, rfl, hv, htb⟩
            · simp only [htb, if_false] at h
              obtain ⟨t, ht, r⟩ := ih h
              rw [ha, hb] at r
              exact ⟨t, by simp [ht], r⟩
      · simp only [hta, if_false] at h
        obtain ⟨t, ht, r⟩ := ih h
        rw [ha] at r
        exact ⟨t, by simp [ht], r⟩

theorem typeOf_of_deref {s : Builder} {r : Nat} {n : Node} {t : TensorType}
    (h : s.deref r = .ok n) (ht : n.type = some t) : s.typeOf r = .ok t := by
  unfold Builder.deref index at h
  unfold Builder.typeOf
  cases hr : s.heap[r]? with
  | none => simp [hr] at h
  | some n' =>
    simp only [hr, Except.ok.injEq] at h
    subst h
    obtain ⟨k, ty, vs⟩ := n'
    simp only at ht
    subst ht
    rfl

end ProductKernel

/-- C10. Match/Build exhaustiveness: whenever `ProductKernel::Match` returns true, the left
operand has type 4×1 and the right operand type 1×4 over one element type among `float16`,
`float32`, `float64` and signed `int8`, and for that operand type `ProductKernel::Build` takes a
branch that assigns the vector type: it is not null, it is the vector of length 4, and its
element type is the element type of the operands. -/
theorem match_build_exhaustive (ir_inputs ir_outputs : List Nat) (s : Builder)
    (h : ProductKernel.Match ir_inputs ir_outputs s = .ok true) :
    ∃ a b e, index ir_inputs 0 = .ok a ∧ index ir_inputs 1 = .ok b ∧
      e ∈ [TensorType.FloatType 16, .FloatType 32, .FloatType 64, .IntType 8 true] ∧
      s.typeOf a = .ok (TensorType.CreateMatrixType e 4 1) ∧
      s.typeOf b = .ok (TensorType.CreateMatrixType e 1 4) ∧
      ProductKernel.Build.ir_f_type (TensorType.CreateMatrixType e 4 1)
        = some (TensorType.Create e [4]) := by
  unfold ProductKernel.Match at h
  simp only [bind, Except.bind] at h
  cases ha : index ir_inputs 0 with
  | error e => simp [ha] at h
  | ok a =>
    cases hb : index ir_inputs 1 with
    | error e => simp [ha, hb] at h
    | ok b =>
      simp only [ha, hb] at h
      obtain ⟨type, hmem, na, nb, vt, h1, h2, h3, h4, h5⟩ :=
        ProductKernel.Match.loop_eq_true s a b _ h
      simp only [ProductKernel.supported_types, List.mem_cons, List.mem_singleton,
        List.not_mem_nil, or_false] at hmem
      rcases hmem with rfl | rfl | rfl | rfl
      all_goals
        simp only [TensorType.CreateMatrixType, TensorType.value_type, Option.some.injEq] at h4
        subst h4
        exact ⟨a, b, _, rfl, rfl, by simp, ProductKernel.typeOf_of_deref h1 h2,
          ProductKernel.typeOf_of_deref h3 h5, rfl⟩

/-- The operands of the example, 4×1 and 1×4 over `float32`, are matched, and the vector type
of `Build` is the `float32` vector of length 4. -/
theorem match_build_exhaustive_witness :
    ProductKernel.Match [1, 2] [3] Example.opened = .ok true ∧
    ProductKernel.Build.ir_f_type (TensorType.CreateMatrixType (.FloatType 32) 4 1)
      = some (TensorType.Create (.FloatType 32) [4]) := by
  have hm : ProductKernel.Match [1, 2] [3] Example.opened = .ok true := rfl
  obtain ⟨a, b, e, h1, h2, he, h3, h4, h5⟩ := match_build_exhaustive [1, 2] [3] Example.opened hm
  have ha : a = 1 := by
    have : index [1, 2] 0 = (.ok 1 : Except Fault Nat) := rfl
    rw [this] at h1
    injection h1 with h1
    exact h1.symm
  subst ha
  have ht : Example.opened.typeOf 1 = .ok (TensorType.CreateMatrixType (.FloatType 32) 4 1) := rfl
  rw [ht] at h3
  simp only [TensorType.CreateMatrixType, Except.ok.injEq, TensorType.Tensor.injEq,
    and_true] at h3
  subst h3
  exact ⟨hm, h5⟩

/-! ## The passthrough lowering -/

namespace CopyOperatorCreator

/-- Whatever the recursion budget, `CopyOperatorCreator::AffineExpress` does not return: every
path through its body ends in the recursive call. -/
theorem AffineExpress_ne_ok : ∀ (fuel : Nat) (ir_inputs ir_outputs : List Nat) (s s' : Builder),
    AffineExpress fuel ir_inputs ir_outputs s ≠ .ok s' := by
  intro fuel
  induction fuel with
  | zero => intro _ _ _ _ h; simp [AffineExpress] at h
  | succ fuel ih =>
    intro ins outs s s' h
    simp only [AffineExpress, bind, Except.bind] at h
    split at h
    · cases h
    · split at h
      · cases h
      · split at h
        · cases h
        · split at h
          · cases h
          · split at h
            · cases h
            · split at h
              · cases h
              · split at h
                · cases h
                · split at h
                  · cases h
                  · rename_i heq
                    exact ih _ _ _ _ heq

end CopyOperatorCreator

/-- C6, the code at the failing input. On a scalar input (object 1 of `Example.scalars`, output
object 2) `CopyOperatorCreator::AffineExpress` emits the `Write` and then, its `if` having no
`return`, opens a grid of rank 0, builds two accessors in it and calls itself on them: the call
is the recursive call in the builder `Example.scalarsInGrid` followed by the release of the
grid, and it never returns a builder. -/
theorem copy_scalar_falls_through (fuel : Nat) :
    CopyOperatorCreator.AffineExpress (fuel + 1) [1] [2] Example.scalars =
      (CopyOperatorCreator.AffineExpress fuel [5] [6] Example.scalarsInGrid).bind
        Builder.gridRelease ∧
    ∀ s', CopyOperatorCreator.AffineExpress (fuel + 1) [1] [2] Example.scalars ≠ .ok s' :=
  ⟨rfl, CopyOperatorCreator.AffineExpress_ne_ok _ _ _ _⟩

/-- C7, the code at the failing input. On a tensor of shape `(2)` (object 1 of
`Example.vectors`, output object 2) the recursive call of `CopyOperatorCreator::AffineExpress`
on the identity accessors emits the `Write` and does not return: it opens a second grid and
calls itself again, in the builder `Example.vectorsSecondGrid`. On no input and with no
recursion budget does the call return a builder. -/
theorem copy_never_returns (fuel : Nat) :
    CopyOperatorCreator.AffineExpress (fuel + 2) [1] [2] Example.vectors =
      ((CopyOperatorCreator.AffineExpress fuel [8] [9] Example.vectorsSecondGrid).bind
        Builder.gridRelease).bind Builder.gridRelease ∧
    ∀ (budget : Nat) (ir_inputs ir_outputs : List Nat) (s s' : Builder),
      CopyOperatorCreator.AffineExpress budget ir_inputs ir_outputs s ≠ .ok s' :=
  ⟨rfl, CopyOperatorCreator.AffineExpress_ne_ok⟩

/-! ## Evaluation of the builder operations on a builder in the form `emit` -/

namespace Builder

theorem emit_nil {s : Builder} {b : Nat} {n : Node} (hn : s.heap[b]? = some n) :
    s.emit b n [] [] = s := by
  have hlt : b < s.heap.length := by
    rcases Nat.lt_or_ge b s.heap.length with h | h
    · exact h
    · rw [List.getElem?_eq_none h] at hn; cases hn
  have : s.heap.set b { n with values := n.values ++ [] } = s.heap := by
    apply List.ext_getElem?
    intro i
    rw [List.getElem?_set]
    by_cases hbi : b = i
    · subst hbi
      simp [hlt, hn]
    · simp [hbi]
  unfold emit
  rw [this, List.append_nil]

theorem emit_heap_length (s : Builder) (b : Nat) (n : Node) (vs : List Nat) (news : List Node) :
    (s.emit b n vs news).heap.length = s.heap.length + news.length := by
  simp [emit]

theorem emit_get_base {s : Builder} {b : Nat} (n : Node) (vs : List Nat) (news : List Node)
    (hlt : b < s.heap.length) :
    (s.emit b n vs news).heap[b]? = some { n with values := n.values ++ vs } := by
  simp only [emit]
  rw [List.getElem?_append_left (by simpa using hlt)]
  simp [List.getElem?_set, hlt]

theorem emit_get_new (s : Builder) (b : Nat) (n : Node) (vs : List Nat) (news : List Node)
    (i : Nat) : (s.emit b n vs news).heap[s.heap.length + i]? = news[i]? := by
  simp only [emit]
  rw [List.getElem?_append_right (by simp)]
  simp

theorem emit_get_old {s : Builder} {b x : Nat} (n : Node) (vs : List Nat) (news : List Node)
    (hx : x < s.heap.length) (hne : x ≠ b) :
    (s.emit b n vs news).heap[x]? = s.heap[x]? := by
  simp only [emit]
  rw [List.getElem?_append_left (by simpa using hx)]
  simp [List.getElem?_set, Ne.symm hne]

/-- `Create` on a builder in the form `emit`. -/
theorem emit_Create {s : Builder} {b : Nat} {bs : List Nat} {its : List Iterator} (n : Node)
    (vs : List Nat) (news : List Node) (v : Node) (hb : s.block_stack = b :: bs)
    (hi : s.iterator_stack = ⟨b⟩ :: its) (hlt : b < s.heap.length) :
    (s.emit b n vs news).Create v =
      .ok (s.heap.length + news.length,
        s.emit b n (vs ++ [s.heap.length + news.length]) (news ++ [v])) := by
  have h := Create_ok (s := s.emit b n vs news) v hb hi (emit_get_base n vs news hlt)
  rw [h, emit_heap_length]
  simp only [emit, Except.ok.injEq, Prod.mk.injEq, true_and]
  congr 1
  rw [List.set_append, if_pos (by simpa using hlt), List.set_set]
  simp [List.append_assoc]

/-- `Clone` of an object added since, on a builder in the form `emit`. -/
theorem emit_Clone (s : Builder) (b : Nat) (n : Node) (vs : List Nat) (news : List Node)
    {i : Nat} {x : Node} (hx : news[i]? = some x) :
    (s.emit b n vs news).Clone (s.heap.length + i) =
      .ok (s.heap.length + news.length, s.emit b n vs (news ++ [x])) := by
  unfold Clone
  rw [emit_get_new, hx]
  simp only [alloc, emit_heap_length]
  simp [emit, List.append_assoc]

/-- `shift_vector[k] = v` on an accessor added since, on a builder in the form `emit`. -/
theorem emit_setShift (s : Builder) (b : Nat) (n : Node) (vs : List Nat) (news : List Node)
    {i k : Nat} (value : Nat) (m : MatrixXi64) (shift : List Int) (t : Option TensorType)
    (ws : List Nat) (v : Int) (hx : news[i]? = some ⟨.Accessor value m shift, t, ws⟩)
    (hk : k < shift.length) :
    (s.emit b n vs news).setShift (s.heap.length + i) k v =
      .ok (s.emit b n vs (news.set i ⟨.Accessor value m (shift.set k v), t, ws⟩)) := by
  unfold setShift
  rw [emit_get_new, hx]
  simp only [hk, if_true, emit, Except.ok.injEq]
  congr 1
  rw [List.set_append, if_neg (by simp)]
  simp

/-- `transform_matrix(i, j) = v` on an accessor added since, on a builder in the form
`emit`. -/
theorem emit_setTransform (s : Builder) (b : Nat) (n : Node) (vs : List Nat)
    (news : List Node) {i : Nat} (r c : Nat) (value : Nat) (m m1 : MatrixXi64)
    (shift : List Int) (t : Option TensorType) (ws : List Nat) (v : Int)
    (hx : news[i]? = some ⟨.Accessor value m shift, t, ws⟩) (hm : m.setCoeff r c v = .ok m1) :
    (s.emit b n vs news).setTransform (s.heap.length + i) r c v =
      .ok (s.emit b n vs (news.set i ⟨.Accessor value m1 shift, t, ws⟩)) := by
  unfold setTransform
  rw [emit_get_new, hx]
  simp only [hm, emit, Except.ok.injEq]
  congr 1
  rw [List.set_append, if_neg (by simp)]
  simp

/-- `transform_matrix(i, j) = v` on the accessor added last, on a builder in the form
`emit`. -/
theorem emit_setTransform_last (s : Builder) (b : Nat) (n : Node) (vs : List Nat)
    (news : List Node) (r c : Nat) (value : Nat) (m m1 : MatrixXi64) (shift : List Int)
    (t : Option TensorType) (ws : List Nat) (v : Int) (hm : m.setCoeff r c v = .ok m1) :
    (s.emit b n vs (news ++ [⟨.Accessor value m shift, t, ws⟩])).setTransform
        (s.heap.length + news.length) r c v =
      .ok (s.emit b n vs (news ++ [⟨.Accessor value m1 shift, t, ws⟩])) := by
  rw [emit_setTransform s b n vs _ r c value m m1 shift t ws v
    (List.getElem?_concat_length _ _) hm]
  simp [List.set_append]

/-- The type of an object added since, on a builder in the form `emit`. -/
theorem emit_typeOf_new (s : Builder) (b : Nat) (n : Node) (vs : List Nat) (news : List Node)
    (i : Nat) (k : Kind) (t : TensorType) (ws : List Nat)
    (hx : news[i]? = some ⟨k, some t, ws⟩) :
    (s.emit b n vs news).typeOf (s.heap.length + i) = .ok t := by
  unfold typeOf
  rw [emit_get_new, hx]

/-- The type of an object that existed before, on a builder in the form `emit`. -/
theorem emit_typeOf_old {s : Builder} {b a : Nat} {n : Node} (vs : List Nat)
    (news : List Node) {t : TensorType} (h : s.typeOf a = .ok t)
    (hn : a = b → n.type = some t) : (s.emit b n vs news).typeOf a = .ok t := by
  have hlt : a < s.heap.length := by
    rcases Nat.lt_or_ge a s.heap.length with h' | h'
    · exact h'
    · unfold typeOf at h; rw [List.getElem?_eq_none h'] at h; cases h
  by_cases hab : a = b
  · subst hab
    unfold typeOf
    rw [emit_get_base n vs news hlt]
    obtain ⟨k, ty, ws⟩ := n
    have := hn rfl
    simp only at this
    subst this
    rfl
  · unfold typeOf at h ⊢
    rw [emit_get_old n vs news hlt hab]
    exact h

theorem emit_parallel_rank_nil {s : Builder} (b : Nat) (n : Node) (vs : List Nat)
    (news : List Node) (hp : s.parallel_stack = []) :
    (s.emit b n vs news).parallel_rank = .ok 0 := by
  simp [parallel_rank, emit, hp]

theorem emit_parallel_rank_base {s : Builder} {b : Nat} {ps : List Nat} {n : Node}
    (vs : List Nat) (news : List Node) {shape : List Int} {f : Bool}
    (hp : s.parallel_stack = b :: ps) (hk : n.kind = .Grid shape f) (hlt : b < s.heap.length) :
    (s.emit b n vs news).parallel_rank = .ok shape.length := by
  have hg : (s.emit b n vs news).gridShape b = .ok shape := by
    unfold gridShape
    rw [emit_get_base n vs news hlt]
    obtain ⟨k, ty, ws⟩ := n
    simp only at hk
    subst hk
    rfl
  have hps : (s.emit b n vs news).parallel_stack = b :: ps := hp
  simp [parallel_rank, hps, CurrentGrid, hg]

/-- `CreateAccessor` on a builder in the form `emit`. -/
theorem emit_CreateAccessor {s : Builder} {b : Nat} {bs : List Nat} {its : List Iterator}
    (n : Node) (vs : List Nat) (news : List Node) {r p : Nat} {t : TensorType}
    (hb : s.block_stack = b :: bs) (hi : s.iterator_stack = ⟨b⟩ :: its)
    (hlt : b < s.heap.length) (ht : (s.emit b n vs news).typeOf r = .ok t)
    (hp : (s.emit b n vs news).parallel_rank = .ok p) :
    (s.emit b n vs news).CreateAccessor r =
      .ok (s.heap.length + news.length,
        s.emit b n (vs ++ [s.heap.length + news.length])
          (news ++ [Accessor.Create t r (MatrixXi64.Zero t.shape.length p)
            (VectorXi64.Zero t.shape.length)])) := by
  unfold CreateAccessor
  simp only [ht, hp]
  exact emit_Create n vs news _ hb hi hlt

end Builder

/-! ## Evaluation of the vector kernel -/

namespace ProductKernel

open Builder

/-- One iteration of the loop of `Build` on a builder in the form `emit`, the reinterpreted
output being the object `j` of those added since. -/
theorem Build.body_emit {s : Builder} {b : Nat} {bs : List Nat} {its : List Iterator}
    (n : Node) (vs : List Nat) (news : List Node) (bca bcb c j : Nat) (f_type : TensorType)
    (i : Int) (hb : s.block_stack = b :: bs) (hi : s.iterator_stack = ⟨b⟩ :: its)
    (hlt : b < s.heap.length) (hp : s.parallel_stack = [])
    (hc : news[j]? = some (BitCast.Create c (some (TensorType.Create f_type [4])))) :
    Build.body bca bcb (s.heap.length + j) i (s.emit b n vs news) =
      .ok (s.emit b n (vs ++ Build.laneValues (s.heap.length + news.length))
        (news ++ Build.lane bca bcb (s.heap.length + j) f_type
          (s.heap.length + news.length) i)) := by
  unfold Build.body
  simp only [bind, Except.bind]
  rw [emit_Create n _ _ _ hb hi hlt]
  simp only []
  rw [emit_Create n _ _ _ hb hi hlt]
  simp only []
  have hj : j < news.length := by
    rcases Nat.lt_or_ge j news.length with h | h
    · exact h
    · rw [List.getElem?_eq_none h] at hc; cases hc
  rw [emit_CreateAccessor (t := TensorType.Create f_type [4]) (p := 0) n _ _ hb hi hlt
    (emit_typeOf_new _ _ _ _ _ j (.BitCast c) _ [] (by
      rw [List.getElem?_append_left (by simp; omega), List.getElem?_append_left hj]; exact hc))
    (emit_parallel_rank_nil _ _ _ _ hp)]
  simp only [Accessor.Create, TensorType.Create, TensorType.shape, TensorType.value_type,
    VectorXi64.Zero, List.length_singleton, List.replicate]
  rw [emit_setShift _ _ _ _ _ (s.heap.length + j) (MatrixXi64.Zero 1 0) [0] (some f_type) [] i
    (List.getElem?_concat_length _ _) (by simp)]
  simp only []
  rw [emit_Create n _ _ _ hb hi hlt]
  simp only []
  rw [emit_Clone
    (x := ⟨.Accessor (s.heap.length + j) (MatrixXi64.Zero 1 0) [i], some f_type, []⟩)
    _ _ _ _ _ (by
      rw [List.getElem?_append_left (by simp), List.getElem?_set]
      simp)]
  simp only []
  rw [emit_Create n _ _ _ hb hi hlt]
  simp only [pure, Except.pure, Build.lane, Build.laneValues]
  simp [Nat.add_assoc]

/-- The four iterations of the loop of `Build` on a builder in the form `emit`. -/
theorem Build.loop_emit {s : Builder} {b : Nat} {bs : List Nat} {its : List Iterator}
    (n : Node) (bca bcb c j : Nat) (f_type : TensorType)
    (hb : s.block_stack = b :: bs) (hi : s.iterator_stack = ⟨b⟩ :: its)
    (hlt : b < s.heap.length) (hp : s.parallel_stack = []) (vs : List Nat) (news : List Node)
    (hc : news[j]? = some (BitCast.Create c (some (TensorType.Create f_type [4])))) :
    Build.loop bca bcb (s.heap.length + j) [0, 1, 2, 3] (s.emit b n vs news) =
      .ok (s.emit b n
        (vs ++ Build.laneValues (s.heap.length + news.length)
          ++ Build.laneValues (s.heap.length + news.length + 6)
          ++ Build.laneValues (s.heap.length + news.length + 12)
          ++ Build.laneValues (s.heap.length + news.length + 18))
        (news ++ Build.lane bca bcb (s.heap.length + j) f_type (s.heap.length + news.length) 0
          ++ Build.lane bca bcb (s.heap.length + j) f_type (s.heap.length + news.length + 6) 1
          ++ Build.lane bca bcb (s.heap.length + j) f_type (s.heap.length + news.length + 12) 2
          ++ Build.lane bca bcb (s.heap.length + j) f_type (s.heap.length + news.length + 18)
            3)) := by
  have hj : j < news.length := by
    rcases Nat.lt_or_ge j news.length with h | h
    · exact h
    · rw [List.getElem?_eq_none h] at hc; cases hc
  have hc' : ∀ more : List Node,
      (news ++ more)[j]? = some (BitCast.Create c (some (TensorType.Create f_type [4]))) := by
    intro more
    rw [List.getElem?_append_left hj]; exact hc
  simp only [Build.loop, bind, Except.bind]
  rw [Build.body_emit n _ _ bca bcb c j f_type 0 hb hi hlt hp hc]
  simp only []
  rw [Build.body_emit n _ _ bca bcb c j f_type 1 hb hi hlt hp (hc' _)]
  simp only []
  rw [Build.body_emit n _ _ bca bcb c j f_type 2 hb hi hlt hp
    (by rw [List.append_assoc]; exact hc' _)]
  simp only []
  rw [Build.body_emit n _ _ bca bcb c j f_type 3 hb hi hlt hp
    (by rw [List.append_assoc, List.append_assoc]; exact hc' _)]
  simp only [List.length_append, Build.lane, List.length_cons, List.length_nil, Nat.add_assoc,
    List.append_assoc]

/-- `Match` accepts a 4×1 left operand and a 1×4 right operand over `float32`. -/
theorem Match_float32 {s : Builder} {a b : Nat} (ir_outputs : List Nat)
    (hta : s.typeOf a = .ok (TensorType.CreateMatrixType (.FloatType 32) 4 1))
    (htb : s.typeOf b = .ok (TensorType.CreateMatrixType (.FloatType 32) 1 4)) :
    Match [a, b] ir_outputs s = .ok true := by
  have key : ∀ {r : Nat} {t : TensorType}, s.typeOf r = .ok t →
      ∃ nd, s.deref r = .ok nd ∧ nd.type = some t := by
    intro r t h
    unfold typeOf at h
    unfold deref index
    cases hr : s.heap[r]? with
    | none => simp [hr] at h
    | some nd =>
      obtain ⟨k, ty, ws⟩ := nd
      cases ty with
      | none => simp [hr] at h
      | some t' =>
        simp only [hr, Except.ok.injEq] at h
        exact ⟨_, rfl, by rw [h]⟩
  obtain ⟨na, ha1, ha2⟩ := key hta
  obtain ⟨nb, hb1, hb2⟩ := key htb
  simp [Match, index, bind, Except.bind, supported_types, Match.loop, ha1, ha2, hb1, hb2,
    TensorType.CreateMatrixType, TensorType.value_type, pure, Except.pure]

/-- `Build` on `float32` operands, on a builder in the form `emit` with no grid open. -/
theorem Build_emit {s : Builder} {b : Nat} {bs : List Nat} {its : List Iterator}
    (n : Node) (vs : List Nat) (news : List Node) (a b' c : Nat)
    (hb : s.block_stack = b :: bs) (hi : s.iterator_stack = ⟨b⟩ :: its)
    (hlt : b < s.heap.length) (hp : s.parallel_stack = [])
    (hta : (s.emit b n vs news).typeOf a
      = .ok (TensorType.CreateMatrixType (.FloatType 32) 4 1)) :
    Build [a, b'] [c] (s.emit b n vs news) =
      .ok (s.emit b n (vs ++ Build.values (s.heap.length + news.length))
        (news ++ Build.nodes a b' c (s.heap.length + news.length))) := by
  unfold Build
  simp only [index, bind, Except.bind, List.getElem?_cons_zero, List.getElem?_cons_succ, hta]
  have hf : Build.ir_f_type (TensorType.CreateMatrixType (.FloatType 32) 4 1)
      = some (TensorType.Create (.FloatType 32) [4]) := rfl
  rw [hf]
  simp only []
  rw [emit_Create n _ _ _ hb hi hlt]
  simp only []
  rw [emit_Create n _ _ _ hb hi hlt]
  simp only []
  rw [emit_Create n _ _ _ hb hi hlt]
  simp only []
  rw [Build.loop_emit n _ _ c _ (TensorType.Create (.FloatType 32) [4]) hb hi hlt hp _ _
    (List.getElem?_concat_length _ _)]
  simp [Nat.add_assoc, Build.values, Build.nodes]

end ProductKernel

/-- C9. End-to-end scenario A: with `ProductKernel` registered first, lowering a 4×1 by 1×4
`float32` product (`a`, `b`, output `c`) in a builder with a block and no grid open returns,
with the stacks as they were (no grid opened), having added to the arena the three
reinterpretations followed by the four groups of the lanes 0, 1, 2, 3 in this order: the
broadcast of lane `i` of the reinterpreted `a`, its product with the reinterpreted `b`, an
accessor over the reinterpreted `c` with shift `[i]`, the sum of product and accessor, a clone of
the accessor (shift `[i]`), and the write of the sum to the clone. All but the clones are
inserted into the current block, none of the new objects is a grid, and exactly 4 are writes. -/
theorem scenario_vector_kernel (enable_multi_thread : TensorType → Bool) (rest : List Kernel)
    (fuel : Nat) (s : Builder) (block : Nat) (bs : List Nat) (its : List Iterator) (n : Node)
    (a b c : Nat) (hb : s.block_stack = block :: bs) (hi : s.iterator_stack = ⟨block⟩ :: its)
    (hn : s.heap[block]? = some n) (hp : s.parallel_stack = [])
    (hta : s.typeOf a = .ok (TensorType.CreateMatrixType (.FloatType 32) 4 1))
    (htb : s.typeOf b = .ok (TensorType.CreateMatrixType (.FloatType 32) 1 4)) :
    MatrixMultiplyCreator.AffineExpress enable_multi_thread (ProductKernel :: rest) (fuel + 1)
        [a, b] [c] s =
      .ok (s.emit block n (ProductKernel.Build.values s.heap.length)
        (ProductKernel.Build.nodes a b c s.heap.length)) ∧
    (s.emit block n (ProductKernel.Build.values s.heap.length)
        (ProductKernel.Build.nodes a b c s.heap.length)).stackState = s.stackState ∧
    (ProductKernel.Build.nodes a b c s.heap.length).filter Node.isGrid = [] ∧
    ((ProductKernel.Build.nodes a b c s.heap.length).filter Node.isWrite).length = 4 := by
  have hlt : block < s.heap.length := by
    rcases Nat.lt_or_ge block s.heap.length with h | h
    · exact h
    · rw [List.getElem?_eq_none h] at hn; cases hn
  have hm : ProductKernel.Match [a, b] [c] s = .ok true := ProductKernel.Match_float32 [c] hta htb
  have hbuild := ProductKernel.Build_emit n [] [] a b c hb hi hlt hp
    (by rw [Builder.emit_nil hn]; exact hta)
  rw [Builder.emit_nil hn] at hbuild
  refine ⟨?_, rfl, ?_, ?_⟩
  · simp only [MatrixMultiplyCreator.AffineExpress, MatrixMultiplyCreator.AffineExpress.kernels,
      ProductKernel, hm]
    rw [hbuild]
    simp
  · simp [ProductKernel.Build.nodes, ProductKernel.Build.lane, Node.isGrid, BitCast.Create,
      VectorBroadcast.Create, Mul.Create, Add.Create, Write.Create]
  · simp [ProductKernel.Build.nodes, ProductKernel.Build.lane, Node.isWrite, BitCast.Create,
      VectorBroadcast.Create, Mul.Create, Add.Create, Write.Create]

/-- In the example builder, with `ProductKernel` the only kernel: the lowering of the product of
the objects 1 and 2 into object 3 adds the 27 objects of `Build.nodes` from address 4 on and
inserts 23 of them into the operator `op`, the current block. -/
theorem scenario_vector_kernel_witness :
    MatrixMultiplyCreator.AffineExpress (fun _ => false) [ProductKernel] 1 [1, 2] [3]
        Example.opened =
      .ok (Example.opened.emit 0 ⟨.OperatorInstance [] [] "op" "op", none, []⟩
        (ProductKernel.Build.values 4) (ProductKernel.Build.nodes 1 2 3 4)) ∧
    (ProductKernel.Build.nodes 1 2 3 4).length = 27 ∧
    (ProductKernel.Build.values 4).length = 23 :=
  ⟨(scenario_vector_kernel (fun _ => false) [] 0 Example.opened 0 [] []
      ⟨.OperatorInstance [] [] "op" "op", none, []⟩ 1 2 3 rfl rfl rfl rfl rfl rfl).1, rfl, rfl⟩

/-! ## Evaluation of the generic expansion of the matrix product -/

namespace MatrixMultiplyCreator

open Builder

/-- The scalar case appends the product, the sum and the write to the current block. -/
theorem AffineExpress.scalar_emit {s : Builder} {blk : Nat} {bs : List Nat}
    {its : List Iterator} (n : Node) (vs : List Nat) (news : List Node) (a b c : Nat)
    (hb : s.block_stack = blk :: bs) (hi : s.iterator_stack = ⟨blk⟩ :: its)
    (hlt : blk < s.heap.length) :
    AffineExpress.scalar a b c (s.emit blk n vs news) =
      .ok (s.emit blk n
        (vs ++ [s.heap.length + news.length, s.heap.length + news.length + 1,
          s.heap.length + news.length + 2])
        (news ++ [Mul.Create a b, Add.Create (s.heap.length + news.length) c,
          Write.Create (s.heap.length + news.length + 1) c])) := by
  unfold AffineExpress.scalar
  simp only [bind, Except.bind]
  rw [emit_Create n _ _ _ hb hi hlt]
  simp only []
  rw [emit_Create n _ _ _ hb hi hlt]
  simp only []
  rw [emit_Create n _ _ _ hb hi hlt]
  simp [pure, Except.pure, Nat.add_assoc]

/-- On a scalar left operand the generic expansion is the scalar case. -/
theorem AffineExpress.generic_scalar {s : Builder} (enable_multi_thread : TensorType → Bool)
    (recurse : List Nat → List Nat → Builder → Except Fault Builder)
    (a b c : Nat) {t : TensorType} (hta : s.typeOf a = .ok t) (hsc : t.IsScalar = true) :
    AffineExpress.generic enable_multi_thread recurse [a, b] [c] s =
      AffineExpress.scalar a b c s := by
  unfold AffineExpress.generic
  simp only [index_zero, index_one, hta, hsc, if_true]

/-- On a left operand that is no scalar the generic expansion is the tensor case. -/
theorem AffineExpress.generic_tensor {s : Builder} (enable_multi_thread : TensorType → Bool)
    (recurse : List Nat → List Nat → Builder → Except Fault Builder)
    (a b c : Nat) {t : TensorType} (hta : s.typeOf a = .ok t) (hsc : t.IsScalar = false) :
    AffineExpress.generic enable_multi_thread recurse [a, b] [c] s =
      AffineExpress.tensor enable_multi_thread recurse a b c t s := by
  unfold AffineExpress.generic
  simp only [index_zero, index_one, hta, hsc]
  simp

/-- The shape law holds on shapes `(m, k)`, `(k, n)`, `(m, n)`. -/
theorem AffineExpress.shapeLaw_ok {s : Builder} {b c : Nat} (ea eb ec : TensorType)
    (m k n : Int)
    (htb : s.typeOf b = .ok (TensorType.CreateMatrixType eb k n))
    (htc : s.typeOf c = .ok (TensorType.CreateMatrixType ec m n)) :
    AffineExpress.shapeLaw (TensorType.CreateMatrixType ea m k) b c s = .ok [m, k, n] := by
  unfold AffineExpress.shapeLaw
  simp only [bind, Except.bind, htb, htc, TensorType.CreateMatrixType, TensorType.shape,
    index_zero, index_one, GALOIS_ASSERT, decide_True, if_true, pure, Except.pure]

/-- The three accessors of the tensor case, on a builder in the form `emit` whose innermost
grid has rank 3. -/
theorem AffineExpress.accessors_emit {s : Builder} {blk : Nat} {bs : List Nat}
    {its : List Iterator} (n : Node) (vs : List Nat) (news : List Node) (a b c : Nat)
    (ea eb ec : TensorType) (m k n' : Int)
    (hb : s.block_stack = blk :: bs) (hi : s.iterator_stack = ⟨blk⟩ :: its)
    (hlt : blk < s.heap.length)
    (hta : ∀ vs news, (s.emit blk n vs news).typeOf a = .ok (TensorType.CreateMatrixType ea m k))
    (htb : ∀ vs news, (s.emit blk n vs news).typeOf b = .ok (TensorType.CreateMatrixType eb k n'))
    (htc : ∀ vs news, (s.emit blk n vs news).typeOf c = .ok (TensorType.CreateMatrixType ec m n'))
    (hp : ∀ vs news, (s.emit blk n vs news).parallel_rank = .ok 3) :
    AffineExpress.accessors a b c (s.emit blk n vs news) =
      .ok (s.heap.length + news.length, s.heap.length + news.length + 1,
        s.heap.length + news.length + 2,
        s.emit blk n
          (vs ++ [s.heap.length + news.length, s.heap.length + news.length + 1,
            s.heap.length + news.length + 2])
          (news ++ [⟨.Accessor a ⟨2, 3, [[1, 0, 0], [0, 1, 0]]⟩ [0, 0], some ea, []⟩,
            ⟨.Accessor b ⟨2, 3, [[0, 1, 0], [0, 0, 1]]⟩ [0, 0], some eb, []⟩,
            ⟨.Accessor c ⟨2, 3, [[1, 0, 0], [0, 0, 1]]⟩ [0, 0], some ec, []⟩])) := by
  unfold AffineExpress.accessors
  simp only [bind, Except.bind]
  rw [emit_CreateAccessor n _ _ hb hi hlt (hta _ _) (hp _ _)]
  simp only [Accessor.Create, TensorType.CreateMatrixType, TensorType.shape, TensorType.value_type,
    VectorXi64.Zero, MatrixXi64.Zero, List.length_cons, List.length_nil, List.replicate]
  rw [emit_setTransform_last _ _ _ _ _ 0 0 a ⟨2, 3, [[0, 0, 0], [0, 0, 0]]⟩ ⟨2, 3, [[1, 0, 0], [0, 0, 0]]⟩ [0, 0]
    (some ea) [] 1 rfl]
  simp only []
  rw [emit_setTransform_last _ _ _ _ _ 1 1 a ⟨2, 3, [[1, 0, 0], [0, 0, 0]]⟩ ⟨2, 3, [[1, 0, 0], [0, 1, 0]]⟩ [0, 0]
    (some ea) [] 1 rfl]
  simp only []
  rw [emit_CreateAccessor n _ _ hb hi hlt (htb _ _) (hp _ _)]
  simp only [Accessor.Create, TensorType.CreateMatrixType, TensorType.shape, TensorType.value_type,
    VectorXi64.Zero, MatrixXi64.Zero, List.length_cons, List.length_nil, List.replicate]
  rw [emit_setTransform_last _ _ _ _ _ 0 1 b ⟨2, 3, [[0, 0, 0], [0, 0, 0]]⟩ ⟨2, 3, [[0, 1, 0], [0, 0, 0]]⟩ [0, 0]
    (some eb) [] 1 rfl]
  simp only []
  rw [emit_setTransform_last _ _ _ _ _ 1 2 b ⟨2, 3, [[0, 1, 0], [0, 0, 0]]⟩ ⟨2, 3, [[0, 1, 0], [0, 0, 1]]⟩ [0, 0]
    (some eb) [] 1 rfl]
  simp only []
  rw [emit_CreateAccessor n _ _ hb hi hlt (htc _ _) (hp _ _)]
  simp only [Accessor.Create, TensorType.CreateMatrixType, TensorType.shape, TensorType.value_type,
    VectorXi64.Zero, MatrixXi64.Zero, List.length_cons, List.length_nil, List.replicate]
  rw [emit_setTransform_last _ _ _ _ _ 0 0 c ⟨2, 3, [[0, 0, 0], [0, 0, 0]]⟩ ⟨2, 3, [[1, 0, 0], [0, 0, 0]]⟩ [0, 0]
    (some ec) [] 1 rfl]
  simp only []
  rw [emit_setTransform_last _ _ _ _ _ 1 2 c ⟨2, 3, [[1, 0, 0], [0, 0, 0]]⟩ ⟨2, 3, [[1, 0, 0], [0, 0, 1]]⟩ [0, 0]
    (some ec) [] 1 rfl]
  simp [pure, Except.pure, Nat.add_assoc]
/-- The steps of the tensor case between the shape law and the recursive call, on matrices of
shapes `(m, k)`, `(k, n)`, `(m, n)`: `CreateGrid` on the extents `(m, k, n)` inserts the grid
into the current block and opens it, the flag is assigned, and the three accessors are created
in the grid, which gives the builder `inGrid`. -/
theorem AffineExpress.tensor_steps {s : Builder} {blk : Nat} {bs : List Nat}
    {its : List Iterator} {nd : Node} (flag : Bool)
    (a b c : Nat) (ea eb ec : TensorType) (m k n : Int)
    (hb : s.block_stack = blk :: bs) (hi : s.iterator_stack = ⟨blk⟩ :: its)
    (hn : s.heap[blk]? = some nd)
    (hta : s.typeOf a = .ok (TensorType.CreateMatrixType ea m k))
    (htb : s.typeOf b = .ok (TensorType.CreateMatrixType eb k n))
    (htc : s.typeOf c = .ok (TensorType.CreateMatrixType ec m n)) :
    s.CreateGrid [m, k, n] = .ok (s.heap.length, gridRelease,
      (s.emit blk nd [s.heap.length] [Grid.Create [m, k, n]]).pushGrid s.heap.length) ∧
    ((s.emit blk nd [s.heap.length] [Grid.Create [m, k, n]]).pushGrid
        s.heap.length).setEnableMultiThread s.heap.length flag =
      .ok ((s.emit blk nd [s.heap.length]
        [⟨.Grid [m, k, n] flag, none, []⟩]).pushGrid s.heap.length) ∧
    AffineExpress.accessors a b c ((s.emit blk nd [s.heap.length]
        [⟨.Grid [m, k, n] flag, none, []⟩]).pushGrid s.heap.length) =
      .ok (s.heap.length + 1, s.heap.length + 2, s.heap.length + 3,
        AffineExpress.inGrid s blk nd flag a b c ea eb ec m k n) := by
  have hlt : blk < s.heap.length := by
    rcases Nat.lt_or_ge blk s.heap.length with h | h
    · exact h
    · rw [List.getElem?_eq_none h] at hn; cases hn
  have hlen : ∀ {r : Nat} {t : TensorType}, s.typeOf r = .ok t → r < s.heap.length := by
    intro r t h
    rcases Nat.lt_or_ge r s.heap.length with h' | h'
    · exact h'
    · unfold typeOf at h; rw [List.getElem?_eq_none h'] at h; cases h
  have hty : ∀ {r : Nat} {t : TensorType}, s.typeOf r = .ok t → r = blk → nd.type = some t := by
    intro r t h hr
    subst hr
    unfold typeOf at h
    rw [hn] at h
    obtain ⟨kd, ty, ws⟩ := nd
    cases ty with
    | none => cases h
    | some t' => simp only [Except.ok.injEq] at h; rw [h]
  have hcg : s.CreateGrid [m, k, n] = .ok (s.heap.length, gridRelease,
      (s.emit blk nd [s.heap.length] [Grid.Create [m, k, n]]).pushGrid s.heap.length) := by
    unfold CreateGrid
    rw [Create_ok _ hb hi hn]
    rfl
  have hse : ((s.emit blk nd [s.heap.length] [Grid.Create [m, k, n]]).pushGrid
        s.heap.length).setEnableMultiThread s.heap.length
        flag =
      .ok ((s.emit blk nd [s.heap.length]
        [⟨.Grid [m, k, n] flag, none,
          []⟩]).pushGrid s.heap.length) := by
    unfold setEnableMultiThread
    have hg : ((s.emit blk nd [s.heap.length] [Grid.Create [m, k, n]]).pushGrid
        s.heap.length).heap[s.heap.length]? = some (Grid.Create [m, k, n]) := by
      have := emit_get_new s blk nd [s.heap.length] [Grid.Create [m, k, n]] 0
      simpa [pushGrid] using this
    rw [hg]
    simp only [Grid.Create, pushGrid, emit, Except.ok.injEq]
    congr 1
    rw [List.set_append, if_neg (by simp)]
    simp
  refine ⟨hcg, hse, ?_⟩
  obtain ⟨t, ht⟩ : ∃ t, t = (s.emit blk nd [s.heap.length]
      [⟨.Grid [m, k, n] flag, none, []⟩]).pushGrid s.heap.length := ⟨_, rfl⟩
  rw [← ht]
  have h1 : t.block_stack = s.heap.length :: s.block_stack := by rw [ht]; rfl
  have h2 : t.iterator_stack = ⟨s.heap.length⟩ :: s.iterator_stack := by rw [ht]; rfl
  have h3 : t.parallel_stack = s.heap.length :: s.parallel_stack := by rw [ht]; rfl
  have h4 : t.heap.length = s.heap.length + 1 := by
    rw [ht]; exact emit_heap_length s blk nd _ _
  have h5 : t.heap[s.heap.length]? = some ⟨.Grid [m, k, n] flag, none, []⟩ := by
    rw [ht]
    have := emit_get_new s blk nd [s.heap.length] [⟨.Grid [m, k, n] flag, none, []⟩] 0
    simpa [pushGrid] using this
  have h6 : ∀ {r : Nat} {ty : TensorType}, s.typeOf r = .ok ty → t.typeOf r = .ok ty := by
    intro r ty h
    rw [ht]
    exact emit_typeOf_old _ _ h (hty h)
  have h7 : ∀ {r : Nat} {ty : TensorType}, s.typeOf r = .ok ty → ∀ vs news,
      (t.emit s.heap.length ⟨.Grid [m, k, n] flag, none, []⟩ vs news).typeOf r = .ok ty := by
    intro r ty h vs news
    exact emit_typeOf_old vs news (h6 h) (fun e => absurd e (Nat.ne_of_lt (hlen h)))
  have h8 : ∀ vs news,
      (t.emit s.heap.length ⟨.Grid [m, k, n] flag, none, []⟩ vs news).parallel_rank
        = .ok 3 := by
    intro vs news
    have hk : (⟨.Grid [m, k, n] flag, none, []⟩ : Node).kind = .Grid [m, k, n] flag := rfl
    exact emit_parallel_rank_base vs news h3 hk (by omega)
  have hacc := AffineExpress.accessors_emit ⟨.Grid [m, k, n] flag, none, []⟩ [] [] a b c
    ea eb ec m k n h1 h2 (by omega) (h7 hta) (h7 htb) (h7 htc) h8
  rw [emit_nil h5] at hacc
  have hst : t.emit s.heap.length ⟨.Grid [m, k, n] flag, none, []⟩
      ([] ++ [t.heap.length + ([] : List Node).length, t.heap.length + ([] : List Node).length + 1,
        t.heap.length + ([] : List Node).length + 2])
      ([] ++ [⟨.Accessor a ⟨2, 3, [[1, 0, 0], [0, 1, 0]]⟩ [0, 0], some ea, []⟩,
        ⟨.Accessor b ⟨2, 3, [[0, 1, 0], [0, 0, 1]]⟩ [0, 0], some eb, []⟩,
        ⟨.Accessor c ⟨2, 3, [[1, 0, 0], [0, 0, 1]]⟩ [0, 0], some ec, []⟩])
      = AffineExpress.inGrid s blk nd flag a b c ea eb ec m k n := by
    rw [h4, ht]
    simp only [AffineExpress.inGrid, emit, pushGrid, List.nil_append, List.length_nil,
      Nat.add_zero]
    congr 1
    rw [List.set_append, if_neg (by simp)]
    simp [Nat.add_assoc]
  rw [hst, h4] at hacc
  simp only [List.length_nil, Nat.add_zero, Nat.add_assoc] at hacc
  exact hacc

/-- The tensor case on matrices of shapes `(m, k)`, `(k, n)`, `(m, n)`: the call is the recursive
call on the three accessors in the builder `inGrid`, followed by the release of the grid. -/
theorem AffineExpress.tensor_eq {s : Builder} {blk : Nat} {bs : List Nat}
    {its : List Iterator} {nd : Node} (enable_multi_thread : TensorType → Bool)
    (recurse : List Nat → List Nat → Builder → Except Fault Builder)
    (a b c : Nat) (ea eb ec : TensorType) (m k n : Int)
    (hb : s.block_stack = blk :: bs) (hi : s.iterator_stack = ⟨blk⟩ :: its)
    (hn : s.heap[blk]? = some nd)
    (hta : s.typeOf a = .ok (TensorType.CreateMatrixType ea m k))
    (htb : s.typeOf b = .ok (TensorType.CreateMatrixType eb k n))
    (htc : s.typeOf c = .ok (TensorType.CreateMatrixType ec m n)) :
    AffineExpress.tensor enable_multi_thread recurse a b c
        (TensorType.CreateMatrixType ea m k) s =
      (recurse [s.heap.length + 1, s.heap.length + 2] [s.heap.length + 3]
        (AffineExpress.inGrid s blk nd
          (enable_multi_thread (TensorType.CreateMatrixType ea m k)) a b c ea eb ec m k n)).bind
        gridRelease := by
  obtain ⟨h1, h2, h3⟩ := AffineExpress.tensor_steps
    (enable_multi_thread (TensorType.CreateMatrixType ea m k)) a b c ea eb ec m k n
    hb hi hn hta htb htc
  unfold AffineExpress.tensor
  simp only [bind, Except.bind, AffineExpress.shapeLaw_ok ea eb ec m k n htb htc, h1, h2, h3]

/-- The builder `inGrid` in the form `emit` over the builder in which the grid was pushed. -/
theorem AffineExpress.inGrid_eq_emit (s : Builder) (blk : Nat) (nd : Node) (flag : Bool)
    (a b c : Nat) (ea eb ec : TensorType) (m k n : Int) :
    AffineExpress.inGrid s blk nd flag a b c ea eb ec m k n =
      ((s.emit blk nd [s.heap.length] [⟨.Grid [m, k, n] flag, none, []⟩]).pushGrid
        s.heap.length).emit s.heap.length ⟨.Grid [m, k, n] flag, none, []⟩
        [s.heap.length + 1, s.heap.length + 2, s.heap.length + 3]
        [⟨.Accessor a ⟨2, 3, [[1, 0, 0], [0, 1, 0]]⟩ [0, 0], some ea, []⟩,
         ⟨.Accessor b ⟨2, 3, [[0, 1, 0], [0, 0, 1]]⟩ [0, 0], some eb, []⟩,
         ⟨.Accessor c ⟨2, 3, [[1, 0, 0], [0, 0, 1]]⟩ [0, 0], some ec, []⟩] := by
  simp only [AffineExpress.inGrid, emit, pushGrid]
  congr 1
  rw [List.set_append, if_neg (by simp)]
  simp

/-- The release of the guard of a grid, on a builder in the form `emit` over the builder in
which the grid was pushed. -/
theorem AffineExpress.release_emit (s : Builder) (blk : Nat) (nd : Node) (kind : Kind)
    (vs : List Nat) (news : List Node) :
    gridRelease (((s.emit blk nd [s.heap.length] [⟨kind, none, []⟩]).pushGrid
        s.heap.length).emit s.heap.length ⟨kind, none, []⟩ vs news) =
      .ok (s.emit blk nd [s.heap.length] (⟨kind, none, vs⟩ :: news)) := by
  simp only [gridRelease, emit, pushGrid, pop, Except.ok.injEq]
  congr 1
  rw [List.set_append, if_neg (by simp)]
  simp

/-- The generic expansion of a product of matrices of shapes `(m, k)`, `(k, n)`, `(m, n)` with
scalar elements and no kernel registered: the grid of extents `(m, k, n)` is inserted into the
current block and holds the three accessors, the product, the sum and the write. -/
theorem AffineExpress.matrix_eq {s : Builder} {blk : Nat} {bs : List Nat}
    {its : List Iterator} {nd : Node} (enable_multi_thread : TensorType → Bool) (fuel : Nat)
    (a b c : Nat) (ea eb ec : TensorType) (m k n : Int) (he : ea.IsScalar = true)
    (hb : s.block_stack = blk :: bs) (hi : s.iterator_stack = ⟨blk⟩ :: its)
    (hn : s.heap[blk]? = some nd)
    (hta : s.typeOf a = .ok (TensorType.CreateMatrixType ea m k))
    (htb : s.typeOf b = .ok (TensorType.CreateMatrixType eb k n))
    (htc : s.typeOf c = .ok (TensorType.CreateMatrixType ec m n)) :
    AffineExpress enable_multi_thread [] (fuel + 2) [a, b] [c] s =
      .ok (s.emit blk nd [s.heap.length]
        [⟨.Grid [m, k, n] (enable_multi_thread (TensorType.CreateMatrixType ea m k)), none,
            [s.heap.length + 1, s.heap.length + 2, s.heap.length + 3, s.heap.length + 4,
             s.heap.length + 5, s.heap.length + 6]⟩,
         ⟨.Accessor a ⟨2, 3, [[1, 0, 0], [0, 1, 0]]⟩ [0, 0], some ea, []⟩,
         ⟨.Accessor b ⟨2, 3, [[0, 1, 0], [0, 0, 1]]⟩ [0, 0], some eb, []⟩,
         ⟨.Accessor c ⟨2, 3, [[1, 0, 0], [0, 0, 1]]⟩ [0, 0], some ec, []⟩,
         Mul.Create (s.heap.length + 1) (s.heap.length + 2),
         Add.Create (s.heap.length + 4) (s.heap.length + 3),
         Write.Create (s.heap.length + 5) (s.heap.length + 3)]) := by
  have hstep : ∀ f ins outs (u : Builder),
      AffineExpress enable_multi_thread [] (f + 1) ins outs u =
        AffineExpress.generic enable_multi_thread (AffineExpress enable_multi_thread [] f)
          ins outs u := by
    intro f ins outs u
    simp only [AffineExpress, AffineExpress.kernels]
  rw [hstep, AffineExpress.generic_tensor _ _ a b c hta rfl,
    AffineExpress.tensor_eq _ _ a b c ea eb ec m k n hb hi hn hta htb htc, hstep,
    AffineExpress.inGrid_eq_emit]
  obtain ⟨flag, hflag⟩ : ∃ f, f = enable_multi_thread (TensorType.CreateMatrixType ea m k) :=
    ⟨_, rfl⟩
  rw [← hflag]
  have hrel := AffineExpress.release_emit s blk nd (.Grid [m, k, n] flag)
  obtain ⟨t, ht⟩ : ∃ t, t = (s.emit blk nd [s.heap.length]
      [⟨.Grid [m, k, n] flag, none, []⟩]).pushGrid s.heap.length := ⟨_, rfl⟩
  rw [← ht] at hrel ⊢
  have h1 : t.block_stack = s.heap.length :: s.block_stack := by rw [ht]; rfl
  have h2 : t.iterator_stack = ⟨s.heap.length⟩ :: s.iterator_stack := by rw [ht]; rfl
  have h4 : t.heap.length = s.heap.length + 1 := by
    rw [ht]; exact emit_heap_length s blk nd _ _
  have hty1 : (t.emit s.heap.length ⟨.Grid [m, k, n] flag, none, []⟩
      [s.heap.length + 1, s.heap.length + 2, s.heap.length + 3]
      [⟨.Accessor a ⟨2, 3, [[1, 0, 0], [0, 1, 0]]⟩ [0, 0], some ea, []⟩,
       ⟨.Accessor b ⟨2, 3, [[0, 1, 0], [0, 0, 1]]⟩ [0, 0], some eb, []⟩,
       ⟨.Accessor c ⟨2, 3, [[1, 0, 0], [0, 0, 1]]⟩ [0, 0], some ec, []⟩]).typeOf
      (s.heap.length + 1) = .ok ea := by
    have := emit_typeOf_new t s.heap.length ⟨.Grid [m, k, n] flag, none, []⟩
      [s.heap.length + 1, s.heap.length + 2, s.heap.length + 3]
      [⟨.Accessor a ⟨2, 3, [[1, 0, 0], [0, 1, 0]]⟩ [0, 0], some ea, []⟩,
       ⟨.Accessor b ⟨2, 3, [[0, 1, 0], [0, 0, 1]]⟩ [0, 0], some eb, []⟩,
       ⟨.Accessor c ⟨2, 3, [[1, 0, 0], [0, 0, 1]]⟩ [0, 0], some ec, []⟩]
      0 (.Accessor a ⟨2, 3, [[1, 0, 0], [0, 1, 0]]⟩ [0, 0]) ea [] rfl
    rw [h4] at this
    exact this
  rw [AffineExpress.generic_scalar _ _ _ _ _ hty1 he,
    AffineExpress.scalar_emit _ _ _ _ _ _ h1 h2 (by omega)]
  simp only [Except.bind]
  rw [hrel, h4]
  simp [Nat.add_assoc, Mul.Create, Add.Create, Write.Create]
end MatrixMultiplyCreator

/-- C8, as stated, fails: with no kernel registered, the lowering of the 4×1 by 1×4 product of
the example (objects 1 and 2 into object 3) opens one grid, object 4, and its extents are
`(4, 1, 4)`, not `(4, 4, 1)`. -/
theorem scenario_generic_counterexample :
    ∃ s', MatrixMultiplyCreator.AffineExpress (fun _ => false) [] 2 [1, 2] [3] Example.opened
        = .ok s' ∧
      (s'.heap.filter Node.isGrid).length = 1 ∧
      s'.gridShape 4 = .ok [4, 1, 4] ∧ s'.gridShape 4 ≠ .ok [4, 4, 1] := by
  obtain ⟨s', h1, h2, h3⟩ : ∃ s',
      MatrixMultiplyCreator.AffineExpress (fun _ => false) [] 2 [1, 2] [3] Example.opened
        = .ok s' ∧
      (s'.heap.filter Node.isGrid).length = 1 ∧ s'.gridShape 4 = .ok [4, 1, 4] :=
    ⟨_, rfl, rfl, rfl⟩
  refine ⟨s', h1, h2, h3, ?_⟩
  rw [h3]
  intro h
  injection h with h
  revert h
  decide

/-- C8, amended. End-to-end scenario B: with an empty kernel registry,
`MatrixMultiplyCreator::AffineExpress` on a 4×1 left operand, a 1×4 right operand and a 4×4
output, with a scalar element type of the left operand, in a builder with a block open, inserts
one grid into the current block and returns with the stacks as they were. The extents of the
grid are `(4, 1, 4)`, that is `(m, k, n)`; its body is the three accessors followed by one
multiply / accumulate / write group; the grid is the only grid and the write the only write
among the new objects, and the iteration space has 16 points. -/
theorem scenario_generic (enable_multi_thread : TensorType → Bool) (fuel : Nat) (s : Builder)
    (block : Nat) (bs : List Nat) (its : List Iterator) (nd : Node) (a b c : Nat)
    (ea eb ec : TensorType) (he : ea.IsScalar = true)
    (hb : s.block_stack = block :: bs) (hi : s.iterator_stack = ⟨block⟩ :: its)
    (hn : s.heap[block]? = some nd)
    (hta : s.typeOf a = .ok (TensorType.CreateMatrixType ea 4 1))
    (htb : s.typeOf b = .ok (TensorType.CreateMatrixType eb 1 4))
    (htc : s.typeOf c = .ok (TensorType.CreateMatrixType ec 4 4)) :
    ∃ news : List Node,
      MatrixMultiplyCreator.AffineExpress enable_multi_thread [] (fuel + 2) [a, b] [c] s =
        .ok (s.emit block nd [s.heap.length] news) ∧
      news =
        [⟨.Grid [4, 1, 4] (enable_multi_thread (TensorType.CreateMatrixType ea 4 1)), none,
            [s.heap.length + 1, s.heap.length + 2, s.heap.length + 3, s.heap.length + 4,
             s.heap.length + 5, s.heap.length + 6]⟩,
         ⟨.Accessor a ⟨2, 3, [[1, 0, 0], [0, 1, 0]]⟩ [0, 0], some ea, []⟩,
         ⟨.Accessor b ⟨2, 3, [[0, 1, 0], [0, 0, 1]]⟩ [0, 0], some eb, []⟩,
         ⟨.Accessor c ⟨2, 3, [[1, 0, 0], [0, 0, 1]]⟩ [0, 0], some ec, []⟩,
         Mul.Create (s.heap.length + 1) (s.heap.length + 2),
         Add.Create (s.heap.length + 4) (s.heap.length + 3),
         Write.Create (s.heap.length + 5) (s.heap.length + 3)] ∧
      (s.emit block nd [s.heap.length] news).stackState = s.stackState ∧
      (news.filter Node.isGrid).length = 1 ∧
      (news.filter Node.isWrite).length = 1 ∧
      Grid.points [4, 1, 4] = 16 := by
  refine ⟨_, MatrixMultiplyCreator.AffineExpress.matrix_eq enable_multi_thread fuel a b c
    ea eb ec 4 1 4 he hb hi hn hta htb htc, rfl, rfl, ?_, ?_, rfl⟩
  · simp [Node.isGrid, Mul.Create, Add.Create, Write.Create]
  · simp [Node.isWrite, Mul.Create, Add.Create, Write.Create]

/-- In the example builder the lowering of the product of the objects 1 and 2 into object 3
returns with the grid of extents `(4, 1, 4)` as object 4, inserted into the operator `op`. -/
theorem scenario_generic_witness :
    ∃ s', MatrixMultiplyCreator.AffineExpress (fun _ => false) [] 2 [1, 2] [3] Example.opened
        = .ok s' ∧
      s'.heap[0]? = some ⟨.OperatorInstance [] [] "op" "op", none, [4]⟩ ∧
      s'.heap[4]? = some ⟨.Grid [4, 1, 4] false, none, [5, 6, 7, 8, 9, 10]⟩ := by
  obtain ⟨news, h, hnews, -⟩ := scenario_generic (fun _ => false) 0 Example.opened 0 [] []
    ⟨.OperatorInstance [] [] "op" "op", none, []⟩ 1 2 3 (.FloatType 32) (.FloatType 32)
    (.FloatType 32) rfl rfl rfl rfl rfl rfl rfl
  subst hnews
  exact ⟨_, h, rfl, rfl⟩

/-! ## Fully-qualified names -/

namespace Builder

/-- In a coherent builder `CreateOperator` stores, in the operator it opens, the fully-qualified
name `fn` that the first statement of its body computes. -/
theorem Coherent.CreateOperator_fullnameOf {s : Builder} (hc : s.Coherent)
    (ins outs : List TensorType) (name fn : String)
    (hfull : (match s.operator_stack with
         | [] => Except.ok name
         | top :: _ =>
           match s.fullnameOf top with
           | .ok f => Except.ok (name ++ f)
           | .error e => .error e) = (Except.ok fn : Except Fault String)) :
    ∃ s1, s.CreateOperator ins outs name = .ok (s.heap.length, Builder.operatorRelease, s1) ∧
      s1.Coherent ∧ s1.operator_stack = s.heap.length :: s.operator_stack ∧
      s1.fullnameOf s.heap.length = .ok fn := by
  obtain ⟨s1, h1, hc1, -, -, -, ho, -⟩ := hc.CreateOperator ins outs name
  refine ⟨s1, h1, hc1, ho, ?_⟩
  unfold Builder.CreateOperator at h1
  rw [hfull] at h1
  simp only at h1
  by_cases hne : s.block_stack.length = 0
  · rw [if_neg (by simp [hne])] at h1
    simp only [Except.ok.injEq, Prod.mk.injEq, true_and] at h1
    rw [← h1]
    simp [fullnameOf, alloc, OperatorInstance.Create]
  · rw [if_pos hne] at h1
    cases hI : (s.alloc (OperatorInstance.Create ins outs name fn)).2.Insert
        (s.alloc (OperatorInstance.Create ins outs name fn)).1 with
    | error e => rw [hI] at h1; cases h1
    | ok s0 =>
      rw [hI] at h1
      simp only [Except.ok.injEq, Prod.mk.injEq, true_and] at h1
      rw [← h1]
      obtain ⟨b, bs, its, n, -, -, hn, rfl⟩ := Insert_eq_ok hI
      simp only [alloc] at hn ⊢
      by_cases hbo : b = s.heap.length
      · subst hbo
        simp only [List.getElem?_concat_length, Option.some.injEq] at hn
        subst hn
        simp [fullnameOf, OperatorInstance.Create]
      · simp [fullnameOf, List.getElem?_set, hbo, OperatorInstance.Create]

/-- Nested openings below an open operator whose fully-qualified name is `p`: the name of the
innermost operator is the names, innermost first, followed by `p`. -/
theorem CreateOperators_fullnameOf (ins outs : List TensorType) :
    ∀ (names : List String) (s : Builder) (top : Nat) (p : String), s.Coherent →
      s.CurrentOperator = .ok top → s.fullnameOf top = .ok p →
      ∃ s' o, CreateOperators ins outs names s = .ok s' ∧ s'.CurrentOperator = .ok o ∧
        s'.fullnameOf o = .ok (names.reverse.foldr (· ++ ·) p) := by
  intro names
  induction names with
  | nil =>
    intro s top p _ ht hp
    exact ⟨s, top, rfl, ht, by simpa using hp⟩
  | cons name rest ih =>
    intro s top p hc ht hp
    have hstack : ∃ os, s.operator_stack = top :: os := by
      unfold CurrentOperator at ht
      cases ho : s.operator_stack with
      | nil => rw [ho] at ht; cases ht
      | cons o os =>
        rw [ho] at ht
        simp only [Except.ok.injEq] at ht
        exact ⟨os, by rw [ht]⟩
    obtain ⟨os, ho⟩ := hstack
    obtain ⟨s1, h1, hc1, ho1, hf1⟩ := hc.CreateOperator_fullnameOf ins outs name (name ++ p)
      (by rw [ho]; simp only [hp])
    obtain ⟨s', o, h2, h3, h4⟩ := ih s1 s.heap.length (name ++ p) hc1
      (by simp [CurrentOperator, ho1]) hf1
    refine ⟨s', o, by simp only [CreateOperators, h1, h2], h3, ?_⟩
    rw [h4]
    simp [List.foldr_append]

end Builder

/-- C11. Fully-qualified naming: when operators named `n1` (outermost), ..., `nk` (innermost) are
opened by nested calls of `CreateOperator` in a coherent builder with no operator open, the
calls succeed and the innermost operator, the current one, has the fully-qualified name
`nk ++ ... ++ n1`, the names innermost first; a single top-level operator has its own name. -/
theorem fullname_innermost_first (s : Builder) (hc : s.Coherent) (htop : s.operator_stack = [])
    (ins outs : List TensorType) (n1 : String) (rest : List String) :
    ∃ s' o, Builder.CreateOperators ins outs (n1 :: rest) s = .ok s' ∧
      s'.CurrentOperator = .ok o ∧
      s'.fullnameOf o = .ok ((n1 :: rest).reverse.foldr (· ++ ·) "") ∧
      (rest = [] → s'.fullnameOf o = .ok n1) := by
  obtain ⟨s1, h1, hc1, ho1, hf1⟩ := hc.CreateOperator_fullnameOf ins outs n1 n1
    (by rw [htop])
  obtain ⟨s', o, h2, h3, h4⟩ := Builder.CreateOperators_fullnameOf ins outs rest s1
    s.heap.length n1 hc1 (by simp [Builder.CurrentOperator, ho1]) hf1
  have hfold : (n1 :: rest).reverse.foldr (· ++ ·) "" = rest.reverse.foldr (· ++ ·) n1 := by
    simp [List.foldr_append]
  refine ⟨s', o, by simp only [Builder.CreateOperators, h1, h2], h3, ?_, ?_⟩
  · rw [hfold]; exact h4
  · intro hr
    subst hr
    simpa using h4

/-- Three operators opened in the empty builder: the innermost is named `"innermidouter"`. -/
theorem fullname_innermost_first_witness :
    ∃ s' o, Builder.CreateOperators [] [] ["outer", "mid", "inner"] Builder.empty = .ok s' ∧
      s'.CurrentOperator = .ok o ∧ s'.fullnameOf o = .ok "innermidouter" := by
  have hc : Builder.empty.Coherent := by
    refine ⟨?_, ?_, rfl⟩ <;> intro x hx <;> simp [Builder.empty] at hx
  obtain ⟨s', o, h1, h2, h3, -⟩ :=
    fullname_innermost_first Builder.empty hc rfl [] [] "outer" ["mid", "inner"]
  have : (["outer", "mid", "inner"].reverse.foldr (· ++ ·) "") = "innermidouter" := by decide
  rw [this] at h3
  exact ⟨s', o, h1, h2, h3⟩

/-! ## Access to empty stacks -/

/-- C12. Empty-stack access is fatal and nothing else is. In a coherent builder `Insert` and
`Create` stop on the fatal assertion exactly when no block is open, in which case no successor
builder exists and so no instruction sequence is changed, and succeed otherwise; `CurrentBlock`,
`CurrentGrid` and `CurrentOperator` each stop on the assertion exactly when their stack is
empty and otherwise return the top of that stack, the builder being left as it is. -/
theorem empty_stack_access_fatal (s : Builder) (hc : s.Coherent) (v : Nat) (n : Node) :
    (s.Insert v = .error .assertion ↔ s.block_stack = []) ∧
    (s.Create n = .error .assertion ↔ s.block_stack = []) ∧
    (s.block_stack ≠ [] →
      (∃ s', s.Insert v = .ok s') ∧ ∃ s', s.Create n = .ok (s.heap.length, s')) ∧
    (s.CurrentBlock = .error .assertion ↔ s.block_stack = []) ∧
    (s.CurrentGrid = .error .assertion ↔ s.parallel_stack = []) ∧
    (s.CurrentOperator = .error .assertion ↔ s.operator_stack = []) ∧
    (∀ b bs, s.block_stack = b :: bs → s.CurrentBlock = .ok b) ∧
    (∀ g gs, s.parallel_stack = g :: gs → s.CurrentGrid = .ok g) ∧
    (∀ o os, s.operator_stack = o :: os → s.CurrentOperator = .ok o) := by
  have hempty : s.block_stack = [] → s.iterator_stack = [] := by
    intro hb
    have h3 := hc.2.2
    rw [hb] at h3
    exact List.map_eq_nil_iff.mp h3
  refine ⟨⟨?_, ?_⟩, ⟨?_, ?_⟩, ?_, ⟨?_, ?_⟩, ⟨?_, ?_⟩, ⟨?_, ?_⟩, ?_, ?_, ?_⟩
  · intro h
    by_contra hb
    obtain ⟨s', h', -⟩ := hc.Insert hb v
    rw [h'] at h
    cases h
  · intro hb
    simp only [Builder.Insert, hempty hb]
  · intro h
    by_contra hb
    obtain ⟨s', h', -⟩ := hc.Create hb n
    rw [h'] at h
    cases h
  · intro hb
    simp only [Builder.Create, Builder.Insert, Builder.alloc, hempty hb]
  · intro hb
    obtain ⟨s1, h1, -⟩ := hc.Insert hb v
    obtain ⟨s2, h2, -⟩ := hc.Create hb n
    exact ⟨⟨s1, h1⟩, ⟨s2, h2⟩⟩
  · intro h
    cases hb : s.block_stack with
    | nil => rfl
    | cons b bs => simp only [Builder.CurrentBlock, hb] at h; cases h
  · intro hb
    simp only [Builder.CurrentBlock, hb]
  · intro h
    cases hb : s.parallel_stack with
    | nil => rfl
    | cons b bs => simp only [Builder.CurrentGrid, hb] at h; cases h
  · intro hb
    simp only [Builder.CurrentGrid, hb]
  · intro h
    cases hb : s.operator_stack with
    | nil => rfl
    | cons b bs => simp only [Builder.CurrentOperator, hb] at h; cases h
  · intro hb
    simp only [Builder.CurrentOperator, hb]
  · intro b bs hb
    simp only [Builder.CurrentBlock, hb]
  · intro b bs hb
    simp only [Builder.CurrentGrid, hb]
  · intro b bs hb
    simp only [Builder.CurrentOperator, hb]

/-- In the builder `Example.opened` an operator is open and no grid is: inserting succeeds, the
current block and operator are object 0, and `CurrentGrid` stops on the assertion. -/
theorem empty_stack_access_fatal_witness :
    Example.opened.Coherent ∧
    (∃ s', Example.opened.Insert 1 = .ok s') ∧
    Example.opened.CurrentBlock = .ok 0 ∧
    Example.opened.CurrentOperator = .ok 0 ∧
    Example.opened.CurrentGrid = .error .assertion := by
  have h := empty_stack_access_fatal Example.opened Example.opened_coherent 1 Example.scalarTensor
  obtain ⟨-, -, h3, -, h5, -, h7, -, h9⟩ := h
  exact ⟨Example.opened_coherent, (h3 (by decide)).1, h7 0 [] rfl, h9 0 [] rfl, h5.2 rfl⟩

/-! ## Accessors -/

namespace MatrixXi64

/-- A row of the identity picks one entry of the vector it is multiplied with. -/
theorem unit_row_sum (a : Nat) : ∀ (l : List Int) (k : Nat),
    (List.zipWith (· * ·) ((List.range' k l.length).map fun j => if a = j then (1 : Int) else 0)
      l).sum = if k ≤ a then l.getD (a - k) 0 else 0 := by
  intro l
  induction l with
  | nil => intro k; simp
  | cons x xs ih =>
    intro k
    simp only [List.length_cons, List.range'_succ, List.map_cons, List.zipWith_cons_cons,
      List.sum_cons, ih (k + 1)]
    by_cases hak : a = k
    · subst hak
      simp
    · by_cases hle : k ≤ a
      · have h1 : k + 1 ≤ a := by omega
        have h2 : a - k = (a - (k + 1)) + 1 := by omega
        simp only [if_neg hak, if_pos h1, if_pos hle, h2, List.getD_cons_succ]
        simp
      · have h1 : ¬ k + 1 ≤ a := by omega
        simp [if_neg hak, if_neg h1, if_neg hle]

/-- The square identity maps every index vector of its size to itself. -/
theorem Identity_mulVec (i : List Int) : (Identity i.length i.length).mulVec i = i := by
  simp only [mulVec, Identity, List.map_map]
  apply List.ext_getElem
  · simp
  · intro a h1 h2
    have h := unit_row_sum a i 0
    rw [← List.range_eq_range'] at h
    simp only [List.getElem_map, List.getElem_range, Function.comp]
    rw [h]
    simp [List.getD_eq_getElem?_getD, List.getElem?_eq_getElem h2]

/-- The zero matrix maps every index vector to the zero vector. -/
theorem Zero_mulVec (r c : Nat) (i : List Int) :
    (Zero r c).mulVec i = List.replicate r 0 := by
  have hrow : (List.zipWith (· * ·) (List.replicate c (0 : Int)) i).sum = 0 := by
    induction c generalizing i with
    | zero => simp
    | succ c ih =>
      cases i with
      | nil => simp
      | cons x xs => simp [List.replicate_succ, ih xs]
  simp only [mulVec, Zero, List.map_replicate, hrow]

end MatrixXi64

/-- Adding the zero shift changes no coordinate. -/
theorem Accessor.zipWith_add_zero (l : List Int) :
    List.zipWith (· + ·) l (List.replicate l.length 0) = l := by
  induction l with
  | nil => rfl
  | cons x xs ih => simp [List.replicate_succ, ih]

namespace Builder

/-- In a coherent builder with the block `b` open, `Create` appends the new object to the
sequence of `b` and to the arena. -/
theorem Coherent.Create_emit {s : Builder} (hc : s.Coherent) {b : Nat} {bs : List Nat}
    (hb : s.block_stack = b :: bs) (v : Node) :
    ∃ n, s.heap[b]? = some n ∧
      s.Create v = .ok (s.heap.length, s.emit b n [s.heap.length] [v]) := by
  obtain ⟨h1, -, h3⟩ := hc
  cases his : s.iterator_stack with
  | nil => rw [his, hb] at h3; cases h3
  | cons it its =>
    rw [his, hb] at h3
    simp only [List.map_cons, List.cons.injEq] at h3
    obtain ⟨hit, -⟩ := h3
    have hlt : b < s.heap.length := h1 b (by simp [hb])
    have hn : s.heap[b]? = some (s.heap[b]) := List.getElem?_eq_getElem hlt
    have hit' : it = ⟨b⟩ := by cases it; simp_all
    subst hit'
    exact ⟨s.heap[b], hn, Create_ok v hb his hn⟩

/-- The object `Create` returns is the one it was given, at the end of the arena. -/
theorem emit_deref_new (s : Builder) (b : Nat) (n : Node) (vs : List Nat) (v : Node) :
    (s.emit b n vs [v]).deref s.heap.length = .ok v := by
  have h := emit_get_new s b n vs [v] 0
  simp only [Nat.add_zero, List.getElem?_cons_zero] at h
  simp only [deref, index, h]

end Builder

/-- C13, as stated, fails: in `Example.inGrid` the innermost open grid has rank 1 and object 1
is a tensor of rank 2, yet `CreateIdentityAccessor` succeeds and returns an accessor (object 5)
whose transform is the rectangular 2×1 identity. -/
theorem identity_accessor_rank_counterexample :
    Example.inGrid.CurrentGrid = .ok 4 ∧
    Example.inGrid.gridShape 4 = .ok [2] ∧
    Example.inGrid.typeOf 1 = .ok (TensorType.CreateMatrixType (TensorType.FloatType 32) 4 1) ∧
    ∃ s', Example.inGrid.CreateIdentityAccessor 1 = .ok (5, s') ∧
      s'.deref 5 = .ok ⟨.Accessor 1 ⟨2, 1, [[1], [0]]⟩ [0, 0],
        some (TensorType.FloatType 32), []⟩ := by
  refine ⟨rfl, rfl, rfl, ?_⟩
  refine ⟨_, rfl, ?_⟩
  rfl

/-- C13, amended. In a coherent builder, for a value that has a type: when no grid is open
`CreateIdentityAccessor` stops on the fatal assertion and produces no accessor, so it succeeds
only when a grid is open; when a grid and a block are open it succeeds whatever the two ranks
are, and the new accessor has the identity transform with as many rows as the tensor has
dimensions and as many columns as the innermost grid has. -/
theorem identity_accessor_requires_grid (s : Builder) (hc : s.Coherent) (v : Nat)
    (t : TensorType) (ht : s.typeOf v = .ok t) :
    (s.parallel_stack = [] → s.CreateIdentityAccessor v = .error .assertion) ∧
    (∀ r s', s.CreateIdentityAccessor v = .ok (r, s') → s.parallel_stack ≠ []) ∧
    (∀ g gs sh, s.parallel_stack = g :: gs → s.gridShape g = .ok sh → s.block_stack ≠ [] →
      ∃ s', s.CreateIdentityAccessor v = .ok (s.heap.length, s') ∧
        s'.deref s.heap.length = .ok (Builder.Accessor.Create t v
          (MatrixXi64.Identity t.shape.length sh.length) (VectorXi64.Zero t.shape.length))) := by
  have hnil : s.parallel_stack = [] → s.CreateIdentityAccessor v = .error .assertion := by
    intro hp
    simp only [Builder.CreateIdentityAccessor, ht, Builder.CurrentGrid, hp]
  refine ⟨hnil, ?_, ?_⟩
  · intro r s' h hp
    rw [hnil hp] at h
    cases h
  · intro g gs sh hp hg hb
    cases hbs : s.block_stack with
    | nil => exact absurd hbs hb
    | cons b bs =>
      obtain ⟨n, -, hcr⟩ := hc.Create_emit hbs (Builder.Accessor.Create t v
        (MatrixXi64.Identity t.shape.length sh.length) (VectorXi64.Zero t.shape.length))
      refine ⟨_, ?_, Builder.emit_deref_new s b n [s.heap.length] _⟩
      simp only [Builder.CreateIdentityAccessor, ht, Builder.CurrentGrid, hp, hg, hcr]

/-- In `Example.opened` no grid is open and the call stops on the assertion; in
`Example.inGrid` a grid is open and the call succeeds. -/
theorem identity_accessor_requires_grid_witness :
    Example.opened.CreateIdentityAccessor 1 = .error .assertion ∧
    ∃ s', Example.inGrid.CreateIdentityAccessor 1 = .ok (5, s') := by
  have hc : Example.inGrid.Coherent := by
    refine ⟨?_, ?_, rfl⟩
    · intro b hb
      simp only [Example.inGrid, List.mem_cons, List.mem_singleton, List.not_mem_nil,
        or_false] at hb
      rcases hb with rfl | rfl <;> decide
    · intro o ho
      simp only [Example.inGrid, List.mem_singleton] at ho
      subst ho
      exact ⟨_, _, _, _, _, _, rfl⟩
  have h1 := (identity_accessor_requires_grid Example.opened Example.opened_coherent 1
    (TensorType.CreateMatrixType (TensorType.FloatType 32) 4 1) rfl).1 rfl
  obtain ⟨s', h2, -⟩ := (identity_accessor_requires_grid Example.inGrid hc 1
    (TensorType.CreateMatrixType (TensorType.FloatType 32) 4 1) rfl).2.2 4 [] [2] rfl rfl
    (by decide)
  exact ⟨h1, s', h2⟩

/-- Coefficients of `Identity`: one on the main diagonal and zero off it. -/
theorem MatrixXi64.Identity_coeff (r c a b : Nat) (ha : a < r) (hb : b < c) :
    (MatrixXi64.Identity r c).coeff a b = if a = b then 1 else 0 := by
  simp [MatrixXi64.coeff, MatrixXi64.Identity, List.getD_eq_getElem?_getD, List.getElem?_map,
    List.getElem?_range, ha, hb]

/-- C14. Identity accessor algebra: in a coherent builder with a block open, for a tensor of
rank `r` and an innermost open grid of the same rank, `CreateIdentityAccessor` returns an
accessor of that tensor whose transform `M` is the `r×r` identity matrix and whose shift `s` is
the zero vector of length `r`, so that `M·i + s = i` for every index vector `i` of the grid. -/
theorem identity_accessor_algebra (s : Builder) (hc : s.Coherent) (v : Nat) (t : TensorType)
    (ht : s.typeOf v = .ok t) (g : Nat) (gs : List Nat) (sh : List Int)
    (hp : s.parallel_stack = g :: gs) (hg : s.gridShape g = .ok sh)
    (hr : sh.length = t.shape.length) (hb : s.block_stack ≠ []) :
    ∃ s' M shift ty, s.CreateIdentityAccessor v = .ok (s.heap.length, s') ∧
      s'.deref s.heap.length = .ok ⟨.Accessor v M shift, ty, []⟩ ∧
      M.rows = t.shape.length ∧ M.cols = t.shape.length ∧
      (∀ a b, a < t.shape.length → b < t.shape.length →
        M.coeff a b = if a = b then 1 else 0) ∧
      shift = List.replicate t.shape.length 0 ∧
      ∀ i : List Int, i.length = t.shape.length → Accessor.coordinate M shift i = i := by
  cases hbs : s.block_stack with
  | nil => exact absurd hbs hb
  | cons b bs =>
    obtain ⟨n, -, hcr⟩ := hc.Create_emit hbs (Builder.Accessor.Create t v
      (MatrixXi64.Identity t.shape.length sh.length) (VectorXi64.Zero t.shape.length))
    refine ⟨s.emit b n [s.heap.length] [Builder.Accessor.Create t v
        (MatrixXi64.Identity t.shape.length sh.length) (VectorXi64.Zero t.shape.length)],
      MatrixXi64.Identity t.shape.length t.shape.length,
      List.replicate t.shape.length 0, t.value_type, ?_, ?_, rfl, rfl, ?_, rfl, ?_⟩
    · simp only [Builder.CreateIdentityAccessor, ht, Builder.CurrentGrid, hp, hg, hcr]
    · rw [Builder.emit_deref_new, hr]
      rfl
    · intro a b ha hb
      exact MatrixXi64.Identity_coeff _ _ a b ha hb
    · intro i hi
      rw [← hi]
      simp only [Accessor.coordinate, MatrixXi64.Identity_mulVec]
      exact Accessor.zipWith_add_zero i

/-- An identity accessor of a tensor of shape `(2)` in an open grid of extent 2 reads
coordinate `(7)` at index `(7)`. -/
theorem identity_accessor_algebra_witness :
    ∃ s' M shift ty, Example.vectorsInGrid.CreateIdentityAccessor 1 = .ok (4, s') ∧
      s'.deref 4 = .ok ⟨.Accessor 1 M shift, ty, []⟩ ∧
      Accessor.coordinate M shift [7] = [7] := by
  have hc : Example.vectorsInGrid.Coherent := by
    refine ⟨?_, ?_, rfl⟩
    · intro b hb
      simp only [Example.vectorsInGrid, List.mem_cons, List.mem_singleton, List.not_mem_nil,
        or_false] at hb
      rcases hb with rfl | rfl <;> decide
    · intro o ho
      simp only [Example.vectorsInGrid, List.mem_singleton] at ho
      subst ho
      exact ⟨_, _, _, _, _, _, rfl⟩
  obtain ⟨s', M, shift, ty, h1, h2, -, -, -, -, h3⟩ :=
    identity_accessor_algebra Example.vectorsInGrid hc 1
      (TensorType.Create (TensorType.FloatType 32) [2]) rfl 3 [] [2] rfl rfl rfl (by decide)
  exact ⟨s', M, shift, ty, h1, h2, h3 [7] rfl⟩

/-- C15. CreateAccessor shape and content: in a coherent builder with the block `b` open, for
a tensor `v` of rank `r`, `CreateAccessor` returns a new accessor of `v` whose transform is the
all-zero matrix with `r` rows and `p` columns, `p` being the rank of the innermost open grid
and 0 when no grid is open, and whose shift is the zero vector of length `r`; its coordinate
is the zero vector at every index; the accessor is appended to the sequence of `b`, the current
insertion point. -/
theorem accessor_zero_transform (s : Builder) (hc : s.Coherent) (v : Nat) (t : TensorType)
    (ht : s.typeOf v = .ok t) (b : Nat) (bs : List Nat) (hb : s.block_stack = b :: bs)
    (p : Nat) (hp : s.parallel_rank = .ok p) :
    (s.parallel_stack = [] → p = 0) ∧
    (∀ g gs sh, s.parallel_stack = g :: gs → s.gridShape g = .ok sh → p = sh.length) ∧
    ∃ n s' M shift ty, s.heap[b]? = some n ∧
      s.CreateAccessor v = .ok (s.heap.length, s') ∧
      s'.deref s.heap.length = .ok ⟨.Accessor v M shift, ty, []⟩ ∧
      s'.heap[b]? = some { n with values := n.values ++ [s.heap.length] } ∧
      s'.stackState = s.stackState ∧
      M.rows = t.shape.length ∧ M.cols = p ∧ (∀ i j, M.coeff i j = 0) ∧
      shift = List.replicate t.shape.length 0 ∧
      ∀ i : List Int, Accessor.coordinate M shift i = List.replicate t.shape.length 0 := by
  refine ⟨?_, ?_, ?_⟩
  · intro hnil
    simp only [Builder.parallel_rank, hnil, List.isEmpty_nil, if_true, Except.ok.injEq] at hp
    exact hp.symm
  · intro g gs sh hg hsh
    simp only [Builder.parallel_rank, hg, List.isEmpty_cons, Builder.CurrentGrid, hsh,
      Except.ok.injEq] at hp
    simpa using hp.symm
  · obtain ⟨n, hn, hcr⟩ := hc.Create_emit hb (Builder.Accessor.Create t v
      (MatrixXi64.Zero t.shape.length p) (VectorXi64.Zero t.shape.length))
    have hlt : b < s.heap.length := hc.1 b (by simp [hb])
    refine ⟨n, s.emit b n [s.heap.length] [Builder.Accessor.Create t v
        (MatrixXi64.Zero t.shape.length p) (VectorXi64.Zero t.shape.length)],
      MatrixXi64.Zero t.shape.length p, List.replicate t.shape.length 0, t.value_type,
      hn, ?_, ?_, Builder.emit_get_base n _ _ hlt, rfl, rfl, rfl, ?_, rfl, ?_⟩
    · simp only [Builder.CreateAccessor, ht, hp, hcr]
    · rw [Builder.emit_deref_new]
      rfl
    · intro i j
      simp only [MatrixXi64.coeff, MatrixXi64.Zero, List.getD_eq_getElem?_getD,
        List.getElem?_replicate]
      by_cases hi : i < t.shape.length
      · by_cases hj : j < p
        · simp [hi, hj]
        · simp [hi, hj]
      · simp [hi]
    · intro i
      simp [Accessor.coordinate, MatrixXi64.Zero_mulVec]

/-- With no grid open the accessor of the 4×1 matrix of `Example.opened` has a 2×0 transform;
in `Example.inGrid`, where a grid of rank 1 is open, it has a 2×1 transform. -/
theorem accessor_zero_transform_witness :
    (∃ s', Example.opened.CreateAccessor 1 = .ok (4, s') ∧
      s'.deref 4 = .ok ⟨.Accessor 1 ⟨2, 0, [[], []]⟩ [0, 0],
        some (TensorType.FloatType 32), []⟩) ∧
    ∃ n s' M shift ty, Example.opened.heap[0]? = some n ∧
      Example.opened.CreateAccessor 1 = .ok (4, s') ∧
      s'.deref 4 = .ok ⟨.Accessor 1 M shift, ty, []⟩ ∧
      s'.heap[0]? = some { n with values := n.values ++ [4] } ∧ M.cols = 0 := by
  refine ⟨⟨_, rfl, rfl⟩, ?_⟩
  obtain ⟨-, -, n, s', M, shift, ty, h1, h2, h3, h4, -, -, h5, -⟩ :=
    accessor_zero_transform Example.opened Example.opened_coherent 1
      (TensorType.CreateMatrixType (TensorType.FloatType 32) 4 1) rfl 0 [] rfl 0 rfl
  exact ⟨n, s', M, shift, ty, h1, h2, h3, h4, h5⟩

/-! ## The contraction grid and its accessors -/

namespace MatrixMultiplyCreator

open Builder

/-- When no kernel matches, the lowering of matrices of shapes `(m, k)`, `(k, n)`, `(m, n)` is
the recursive call on the three accessors in the builder `inGrid`, followed by the release of
the grid. -/
theorem AffineExpress.no_match_tensor {s : Builder} {blk : Nat} {bs : List Nat}
    {its : List Iterator} {nd : Node} (enable_multi_thread : TensorType → Bool)
    (kernel_queue : List Kernel) (fuel : Nat)
    (a b c : Nat) (ea eb ec : TensorType) (m k n : Int)
    (hb : s.block_stack = blk :: bs) (hi : s.iterator_stack = ⟨blk⟩ :: its)
    (hn : s.heap[blk]? = some nd)
    (hta : s.typeOf a = .ok (TensorType.CreateMatrixType ea m k))
    (htb : s.typeOf b = .ok (TensorType.CreateMatrixType eb k n))
    (htc : s.typeOf c = .ok (TensorType.CreateMatrixType ec m n))
    (hk : ∀ j ∈ kernel_queue, j.Match [a, b] [c] s = .ok false) :
    AffineExpress enable_multi_thread kernel_queue (fuel + 1) [a, b] [c] s =
      (AffineExpress enable_multi_thread kernel_queue fuel
        [s.heap.length + 1, s.heap.length + 2] [s.heap.length + 3]
        (AffineExpress.inGrid s blk nd
          (enable_multi_thread (TensorType.CreateMatrixType ea m k)) a b c ea eb ec m k n)).bind
        gridRelease := by
  rw [AffineExpress, AffineExpress.kernels_none _ _ _ _ hk]
  simp only []
  rw [AffineExpress.generic_tensor _ _ a b c hta rfl,
    AffineExpress.tensor_eq _ _ a b c ea eb ec m k n hb hi hn hta htb htc]

/-- The four objects that the tensor case has added to the arena at its recursive call. -/
theorem AffineExpress.inGrid_get (s : Builder) (blk : Nat) (nd : Node) (flag : Bool)
    (a b c : Nat) (ea eb ec : TensorType) (m k n : Int) (i : Nat) :
    (AffineExpress.inGrid s blk nd flag a b c ea eb ec m k n).heap[s.heap.length + i]? =
      [(⟨.Grid [m, k, n] flag, none,
          [s.heap.length + 1, s.heap.length + 2, s.heap.length + 3]⟩ : Node),
       ⟨.Accessor a ⟨2, 3, [[1, 0, 0], [0, 1, 0]]⟩ [0, 0], some ea, []⟩,
       ⟨.Accessor b ⟨2, 3, [[0, 1, 0], [0, 0, 1]]⟩ [0, 0], some eb, []⟩,
       ⟨.Accessor c ⟨2, 3, [[1, 0, 0], [0, 0, 1]]⟩ [0, 0], some ec, []⟩][i]? := by
  simp only [AffineExpress.inGrid, pushGrid]
  exact emit_get_new s blk nd _ _ i

end MatrixMultiplyCreator

/-- C16, as stated, fails: with no kernel registered, the lowering of the 2×3 by 3×5 product of
`Example.rect` (objects 1 and 2 into object 3) opens one grid, object 4, and its extent vector
is `(2, 3, 5)`, that is `(m, k, n)`, not `(m, n, k) = (2, 5, 3)`. -/
theorem contraction_grid_counterexample :
    ∃ s', MatrixMultiplyCreator.AffineExpress (fun _ => false) [] 2 [1, 2] [3] Example.rect
        = .ok s' ∧
      s'.gridShape 4 = .ok [2, 3, 5] ∧ s'.gridShape 4 ≠ .ok [2, 5, 3] := by
  obtain ⟨s', h1, h3⟩ : ∃ s',
      MatrixMultiplyCreator.AffineExpress (fun _ => false) [] 2 [1, 2] [3] Example.rect
        = .ok s' ∧ s'.gridShape 4 = .ok [2, 3, 5] :=
    ⟨_, rfl, rfl⟩
  refine ⟨s', h1, h3, ?_⟩
  rw [h3]
  intro h
  injection h with h
  revert h
  decide

/-! ## The shape law of the contraction -/

namespace MatrixMultiplyCreator

open Builder

/-- The shape law fails on the assertion when one of its three equations fails. -/
theorem AffineExpress.shapeLaw_violated {s : Builder} {b c : Nat} (ea eb ec : TensorType)
    (m k k' n m' n' : Int)
    (htb : s.typeOf b = .ok (TensorType.CreateMatrixType eb k' n))
    (htc : s.typeOf c = .ok (TensorType.CreateMatrixType ec m' n'))
    (hv : k ≠ k' ∨ m' ≠ m ∨ n' ≠ n) :
    AffineExpress.shapeLaw (TensorType.CreateMatrixType ea m k) b c s = .error .assertion := by
  unfold AffineExpress.shapeLaw
  simp only [bind, Except.bind, htb, htc, TensorType.CreateMatrixType, TensorType.shape,
    index_zero, index_one, GALOIS_ASSERT, pure, Except.pure]
  by_cases h1 : k = k'
  · by_cases h2 : m' = m
    · by_cases h3 : n' = n
      · rcases hv with h | h | h
        · exact absurd h1 h
        · exact absurd h2 h
        · exact absurd h3 h
      · simp [h1, h2, h3]
    · simp [h1, h2]
  · simp [h1]

/-- The tensor case fails on the assertion before `CreateGrid` when the shape law is violated,
whatever the recursive call would do. -/
theorem AffineExpress.tensor_violated {s : Builder} {b c : Nat}
    (enable_multi_thread : TensorType → Bool)
    (recurse : List Nat → List Nat → Builder → Except Fault Builder) (a : Nat)
    (ea eb ec : TensorType) (m k k' n m' n' : Int)
    (htb : s.typeOf b = .ok (TensorType.CreateMatrixType eb k' n))
    (htc : s.typeOf c = .ok (TensorType.CreateMatrixType ec m' n'))
    (hv : k ≠ k' ∨ m' ≠ m ∨ n' ≠ n) :
    AffineExpress.tensor enable_multi_thread recurse a b c
      (TensorType.CreateMatrixType ea m k) s = .error .assertion := by
  unfold AffineExpress.tensor
  rw [AffineExpress.shapeLaw_violated ea eb ec m k k' n m' n' htb htc hv]
  rfl

/-- With scalar elements and no kernel matching, neither at the call nor at the recursive call,
the lowering of matrices of shapes `(m, k)`, `(k, n)`, `(m, n)` is the one with an empty
kernel queue. -/
theorem AffineExpress.no_match_matrix {s : Builder} {blk : Nat} {bs : List Nat}
    {its : List Iterator} {nd : Node} (enable_multi_thread : TensorType → Bool)
    (kernel_queue : List Kernel) (fuel : Nat)
    (a b c : Nat) (ea eb ec : TensorType) (m k n : Int) (he : ea.IsScalar = true)
    (hb : s.block_stack = blk :: bs) (hi : s.iterator_stack = ⟨blk⟩ :: its)
    (hn : s.heap[blk]? = some nd)
    (hta : s.typeOf a = .ok (TensorType.CreateMatrixType ea m k))
    (htb : s.typeOf b = .ok (TensorType.CreateMatrixType eb k n))
    (htc : s.typeOf c = .ok (TensorType.CreateMatrixType ec m n))
    (hk : ∀ j ∈ kernel_queue, j.Match [a, b] [c] s = .ok false)
    (hk' : ∀ j ∈ kernel_queue,
      j.Match [s.heap.length + 1, s.heap.length + 2] [s.heap.length + 3]
        (AffineExpress.inGrid s blk nd
          (enable_multi_thread (TensorType.CreateMatrixType ea m k)) a b c ea eb ec m k n) =
        .ok false) :
    AffineExpress enable_multi_thread kernel_queue (fuel + 2) [a, b] [c] s =
      AffineExpress enable_multi_thread [] (fuel + 2) [a, b] [c] s := by
  have hty : (AffineExpress.inGrid s blk nd
      (enable_multi_thread (TensorType.CreateMatrixType ea m k)) a b c ea eb ec m k n).typeOf
      (s.heap.length + 1) = .ok ea := by
    have h1 := AffineExpress.inGrid_get s blk nd
      (enable_multi_thread (TensorType.CreateMatrixType ea m k)) a b c ea eb ec m k n 1
    simp only [List.getElem?_cons_zero, List.getElem?_cons_succ] at h1
    simp only [typeOf, h1]
  have h1 : AffineExpress enable_multi_thread kernel_queue (fuel + 1)
      [s.heap.length + 1, s.heap.length + 2] [s.heap.length + 3]
      (AffineExpress.inGrid s blk nd
        (enable_multi_thread (TensorType.CreateMatrixType ea m k)) a b c ea eb ec m k n) =
      AffineExpress.scalar (s.heap.length + 1) (s.heap.length + 2) (s.heap.length + 3)
      (AffineExpress.inGrid s blk nd
        (enable_multi_thread (TensorType.CreateMatrixType ea m k)) a b c ea eb ec m k n) := by
    rw [AffineExpress, AffineExpress.kernels_none _ _ _ _ hk']
    simp only []
    rw [AffineExpress.generic_scalar _ _ _ _ _ hty he]
  have h2 : AffineExpress enable_multi_thread [] (fuel + 1)
      [s.heap.length + 1, s.heap.length + 2] [s.heap.length + 3]
      (AffineExpress.inGrid s blk nd
        (enable_multi_thread (TensorType.CreateMatrixType ea m k)) a b c ea eb ec m k n) =
      AffineExpress.scalar (s.heap.length + 1) (s.heap.length + 2) (s.heap.length + 3)
      (AffineExpress.inGrid s blk nd
        (enable_multi_thread (TensorType.CreateMatrixType ea m k)) a b c ea eb ec m k n) := by
    rw [AffineExpress]
    simp only [AffineExpress.kernels]
    rw [AffineExpress.generic_scalar _ _ _ _ _ hty he]
  rw [AffineExpress.no_match_tensor enable_multi_thread kernel_queue (fuel + 1) a b c ea eb ec
      m k n hb hi hn hta htb htc hk,
    AffineExpress.no_match_tensor enable_multi_thread [] (fuel + 1) a b c ea eb ec
      m k n hb hi hn hta htb htc (by intro j hj; cases hj), h1, h2]

end MatrixMultiplyCreator

/-- C18, as stated, fails: the operands of `Example.nestedMatrices` have rank 2 and satisfy the
shape law, `(2, 3)` by `(3, 5)` into `(2, 5)`, but their elements are matrices of shapes
`(2, 3)`, `(4, 5)`, `(2, 5)`, which do not. The lowering fails on the assertion of its
recursive call, after the grid of extents `(2, 3, 5)` (object 4) was inserted and opened and
the three accessors were inserted. -/
theorem shape_law_nested_counterexample :
    (Example.nestedMatrices.typeOf 1).map TensorType.shape = .ok [2, 3] ∧
    (Example.nestedMatrices.typeOf 2).map TensorType.shape = .ok [3, 5] ∧
    (Example.nestedMatrices.typeOf 3).map TensorType.shape = .ok [2, 5] ∧
    MatrixMultiplyCreator.AffineExpress (fun _ => false) [] 3 [1, 2] [3]
      Example.nestedMatrices = .error .assertion ∧
    ∃ u : Builder,
      MatrixMultiplyCreator.AffineExpress (fun _ => false) [] 3 [1, 2] [3]
          Example.nestedMatrices =
        (MatrixMultiplyCreator.AffineExpress (fun _ => false) [] 2 [5, 6] [7] u).bind
          Builder.gridRelease ∧
      MatrixMultiplyCreator.AffineExpress (fun _ => false) [] 2 [5, 6] [7] u =
        .error .assertion ∧
      u.CurrentGrid = .ok 4 ∧ u.gridShape 4 = .ok [2, 3, 5] ∧
      u.heap[0]? = some ⟨.OperatorInstance [] [] "op" "op", none, [4]⟩ ∧
      u.heap.length = 8 := by
  refine ⟨rfl, rfl, rfl, rfl, ?_⟩
  exact ⟨MatrixMultiplyCreator.AffineExpress.inGrid Example.nestedMatrices 0
    ⟨.OperatorInstance [] [] "op" "op", none, []⟩ false 1 2 3
    (TensorType.CreateMatrixType (.FloatType 32) 2 3)
    (TensorType.CreateMatrixType (.FloatType 32) 4 5)
    (TensorType.CreateMatrixType (.FloatType 32) 2 5) 2 3 5, rfl, rfl, rfl, rfl, rfl, rfl⟩

/-! ## The scalar case of the contraction -/

/-- C19. Contraction scalar case: for a scalar left operand `a`, operands `b` and `c`, in a
builder with the block `blk` open and with no kernel matching,
`MatrixMultiplyCreator::AffineExpress` returns after it has appended to the current block
exactly three new objects, in this order: `Mul(a, b)`, `Add(Mul(a, b), c)` and
`Write(Add(Mul(a, b), c), c)`. None of them is a grid, the five stacks are as they were, and
the call does not recurse: the outcome is the same for every recursion budget and whatever
the recursive call would do. -/
theorem contraction_scalar (enable_multi_thread : TensorType → Bool)
    (kernel_queue : List Kernel) (fuel : Nat) (s : Builder) (blk : Nat) (bs : List Nat)
    (its : List Iterator) (nd : Node) (a b c : Nat) (t : TensorType)
    (hb : s.block_stack = blk :: bs) (hi : s.iterator_stack = ⟨blk⟩ :: its)
    (hn : s.heap[blk]? = some nd)
    (hta : s.typeOf a = .ok t) (hsc : t.IsScalar = true)
    (hk : ∀ j ∈ kernel_queue, j.Match [a, b] [c] s = .ok false) :
    ∃ s' : Builder,
      MatrixMultiplyCreator.AffineExpress enable_multi_thread kernel_queue (fuel + 1)
        [a, b] [c] s = .ok s' ∧
      (∀ recurse, MatrixMultiplyCreator.AffineExpress.generic enable_multi_thread recurse
        [a, b] [c] s = .ok s') ∧
      s'.heap.length = s.heap.length + 3 ∧
      s'.heap[blk]? = some { nd with values := nd.values ++
        [s.heap.length, s.heap.length + 1, s.heap.length + 2] } ∧
      (∀ x, x < s.heap.length → x ≠ blk → s'.heap[x]? = s.heap[x]?) ∧
      s'.heap[s.heap.length]? = some ⟨.Mul a b, none, []⟩ ∧
      s'.heap[s.heap.length + 1]? = some ⟨.Add s.heap.length c, none, []⟩ ∧
      s'.heap[s.heap.length + 2]? = some ⟨.Write (s.heap.length + 1) c, none, []⟩ ∧
      ((s'.heap.drop s.heap.length).filter Node.isGrid).length = 0 ∧
      s'.stackState = s.stackState := by
  have hlt : blk < s.heap.length := by
    rcases Nat.lt_or_ge blk s.heap.length with h | h
    · exact h
    · rw [List.getElem?_eq_none h] at hn; cases hn
  have hsc' : MatrixMultiplyCreator.AffineExpress.scalar a b c s =
      .ok (s.emit blk nd [s.heap.length, s.heap.length + 1, s.heap.length + 2]
        [Mul.Create a b, Add.Create s.heap.length c, Write.Create (s.heap.length + 1) c]) := by
    have h := MatrixMultiplyCreator.AffineExpress.scalar_emit nd [] [] a b c hb hi hlt
    rw [Builder.emit_nil hn] at h
    simpa using h
  have hg0 := Builder.emit_get_new s blk nd
    [s.heap.length, s.heap.length + 1, s.heap.length + 2]
    [Mul.Create a b, Add.Create s.heap.length c, Write.Create (s.heap.length + 1) c] 0
  have hg1 := Builder.emit_get_new s blk nd
    [s.heap.length, s.heap.length + 1, s.heap.length + 2]
    [Mul.Create a b, Add.Create s.heap.length c, Write.Create (s.heap.length + 1) c] 1
  have hg2 := Builder.emit_get_new s blk nd
    [s.heap.length, s.heap.length + 1, s.heap.length + 2]
    [Mul.Create a b, Add.Create s.heap.length c, Write.Create (s.heap.length + 1) c] 2
  simp only [Nat.add_zero, List.getElem?_cons_zero, List.getElem?_cons_succ] at hg0 hg1 hg2
  refine ⟨s.emit blk nd [s.heap.length, s.heap.length + 1, s.heap.length + 2]
      [Mul.Create a b, Add.Create s.heap.length c, Write.Create (s.heap.length + 1) c],
    ?_, ?_, ?_, Builder.emit_get_base nd _ _ hlt, ?_, hg0, hg1, hg2, ?_, rfl⟩
  · rw [MatrixMultiplyCreator.AffineExpress,
      MatrixMultiplyCreator.AffineExpress.kernels_none _ _ _ _ hk]
    simp only []
    rw [MatrixMultiplyCreator.AffineExpress.generic_scalar _ _ a b c hta hsc, hsc']
  · intro recurse
    rw [MatrixMultiplyCreator.AffineExpress.generic_scalar _ _ a b c hta hsc, hsc']
  · rw [Builder.emit_heap_length]
    rfl
  · intro x hx hne
    exact Builder.emit_get_old nd _ _ hx hne
  · simp [Builder.emit, Node.isGrid, Mul.Create, Add.Create, Write.Create]

/-- In `Example.scalars` the product of the scalars 1 and 2, accumulated into 2, appends the
objects 3, 4 and 5 to the operator `op` even with a recursion budget of one call. -/
theorem contraction_scalar_witness :
    ∃ s' : Builder,
      MatrixMultiplyCreator.AffineExpress (fun _ => false) [] 1 [1, 2] [2] Example.scalars =
        .ok s' ∧
      s'.heap[0]? = some ⟨.OperatorInstance [] [] "op" "op", none, [3, 4, 5]⟩ ∧
      s'.heap[3]? = some ⟨.Mul 1 2, none, []⟩ ∧
      s'.heap[4]? = some ⟨.Add 3 2, none, []⟩ ∧
      s'.heap[5]? = some ⟨.Write 4 2, none, []⟩ ∧
      s'.stackState = Example.scalars.stackState := by
  obtain ⟨s', h1, -, -, h2, -, h3, h4, h5, -, h6⟩ := contraction_scalar (fun _ => false) [] 0
    Example.scalars 0 [] [] ⟨.OperatorInstance [] [] "op" "op", none, []⟩ 1 2 2
    (.FloatType 32) rfl rfl rfl rfl rfl (by intro j hj; cases hj)
  exact ⟨s', h1, h2, h3, h4, h5, h6⟩

/-! ## The insertion-point invariant -/

namespace Builder

/-- Coherence only depends on the arena through the stacks when these are kept: a step that
is a `Create` keeps it. -/
theorem Coherent.step_Create {s s' : Builder} {v : Node} {r : Nat} (hc : s.Coherent)
    (h : s.Create v = .ok (r, s')) : s'.Coherent := by
  obtain ⟨-, b, bs, its, n, hb, -, -, -⟩ := Create_eq_ok h
  obtain ⟨s'', h'', hc''⟩ := hc.Create (by rw [hb]; simp) v
  rw [h''] at h
  simp only [Except.ok.injEq, Prod.mk.injEq] at h
  rw [← h.2]
  exact hc''

/-- Every reachable builder is coherent, and its stacks have the sizes that the open scopes
give: `kinds` lists the open scopes, innermost first, `true` for a grid and `false` for an
operator. -/
theorem Reachable.invariant {s : Builder} {guards : List ScopeGuard}
    (h : Reachable s guards) :
    s.Coherent ∧ ∃ kinds : List Bool,
      guards = kinds.map (fun k => bif k then gridRelease else operatorRelease) ∧
      s.parallel_stack.length = kinds.count true ∧
      s.operator_stack.length = kinds.count false ∧
      s.block_stack.length = kinds.length ∧
      s.temp_tensors_stack.length = kinds.count false := by
  induction h with
  | empty =>
    refine ⟨⟨?_, ?_, rfl⟩, [], rfl, rfl, rfl, rfl, rfl⟩ <;> intro x hx <;>
      simp [Builder.empty] at hx
  | Create _ hs ih =>
    obtain ⟨hc, kinds, hg, h1, h2, h3, h4⟩ := ih
    obtain ⟨hst, -, -⟩ := Create_stacks hs
    obtain ⟨e1, e2, e3, -, e5⟩ := (stackState_eq_iff _ _).mp hst
    exact ⟨hc.step_Create hs, kinds, hg, by rw [e1, h1], by rw [e2, h2], by rw [e3, h3],
      by rw [e5, h4]⟩
  | Insert _ hs ih =>
    obtain ⟨hc, kinds, hg, h1, h2, h3, h4⟩ := ih
    obtain ⟨hst, -⟩ := Insert_stacks hs
    obtain ⟨e1, e2, e3, -, e5⟩ := (stackState_eq_iff _ _).mp hst
    obtain ⟨b, bs, its, n, hb, -, -, -⟩ := Insert_eq_ok hs
    obtain ⟨s'', h'', hc''⟩ := hc.Insert (by rw [hb]; simp) _
    rw [h''] at hs
    simp only [Except.ok.injEq] at hs
    rw [← hs] at e1 e2 e3 e5 ⊢
    exact ⟨hc'', kinds, hg, by rw [e1, h1], by rw [e2, h2], by rw [e3, h3], by rw [e5, h4]⟩
  | CreateAccessor _ hs ih =>
    obtain ⟨hc, kinds, hg, h1, h2, h3, h4⟩ := ih
    obtain ⟨hst, -, -⟩ := CreateAccessor_stacks hs
    obtain ⟨e1, e2, e3, -, e5⟩ := (stackState_eq_iff _ _).mp hst
    obtain ⟨node, hn⟩ := CreateAccessor_eq_Create hs
    exact ⟨hc.step_Create hn, kinds, hg, by rw [e1, h1], by rw [e2, h2], by rw [e3, h3],
      by rw [e5, h4]⟩
  | CreateIdentityAccessor _ hs ih =>
    obtain ⟨hc, kinds, hg, h1, h2, h3, h4⟩ := ih
    obtain ⟨hst, -, -⟩ := CreateIdentityAccessor_stacks hs
    obtain ⟨e1, e2, e3, -, e5⟩ := (stackState_eq_iff _ _).mp hst
    obtain ⟨node, hn⟩ := CreateIdentityAccessor_eq_Create hs
    exact ⟨hc.step_Create hn, kinds, hg, by rw [e1, h1], by rw [e2, h2], by rw [e3, h3],
      by rw [e5, h4]⟩
  | CreateGrid _ hs ih =>
    obtain ⟨hc, kinds, hg, h1, h2, h3, h4⟩ := ih
    obtain ⟨s0, hcr, -, -⟩ := CreateGrid_eq_ok hs
    obtain ⟨-, b, bs, its, n, hb, -, -, -⟩ := Create_eq_ok hcr
    obtain ⟨s1, hs1, hc1, e1, e3, -, e2, e5⟩ := hc.CreateGrid (by rw [hb]; simp) _
    rw [hs1] at hs
    simp only [Except.ok.injEq, Prod.mk.injEq] at hs
    obtain ⟨-, hgd, hss⟩ := hs
    rw [← hss, ← hgd]
    refine ⟨hc1, true :: kinds, by rw [hg]; rfl, ?_, ?_, ?_, ?_⟩
    · rw [e1]; simp [h1]
    · rw [e2]; simp [h2]
    · rw [e3]; simp [h3]
    · rw [e5]; simp [h4]
  | CreateOperator _ hs ih =>
    obtain ⟨hc, kinds, hg, h1, h2, h3, h4⟩ := ih
    obtain ⟨s1, hs1, hc1, e1, e3, -, e2, e5⟩ := hc.CreateOperator _ _ _
    rw [hs1] at hs
    simp only [Except.ok.injEq, Prod.mk.injEq] at hs
    obtain ⟨-, hgd, hss⟩ := hs
    rw [← hss, ← hgd]
    refine ⟨hc1, false :: kinds, by rw [hg]; rfl, ?_, ?_, ?_, ?_⟩
    · rw [e1]; simp [h1]
    · rw [e2]; simp [h2]
    · rw [e3]; simp [h3]
    · rw [e5]; simp [h4]
  | release _ hs ih =>
    obtain ⟨hc, kinds, hg, h1, h2, h3, h4⟩ := ih
    cases kinds with
    | nil => simp at hg
    | cons k ks =>
      simp only [List.map_cons, List.cons.injEq] at hg
      obtain ⟨hgd, hgs⟩ := hg
      subst hgd
      cases k with
      | true =>
        simp only [cond_true] at hs
        obtain ⟨-, -, -, ⟨g, hp⟩, ⟨b, hb⟩, ⟨i, hi⟩⟩ := gridRelease_eq_ok hs
        obtain ⟨s'', h'', hc'', -, e1, e3, -, e2, e5⟩ := hc.gridRelease hp hb hi
        rw [h''] at hs
        simp only [Except.ok.injEq] at hs
        rw [← hs] at hp hb
        rw [← hs]
        rw [hp] at h1
        rw [hb] at h3
        rw [e1] at hp
        rw [e3] at hb
        refine ⟨hc'', ks, hgs, ?_, ?_, ?_, ?_⟩
        · simpa using h1
        · rw [e2]; simpa using h2
        · simpa using h3
        · rw [e5]; simpa using h4
      | false =>
        simp only [cond_false] at hs
        obtain ⟨-, -, ⟨o, ho⟩, ⟨b, hb⟩, ⟨i, hi⟩, ⟨t, ht⟩⟩ := operatorRelease_eq_ok hs
        obtain ⟨s'', h'', hc'', -, e1, e3, -, e2, e5⟩ := hc.operatorRelease ho hb hi ht
        rw [h''] at hs
        simp only [Except.ok.injEq] at hs
        rw [← hs] at ho hb ht
        rw [← hs]
        rw [ho] at h2
        rw [hb] at h3
        rw [ht] at h4
        refine ⟨hc'', ks, hgs, ?_, ?_, ?_, ?_⟩
        · rw [e1]; simpa using h1
        · simpa using h2
        · simpa using h3
        · simpa using h4

end Builder

/-- C20. Insertion-point invariant: in every builder state reachable from the empty builder by
`CreateOperator`, `CreateGrid`, `Create`, `Insert`, `CreateAccessor`, `CreateIdentityAccessor`
and releases of scope guards in reverse order of opening, `block_stack` and `iterator_stack`
have the same size, which is the size of `parallel_stack` plus the size of `operator_stack`
and the number of guards not yet released; `temp_tensors_stack` has the size of
`operator_stack`; at every level the iterator stored is the end of the instruction sequence
of the block stored at that level, an object of the arena; so the top iterator refers into the
top block, and `Insert` appends to that block. -/
theorem insertion_point_invariant (s : Builder) (guards : List ScopeGuard)
    (h : s.Reachable guards) :
    s.block_stack.length = s.iterator_stack.length ∧
    s.block_stack.length = s.parallel_stack.length + s.operator_stack.length ∧
    s.temp_tensors_stack.length = s.operator_stack.length ∧
    guards.length = s.block_stack.length ∧
    s.iterator_stack.map Iterator.list = s.block_stack ∧
    (∀ (i b : Nat), s.block_stack[i]? = some b →
      s.iterator_stack[i]? = some (Iterator.mk b) ∧ b < s.heap.length) ∧
    (∀ b bs, s.block_stack = b :: bs →
      ∃ its n, s.iterator_stack = ⟨b⟩ :: its ∧ s.heap[b]? = some n ∧
        ∀ v, ∃ s', s.Insert v = .ok s' ∧
          s'.heap[b]? = some { n with values := n.values ++ [v] }) := by
  obtain ⟨⟨hc1, hc2, hc3⟩, kinds, hg, h1, h2, h3, h4⟩ := h.invariant
  have hcount := List.count_true_add_count_false kinds
  have hlen : s.block_stack.length = s.iterator_stack.length := by
    rw [← hc3, List.length_map]
  have hlevel : ∀ (i b : Nat), s.block_stack[i]? = some b →
      s.iterator_stack[i]? = some (Iterator.mk b) ∧ b < s.heap.length := by
    intro i b hb
    have hmem : b ∈ s.block_stack := List.getElem?_mem hb
    refine ⟨?_, hc1 b hmem⟩
    rw [← hc3, List.getElem?_map] at hb
    cases hi : s.iterator_stack[i]? with
    | none => rw [hi] at hb; cases hb
    | some it =>
      rw [hi] at hb
      simp only [Option.map_some', Option.some.injEq] at hb
      cases it
      simp_all
  refine ⟨hlen, by omega, by omega, by rw [hg, List.length_map, h3], hc3, hlevel, ?_⟩
  intro b bs hb
  obtain ⟨hi0, hlt⟩ := hlevel 0 b (by rw [hb, List.getElem?_cons_zero])
  cases hits : s.iterator_stack with
  | nil => rw [hits] at hi0; cases hi0
  | cons it its =>
    rw [hits] at hi0
    simp only [List.getElem?_cons_zero, Option.some.injEq] at hi0
    subst hi0
    have hn : s.heap[b]? = some (s.heap[b]) := List.getElem?_eq_getElem hlt
    refine ⟨its, s.heap[b], rfl, hn, ?_⟩
    intro v
    refine ⟨_, Builder.Insert_ok v hb hits hn, ?_⟩
    simp [List.getElem?_set, hlt]

/-- The builder reached from the empty one by opening an operator and a grid inside it: the
block stack holds the grid (object 1) above the operator (object 0), the iterator stack the
ends of their sequences. -/
theorem insertion_point_invariant_witness :
    ∃ s : Builder, s.Reachable [Builder.gridRelease, Builder.operatorRelease] ∧
      s.block_stack = [1, 0] ∧ s.iterator_stack = [⟨1⟩, ⟨0⟩] ∧
      s.parallel_stack = [1] ∧ s.operator_stack = [0] ∧
      s.block_stack.length = s.iterator_stack.length ∧
      s.block_stack.length = s.parallel_stack.length + s.operator_stack.length ∧
      s.temp_tensors_stack.length = s.operator_stack.length := by
  have h1 : Builder.empty.CreateOperator [] [] "op" =
      .ok (0, Builder.operatorRelease,
        { heap := [⟨.OperatorInstance [] [] "op" "op", none, []⟩],
          parallel_stack := [],
          operator_stack := [0],
          block_stack := [0],
          iterator_stack := [⟨0⟩],
          temp_tensors_stack := [[]] }) := rfl
  have h2 : Builder.CreateGrid
      { heap := [⟨.OperatorInstance [] [] "op" "op", none, []⟩],
        parallel_stack := [],
        operator_stack := [0],
        block_stack := [0],
        iterator_stack := [⟨0⟩],
        temp_tensors_stack := [[]] } [2] =
      .ok (1, Builder.gridRelease,
        { heap := [⟨.OperatorInstance [] [] "op" "op", none, [1]⟩,
                   ⟨.Grid [2] false, none, []⟩],
          parallel_stack := [1],
          operator_stack := [0],
          block_stack := [1, 0],
          iterator_stack := [⟨1⟩, ⟨0⟩],
          temp_tensors_stack := [[]] }) := rfl
  have hr := Builder.Reachable.CreateGrid
    (Builder.Reachable.CreateOperator Builder.Reachable.empty h1) h2
  obtain ⟨h3, h4, h5, -⟩ := insertion_point_invariant _ _ hr
  exact ⟨_, hr, rfl, rfl, rfl, rfl, h3, h4, h5⟩

/-! ## Runs that keep the builder of a fault -/

/-- Forgetting the builder of a fault after a step is the step followed by the rest with that
builder forgotten. -/
theorem forgetBuilder_located {α β : Type} (s : Builder) (r : Except Fault α)
    (k : α → Except (Fault × Builder) β) :
    forgetBuilder (s.located r k) = r.bind fun a => forgetBuilder (k a) := by
  cases r <;> rfl

namespace MatrixMultiplyCreator

/-- The kernel loop that keeps the builder of a fault is the kernel loop once that builder is
forgotten. -/
theorem AffineExpress.kernels_traced_forget (ir_inputs ir_outputs : List Nat) (s : Builder)
    (kernel_queue : List Kernel) :
    (AffineExpress.kernels.traced ir_inputs ir_outputs s kernel_queue).map forgetBuilder =
      AffineExpress.kernels ir_inputs ir_outputs s kernel_queue := by
  induction kernel_queue with
  | nil => rfl
  | cons j rest ih =>
    simp only [AffineExpress.kernels.traced, AffineExpress.kernels]
    cases hm : j.Match ir_inputs ir_outputs s with
    | error e => rfl
    | ok b =>
      cases b with
      | true =>
        simp only [Option.map_some', forgetBuilder_located]
        cases j.Build ir_inputs ir_outputs s <;> rfl
      | false => exact ih

/-- The scalar case that keeps the builder of a fault is the scalar case once that builder is
forgotten. -/
theorem AffineExpress.scalar_traced_forget (a b c : Nat) (s : Builder) :
    forgetBuilder (AffineExpress.scalar.traced a b c s) = AffineExpress.scalar a b c s := by
  unfold AffineExpress.scalar.traced AffineExpress.scalar
  simp only [forgetBuilder_located, bind, Except.bind, pure, Except.pure]
  repeat (first | rfl | split)

/-- The accessors with the builder of a fault kept are the accessors once that builder is
forgotten. -/
theorem AffineExpress.accessors_traced_forget (a b c : Nat) (s : Builder) :
    forgetBuilder (AffineExpress.accessors.traced a b c s) = AffineExpress.accessors a b c s := by
  unfold AffineExpress.accessors.traced AffineExpress.accessors
  simp only [forgetBuilder_located, bind, Except.bind, pure, Except.pure]
  repeat (first | rfl | split)

end MatrixMultiplyCreator

namespace MatrixMultiplyCreator

/-- The tensor case that keeps the builder of a fault is the tensor case once that builder is
forgotten, also in the recursive call. -/
theorem AffineExpress.tensor_traced_forget (enable_multi_thread : TensorType → Bool)
    (recurse : List Nat → List Nat → Builder → Except (Fault × Builder) Builder)
    (a b c : Nat) (type_a : TensorType) (s : Builder) :
    forgetBuilder (AffineExpress.tensor.traced enable_multi_thread recurse a b c type_a s) =
      AffineExpress.tensor enable_multi_thread
        (fun ins outs u => forgetBuilder (recurse ins outs u)) a b c type_a s := by
  unfold AffineExpress.tensor.traced AffineExpress.tensor
  simp only [forgetBuilder_located, bind, Except.bind]
  cases AffineExpress.shapeLaw type_a b c s with
  | error e => rfl
  | ok extents =>
    simp only []
    cases s.CreateGrid extents with
    | error e => rfl
    | ok r =>
      obtain ⟨g, guard, s1⟩ := r
      simp only []
      cases s1.setEnableMultiThread g (enable_multi_thread type_a) with
      | error e => rfl
      | ok s2 =>
        simp only []
        rw [← AffineExpress.accessors_traced_forget]
        cases AffineExpress.accessors.traced a b c s2 with
        | error e => obtain ⟨e, u⟩ := e; rfl
        | ok acc =>
          obtain ⟨x, y, z, s3⟩ := acc
          simp only [forgetBuilder]
          cases recurse [x, y] [z] s3 with
          | error e => obtain ⟨e, u⟩ := e; rfl
          | ok s4 =>
            simp only [forgetBuilder_located]
            cases guard s4 <;> rfl

/-- The generic expansion that keeps the builder of a fault is the generic expansion once that
builder is forgotten, also in the recursive call. -/
theorem AffineExpress.generic_traced_forget (enable_multi_thread : TensorType → Bool)
    (recurse : List Nat → List Nat → Builder → Except (Fault × Builder) Builder)
    (ir_inputs ir_outputs : List Nat) (s : Builder) :
    forgetBuilder (AffineExpress.generic.traced enable_multi_thread recurse
        ir_inputs ir_outputs s) =
      AffineExpress.generic enable_multi_thread
        (fun ins outs u => forgetBuilder (recurse ins outs u)) ir_inputs ir_outputs s := by
  unfold AffineExpress.generic.traced AffineExpress.generic
  simp only [forgetBuilder_located]
  cases index ir_inputs 0 with
  | error e => rfl
  | ok a =>
    cases index ir_inputs 1 with
    | error e => rfl
    | ok b =>
      cases index ir_outputs 0 with
      | error e => rfl
      | ok c =>
        simp only [Except.bind]
        cases s.typeOf a with
        | error e => rfl
        | ok t =>
          simp only []
          by_cases hs : t.IsScalar = true
          · simp only [hs, if_true]
            exact AffineExpress.scalar_traced_forget a b c s
          · simp only [hs]
            exact AffineExpress.tensor_traced_forget enable_multi_thread recurse a b c t s

/-- The run that keeps the builder of a fault is the run of `AffineExpress` once that builder
is forgotten. -/
theorem AffineExpress.traced_forget (enable_multi_thread : TensorType → Bool)
    (kernel_queue : List Kernel) (fuel : Nat) :
    ∀ (ir_inputs ir_outputs : List Nat) (s : Builder),
      forgetBuilder (AffineExpress.traced enable_multi_thread kernel_queue fuel
        ir_inputs ir_outputs s) =
      AffineExpress enable_multi_thread kernel_queue fuel ir_inputs ir_outputs s := by
  induction fuel with
  | zero => intro ins outs s; rfl
  | succ fuel ih =>
    intro ins outs s
    have hk := AffineExpress.kernels_traced_forget ins outs s kernel_queue
    rw [AffineExpress.traced, AffineExpress]
    cases ht : AffineExpress.kernels.traced ins outs s kernel_queue with
    | some r =>
      rw [ht] at hk
      simp only [Option.map_some'] at hk
      rw [← hk]
    | none =>
      rw [ht] at hk
      simp only [Option.map_none'] at hk
      rw [← hk]
      simp only []
      rw [AffineExpress.generic_traced_forget]
      have hfun : (fun ins outs u => forgetBuilder
          (AffineExpress.traced enable_multi_thread kernel_queue fuel ins outs u)) =
          AffineExpress enable_multi_thread kernel_queue fuel := by
        funext i o u
        exact ih i o u
      rw [hfun]

end MatrixMultiplyCreator

namespace MatrixMultiplyCreator

open Builder

/-- A run that keeps the builder of its fault and returns once that builder is forgotten
returns itself. -/
theorem forgetBuilder_eq_ok {α : Type} {r : Except (Fault × Builder) α} {x : α}
    (h : forgetBuilder r = .ok x) : r = .ok x := by
  cases r with
  | error e => obtain ⟨e, u⟩ := e; cases h
  | ok a => simp only [forgetBuilder, Except.ok.injEq] at h; rw [h]

/-- The kernel loop that keeps the builder of a fault runs to its end when no kernel
matches. -/
theorem AffineExpress.kernels_traced_none (ir_inputs ir_outputs : List Nat) (s : Builder)
    (kernel_queue : List Kernel)
    (h : ∀ k ∈ kernel_queue, k.Match ir_inputs ir_outputs s = .ok false) :
    AffineExpress.kernels.traced ir_inputs ir_outputs s kernel_queue = none := by
  induction kernel_queue with
  | nil => rfl
  | cons j rest ih =>
    have hj := h j (by simp)
    simp only [AffineExpress.kernels.traced, hj]
    exact ih (fun x hx => h x (by simp [hx]))

/-- When the shape law is violated, the tensor case stops on its assertion in the builder it
was called in: nothing has been emitted. -/
theorem AffineExpress.tensor_traced_violated {s : Builder} {b c : Nat}
    (enable_multi_thread : TensorType → Bool)
    (recurse : List Nat → List Nat → Builder → Except (Fault × Builder) Builder) (a : Nat)
    (ea eb ec : TensorType) (m k k' n m' n' : Int)
    (htb : s.typeOf b = .ok (TensorType.CreateMatrixType eb k' n))
    (htc : s.typeOf c = .ok (TensorType.CreateMatrixType ec m' n'))
    (hv : k ≠ k' ∨ m' ≠ m ∨ n' ≠ n) :
    AffineExpress.tensor.traced enable_multi_thread recurse a b c
      (TensorType.CreateMatrixType ea m k) s = .error (.assertion, s) := by
  unfold AffineExpress.tensor.traced
  rw [AffineExpress.shapeLaw_violated ea eb ec m k k' n m' n' htb htc hv]
  rfl

/-- When the shape law holds, the tensor case that keeps the builder of a fault makes its
recursive call in the builder `inGrid`; a fault of the recursive call is reported with the
builder of that call, in which the grid is open. -/
theorem AffineExpress.tensor_traced_eq {s : Builder} {blk : Nat} {bs : List Nat}
    {its : List Iterator} {nd : Node} (enable_multi_thread : TensorType → Bool)
    (recurse : List Nat → List Nat → Builder → Except (Fault × Builder) Builder)
    (a b c : Nat) (ea eb ec : TensorType) (m k n : Int)
    (hb : s.block_stack = blk :: bs) (hi : s.iterator_stack = ⟨blk⟩ :: its)
    (hn : s.heap[blk]? = some nd)
    (hta : s.typeOf a = .ok (TensorType.CreateMatrixType ea m k))
    (htb : s.typeOf b = .ok (TensorType.CreateMatrixType eb k n))
    (htc : s.typeOf c = .ok (TensorType.CreateMatrixType ec m n)) :
    AffineExpress.tensor.traced enable_multi_thread recurse a b c
        (TensorType.CreateMatrixType ea m k) s =
      match recurse [s.heap.length + 1, s.heap.length + 2] [s.heap.length + 3]
        (AffineExpress.inGrid s blk nd
          (enable_multi_thread (TensorType.CreateMatrixType ea m k)) a b c ea eb ec m k n) with
      | .error e => .error e
      | .ok s2 => s2.located (gridRelease s2) .ok := by
  obtain ⟨h1, h2, h3⟩ := AffineExpress.tensor_steps
    (enable_multi_thread (TensorType.CreateMatrixType ea m k)) a b c ea eb ec m k n
    hb hi hn hta htb htc
  rw [← AffineExpress.accessors_traced_forget] at h3
  have h4 := forgetBuilder_eq_ok h3
  unfold AffineExpress.tensor.traced
  simp only [Builder.located, AffineExpress.shapeLaw_ok ea eb ec m k n htb htc, h1, h2, h4]

/-- With no kernel matching, the call on a left operand that is no scalar is the tensor case,
also in the run that keeps the builder of a fault. -/
theorem AffineExpress.traced_tensor {s : Builder} (enable_multi_thread : TensorType → Bool)
    (kernel_queue : List Kernel) (fuel : Nat) (a b c : Nat) {t : TensorType}
    (hta : s.typeOf a = .ok t) (hsc : t.IsScalar = false)
    (hk : ∀ j ∈ kernel_queue, j.Match [a, b] [c] s = .ok false) :
    AffineExpress.traced enable_multi_thread kernel_queue (fuel + 1) [a, b] [c] s =
      AffineExpress.tensor.traced enable_multi_thread
        (AffineExpress.traced enable_multi_thread kernel_queue fuel) a b c t s := by
  rw [AffineExpress.traced, AffineExpress.kernels_traced_none _ _ _ _ hk]
  simp only [AffineExpress.generic.traced, Builder.located, index_zero, index_one, hta, hsc]
  simp

/-- With no kernel matching, the call on a left operand that is no scalar is the tensor
case. -/
theorem AffineExpress.no_match_eq_tensor {s : Builder}
    (enable_multi_thread : TensorType → Bool)
    (kernel_queue : List Kernel) (fuel : Nat) (a b c : Nat) {t : TensorType}
    (hta : s.typeOf a = .ok t) (hsc : t.IsScalar = false)
    (hk : ∀ j ∈ kernel_queue, j.Match [a, b] [c] s = .ok false) :
    AffineExpress enable_multi_thread kernel_queue (fuel + 1) [a, b] [c] s =
      AffineExpress.tensor enable_multi_thread
        (AffineExpress enable_multi_thread kernel_queue fuel) a b c t s := by
  rw [AffineExpress, AffineExpress.kernels_none _ _ _ _ hk]
  simp only []
  rw [AffineExpress.generic_tensor _ _ a b c hta hsc]

end MatrixMultiplyCreator

/-! ## The tensor case of the contraction, step by step -/

/-- C16, amended. Contraction grid: for a left operand of shape `(m, k)`, a right operand of
shape `(k, n)` and an output of shape `(m, n)` in a builder with the block `blk` open, when no
kernel matches, the call of `MatrixMultiplyCreator::AffineExpress` is its tensor case, and the
tensor case, whatever its recursive call does, passes the shape law, calls `CreateGrid` on the
extent vector `(m, k, n)`, in that order, which appends a new grid of rank 3 to the current
block and makes it the innermost open grid and the current block, and assigns to the flag
`enable_multi_thread` of the grid the flag of the type of the left operand; the recursive
call is made with that grid open. When the elements of the left operand are scalars and no
kernel matches at the recursive call, the call returns, and the grid with these extents and
this flag is in the current block. -/
theorem contraction_grid (enable_multi_thread : TensorType → Bool) (kernel_queue : List Kernel)
    (fuel : Nat) (s : Builder) (blk : Nat) (bs : List Nat) (its : List Iterator) (nd : Node)
    (a b c : Nat) (ea eb ec : TensorType) (m k n : Int)
    (hb : s.block_stack = blk :: bs) (hi : s.iterator_stack = ⟨blk⟩ :: its)
    (hn : s.heap[blk]? = some nd)
    (hta : s.typeOf a = .ok (TensorType.CreateMatrixType ea m k))
    (htb : s.typeOf b = .ok (TensorType.CreateMatrixType eb k n))
    (htc : s.typeOf c = .ok (TensorType.CreateMatrixType ec m n))
    (hk : ∀ j ∈ kernel_queue, j.Match [a, b] [c] s = .ok false) :
    ∃ s1 s2 u : Builder,
      MatrixMultiplyCreator.AffineExpress enable_multi_thread kernel_queue (fuel + 1)
          [a, b] [c] s =
        MatrixMultiplyCreator.AffineExpress.tensor enable_multi_thread
          (MatrixMultiplyCreator.AffineExpress enable_multi_thread kernel_queue fuel) a b c
          (TensorType.CreateMatrixType ea m k) s ∧
      MatrixMultiplyCreator.AffineExpress.shapeLaw (TensorType.CreateMatrixType ea m k) b c s =
        .ok [m, k, n] ∧
      s.CreateGrid [m, k, n] = .ok (s.heap.length, Builder.gridRelease, s1) ∧
      s1.setEnableMultiThread s.heap.length
        (enable_multi_thread (TensorType.CreateMatrixType ea m k)) = .ok s2 ∧
      MatrixMultiplyCreator.AffineExpress.accessors a b c s2 =
        .ok (s.heap.length + 1, s.heap.length + 2, s.heap.length + 3, u) ∧
      (∀ recurse, MatrixMultiplyCreator.AffineExpress.tensor enable_multi_thread recurse a b c
          (TensorType.CreateMatrixType ea m k) s =
        (recurse [s.heap.length + 1, s.heap.length + 2] [s.heap.length + 3] u).bind
          Builder.gridRelease) ∧
      s2.parallel_stack = s.heap.length :: s.parallel_stack ∧
      s2.block_stack = s.heap.length :: s.block_stack ∧
      s2.iterator_stack = ⟨s.heap.length⟩ :: s.iterator_stack ∧
      s2.heap[blk]? = some { nd with values := nd.values ++ [s.heap.length] } ∧
      s2.deref s.heap.length =
        .ok ⟨.Grid [m, k, n] (enable_multi_thread (TensorType.CreateMatrixType ea m k)),
          none, []⟩ ∧
      u.parallel_stack = s.heap.length :: s.parallel_stack ∧
      u.block_stack = s.heap.length :: s.block_stack ∧
      u.CurrentGrid = .ok s.heap.length ∧
      u.gridShape s.heap.length = .ok [m, k, n] ∧
      u.parallel_rank = .ok 3 ∧
      (∃ vs, u.deref s.heap.length =
        .ok ⟨.Grid [m, k, n] (enable_multi_thread (TensorType.CreateMatrixType ea m k)),
          none, vs⟩) ∧
      (ea.IsScalar = true →
        (∀ j ∈ kernel_queue,
          j.Match [s.heap.length + 1, s.heap.length + 2] [s.heap.length + 3] u = .ok false) →
        ∃ s' vs, MatrixMultiplyCreator.AffineExpress enable_multi_thread kernel_queue
            (fuel + 2) [a, b] [c] s = .ok s' ∧
          s'.deref s.heap.length =
            .ok ⟨.Grid [m, k, n] (enable_multi_thread (TensorType.CreateMatrixType ea m k)),
              none, vs⟩ ∧
          s'.heap[blk]? = some { nd with values := nd.values ++ [s.heap.length] } ∧
          s'.stackState = s.stackState) := by
  have hlt : blk < s.heap.length := by
    rcases Nat.lt_or_ge blk s.heap.length with h | h
    · exact h
    · rw [List.getElem?_eq_none h] at hn; cases hn
  obtain ⟨h1, h2, h3⟩ := MatrixMultiplyCreator.AffineExpress.tensor_steps
    (enable_multi_thread (TensorType.CreateMatrixType ea m k)) a b c ea eb ec m k n
    hb hi hn hta htb htc
  have hget := MatrixMultiplyCreator.AffineExpress.inGrid_get s blk nd
    (enable_multi_thread (TensorType.CreateMatrixType ea m k)) a b c ea eb ec m k n 0
  simp only [Nat.add_zero, List.getElem?_cons_zero] at hget
  have hg2 := Builder.emit_get_new s blk nd [s.heap.length]
    [⟨.Grid [m, k, n] (enable_multi_thread (TensorType.CreateMatrixType ea m k)), none, []⟩] 0
  simp only [Nat.add_zero, List.getElem?_cons_zero] at hg2
  refine ⟨_, _, _, MatrixMultiplyCreator.AffineExpress.no_match_eq_tensor enable_multi_thread
      kernel_queue fuel a b c hta rfl hk,
    MatrixMultiplyCreator.AffineExpress.shapeLaw_ok ea eb ec m k n htb htc, h1, h2, h3,
    fun recurse => MatrixMultiplyCreator.AffineExpress.tensor_eq enable_multi_thread recurse
      a b c ea eb ec m k n hb hi hn hta htb htc,
    rfl, rfl, rfl, Builder.emit_get_base nd _ _ hlt, ?_, rfl, rfl, rfl, ?_, ?_,
    ⟨[s.heap.length + 1, s.heap.length + 2, s.heap.length + 3], ?_⟩, ?_⟩
  · simp only [Builder.deref, index, Builder.pushGrid, hg2]
  · simp only [Builder.gridShape, hget]
  · have hp : (MatrixMultiplyCreator.AffineExpress.inGrid s blk nd
        (enable_multi_thread (TensorType.CreateMatrixType ea m k)) a b c ea eb ec
        m k n).parallel_stack = s.heap.length :: s.parallel_stack := rfl
    simp only [Builder.parallel_rank, hp, List.isEmpty_cons, Builder.CurrentGrid,
      Builder.gridShape, hget]
    rfl
  · simp only [Builder.deref, index, hget]
  · intro he hk'
    have hres := MatrixMultiplyCreator.AffineExpress.matrix_eq enable_multi_thread fuel a b c
      ea eb ec m k n he hb hi hn hta htb htc
    rw [← MatrixMultiplyCreator.AffineExpress.no_match_matrix enable_multi_thread kernel_queue
      fuel a b c ea eb ec m k n he hb hi hn hta htb htc hk hk'] at hres
    refine ⟨_, [s.heap.length + 1, s.heap.length + 2, s.heap.length + 3, s.heap.length + 4,
      s.heap.length + 5, s.heap.length + 6], hres, ?_, Builder.emit_get_base nd _ _ hlt, rfl⟩
    have hg := Builder.emit_get_new s blk nd [s.heap.length]
      [⟨.Grid [m, k, n] (enable_multi_thread (TensorType.CreateMatrixType ea m k)), none,
          [s.heap.length + 1, s.heap.length + 2, s.heap.length + 3, s.heap.length + 4,
           s.heap.length + 5, s.heap.length + 6]⟩,
       ⟨.Accessor a ⟨2, 3, [[1, 0, 0], [0, 1, 0]]⟩ [0, 0], some ea, []⟩,
       ⟨.Accessor b ⟨2, 3, [[0, 1, 0], [0, 0, 1]]⟩ [0, 0], some eb, []⟩,
       ⟨.Accessor c ⟨2, 3, [[1, 0, 0], [0, 0, 1]]⟩ [0, 0], some ec, []⟩,
       Mul.Create (s.heap.length + 1) (s.heap.length + 2),
       Add.Create (s.heap.length + 4) (s.heap.length + 3),
       Write.Create (s.heap.length + 5) (s.heap.length + 3)] 0
    simp only [Nat.add_zero, List.getElem?_cons_zero] at hg
    simp only [Builder.deref, index, hg]

/-- In `Example.rect` the lowering of the 2×3 by 3×5 product calls `CreateGrid` on the extents
`(2, 3, 5)` and returns with that grid, object 4, in the operator `op`, its flag being the one
of the left type. -/
theorem contraction_grid_witness :
    (∃ s1, Example.rect.CreateGrid [2, 3, 5] = .ok (4, Builder.gridRelease, s1)) ∧
    ∃ s' vs, MatrixMultiplyCreator.AffineExpress (fun _ => true) [] 2 [1, 2] [3]
        Example.rect = .ok s' ∧
      s'.deref 4 = .ok ⟨.Grid [2, 3, 5] true, none, vs⟩ ∧
      s'.heap[0]? = some ⟨.OperatorInstance [] [] "op" "op", none, [4]⟩ := by
  obtain ⟨s1, s2, u, -, -, h1, -, -, -, -, -, -, -, -, -, -, -, -, -, -, h2⟩ :=
    contraction_grid (fun _ => true) [] 0 Example.rect
      0 [] [] ⟨.OperatorInstance [] [] "op" "op", none, []⟩ 1 2 3 (.FloatType 32)
      (.FloatType 32) (.FloatType 32) 2 3 5 rfl rfl rfl rfl rfl rfl
      (by intro j hj; cases hj)
  obtain ⟨s', vs, h3, h4, h5, -⟩ := h2 rfl (by intro j hj; cases hj)
  exact ⟨⟨s1, h1⟩, s', vs, h3, h4, h5⟩

/-- C17. Contraction accessors: in the tensor case of `MatrixMultiplyCreator::AffineExpress` on
shapes `(m, k)`, `(k, n)`, `(m, n)` with no kernel matching, inside the grid of extents
`(m, k, n)`, whose dimensions are row, red and col in this order, the code creates three
accessors, of `a`, `b` and `c`, and makes its recursive call on them, whatever that call
does. At every grid index `(row, red, col)` the coordinates `M·i + s` of the accessors are
`(row, red)` in `a`, `(red, col)` in `b` and `(row, col)` in `c`; for an index inside the grid
each coordinate lies within the shape of its tensor; the column of the transform of the
accessor of `c` for the reduction dimension is zero, so the coordinate in `c` is the same at
every reduction step. When the elements of the left operand are scalars and no kernel
matches at the recursive call, the call returns and these accessors are the operands of the
product and the target of the accumulation in the grid. -/
theorem contraction_accessors (enable_multi_thread : TensorType → Bool)
    (kernel_queue : List Kernel) (fuel : Nat) (s : Builder) (blk : Nat) (bs : List Nat)
    (its : List Iterator) (nd : Node) (a b c : Nat) (ea eb ec : TensorType) (m k n : Int)
    (hb : s.block_stack = blk :: bs) (hi : s.iterator_stack = ⟨blk⟩ :: its)
    (hn : s.heap[blk]? = some nd)
    (hta : s.typeOf a = .ok (TensorType.CreateMatrixType ea m k))
    (htb : s.typeOf b = .ok (TensorType.CreateMatrixType eb k n))
    (htc : s.typeOf c = .ok (TensorType.CreateMatrixType ec m n))
    (hk : ∀ j ∈ kernel_queue, j.Match [a, b] [c] s = .ok false) :
    ∃ (s1 s2 u : Builder) (MA MB MC : MatrixXi64) (sA sB sC : List Int)
      (tA tB tC : Option TensorType),
      MatrixMultiplyCreator.AffineExpress enable_multi_thread kernel_queue (fuel + 1)
          [a, b] [c] s =
        MatrixMultiplyCreator.AffineExpress.tensor enable_multi_thread
          (MatrixMultiplyCreator.AffineExpress enable_multi_thread kernel_queue fuel) a b c
          (TensorType.CreateMatrixType ea m k) s ∧
      s.CreateGrid [m, k, n] = .ok (s.heap.length, Builder.gridRelease, s1) ∧
      s1.setEnableMultiThread s.heap.length
        (enable_multi_thread (TensorType.CreateMatrixType ea m k)) = .ok s2 ∧
      MatrixMultiplyCreator.AffineExpress.accessors a b c s2 =
        .ok (s.heap.length + 1, s.heap.length + 2, s.heap.length + 3, u) ∧
      (∀ recurse, MatrixMultiplyCreator.AffineExpress.tensor enable_multi_thread recurse a b c
          (TensorType.CreateMatrixType ea m k) s =
        (recurse [s.heap.length + 1, s.heap.length + 2] [s.heap.length + 3] u).bind
          Builder.gridRelease) ∧
      u.CurrentGrid = .ok s.heap.length ∧
      u.gridShape s.heap.length = .ok [m, k, n] ∧
      u.deref (s.heap.length + 1) = .ok ⟨.Accessor a MA sA, tA, []⟩ ∧
      u.deref (s.heap.length + 2) = .ok ⟨.Accessor b MB sB, tB, []⟩ ∧
      u.deref (s.heap.length + 3) = .ok ⟨.Accessor c MC sC, tC, []⟩ ∧
      (∃ vs, u.deref s.heap.length = .ok ⟨.Grid [m, k, n]
          (enable_multi_thread (TensorType.CreateMatrixType ea m k)), none, vs⟩ ∧
        [s.heap.length + 1, s.heap.length + 2, s.heap.length + 3] <+: vs) ∧
      (∀ row red col : Int,
        Accessor.coordinate MA sA [row, red, col] = [row, red] ∧
        Accessor.coordinate MB sB [row, red, col] = [red, col] ∧
        Accessor.coordinate MC sC [row, red, col] = [row, col]) ∧
      (∀ row red col : Int, 0 ≤ row → row < m → 0 ≤ red → red < k → 0 ≤ col → col < n →
        List.Forall₂ (fun x e => 0 ≤ x ∧ x < e) (Accessor.coordinate MA sA [row, red, col])
          (TensorType.CreateMatrixType ea m k).shape ∧
        List.Forall₂ (fun x e => 0 ≤ x ∧ x < e) (Accessor.coordinate MB sB [row, red, col])
          (TensorType.CreateMatrixType eb k n).shape ∧
        List.Forall₂ (fun x e => 0 ≤ x ∧ x < e) (Accessor.coordinate MC sC [row, red, col])
          (TensorType.CreateMatrixType ec m n).shape) ∧
      MC.coeff 0 1 = 0 ∧ MC.coeff 1 1 = 0 ∧
      (∀ row red red' col : Int,
        Accessor.coordinate MC sC [row, red, col] =
          Accessor.coordinate MC sC [row, red', col]) ∧
      (ea.IsScalar = true →
        (∀ j ∈ kernel_queue,
          j.Match [s.heap.length + 1, s.heap.length + 2] [s.heap.length + 3] u = .ok false) →
        ∃ s', MatrixMultiplyCreator.AffineExpress enable_multi_thread kernel_queue
            (fuel + 2) [a, b] [c] s = .ok s' ∧
          s'.deref (s.heap.length + 1) = .ok ⟨.Accessor a MA sA, tA, []⟩ ∧
          s'.deref (s.heap.length + 2) = .ok ⟨.Accessor b MB sB, tB, []⟩ ∧
          s'.deref (s.heap.length + 3) = .ok ⟨.Accessor c MC sC, tC, []⟩ ∧
          s'.deref (s.heap.length + 4) =
            .ok (Mul.Create (s.heap.length + 1) (s.heap.length + 2)) ∧
          s'.deref (s.heap.length + 5) =
            .ok (Add.Create (s.heap.length + 4) (s.heap.length + 3)) ∧
          s'.deref (s.heap.length + 6) =
            .ok (Write.Create (s.heap.length + 5) (s.heap.length + 3))) := by
  obtain ⟨hs1, hs2, hs3⟩ := MatrixMultiplyCreator.AffineExpress.tensor_steps
    (enable_multi_thread (TensorType.CreateMatrixType ea m k)) a b c ea eb ec m k n
    hb hi hn hta htb htc
  have hget := MatrixMultiplyCreator.AffineExpress.inGrid_get s blk nd
    (enable_multi_thread (TensorType.CreateMatrixType ea m k)) a b c ea eb ec m k n
  have h0 := hget 0
  have h1 := hget 1
  have h2 := hget 2
  have h3 := hget 3
  simp only [Nat.add_zero, List.getElem?_cons_zero, List.getElem?_cons_succ] at h0 h1 h2 h3
  have hA : ∀ row red col : Int,
      Accessor.coordinate ⟨2, 3, [[1, 0, 0], [0, 1, 0]]⟩ [0, 0] [row, red, col] = [row, red] := by
    intro row red col
    simp [Accessor.coordinate, MatrixXi64.mulVec]
  have hB : ∀ row red col : Int,
      Accessor.coordinate ⟨2, 3, [[0, 1, 0], [0, 0, 1]]⟩ [0, 0] [row, red, col] = [red, col] := by
    intro row red col
    simp [Accessor.coordinate, MatrixXi64.mulVec]
  have hC : ∀ row red col : Int,
      Accessor.coordinate ⟨2, 3, [[1, 0, 0], [0, 0, 1]]⟩ [0, 0] [row, red, col] = [row, col] := by
    intro row red col
    simp [Accessor.coordinate, MatrixXi64.mulVec]
  refine ⟨_, _, _, ⟨2, 3, [[1, 0, 0], [0, 1, 0]]⟩, ⟨2, 3, [[0, 1, 0], [0, 0, 1]]⟩,
    ⟨2, 3, [[1, 0, 0], [0, 0, 1]]⟩, [0, 0], [0, 0], [0, 0], some ea, some eb, some ec,
    MatrixMultiplyCreator.AffineExpress.no_match_eq_tensor enable_multi_thread
      kernel_queue fuel a b c hta rfl hk, hs1, hs2, hs3,
    fun recurse => MatrixMultiplyCreator.AffineExpress.tensor_eq enable_multi_thread recurse
      a b c ea eb ec m k n hb hi hn hta htb htc,
    rfl, ?_, ?_, ?_, ?_,
    ⟨[s.heap.length + 1, s.heap.length + 2, s.heap.length + 3], ?_, List.prefix_refl _⟩,
    ?_, ?_, rfl, rfl, ?_, ?_⟩
  · simp only [Builder.gridShape, h0]
  · simp only [Builder.deref, index, h1]
  · simp only [Builder.deref, index, h2]
  · simp only [Builder.deref, index, h3]
  · simp only [Builder.deref, index, h0]
  · intro row red col
    exact ⟨hA row red col, hB row red col, hC row red col⟩
  · intro row red col r0 r1 k0 k1 c0 c1
    rw [hA, hB, hC]
    simp only [TensorType.CreateMatrixType, TensorType.shape]
    exact ⟨.cons ⟨r0, r1⟩ (.cons ⟨k0, k1⟩ .nil), .cons ⟨k0, k1⟩ (.cons ⟨c0, c1⟩ .nil),
      .cons ⟨r0, r1⟩ (.cons ⟨c0, c1⟩ .nil)⟩
  · intro row red red' col
    rw [hC, hC]
  · intro he hk'
    have hres := MatrixMultiplyCreator.AffineExpress.matrix_eq enable_multi_thread fuel a b c
      ea eb ec m k n he hb hi hn hta htb htc
    rw [← MatrixMultiplyCreator.AffineExpress.no_match_matrix enable_multi_thread kernel_queue
      fuel a b c ea eb ec m k n he hb hi hn hta htb htc hk hk'] at hres
    have hg := Builder.emit_get_new s blk nd [s.heap.length]
      [⟨.Grid [m, k, n] (enable_multi_thread (TensorType.CreateMatrixType ea m k)), none,
          [s.heap.length + 1, s.heap.length + 2, s.heap.length + 3, s.heap.length + 4,
           s.heap.length + 5, s.heap.length + 6]⟩,
       ⟨.Accessor a ⟨2, 3, [[1, 0, 0], [0, 1, 0]]⟩ [0, 0], some ea, []⟩,
       ⟨.Accessor b ⟨2, 3, [[0, 1, 0], [0, 0, 1]]⟩ [0, 0], some eb, []⟩,
       ⟨.Accessor c ⟨2, 3, [[1, 0, 0], [0, 0, 1]]⟩ [0, 0], some ec, []⟩,
       Mul.Create (s.heap.length + 1) (s.heap.length + 2),
       Add.Create (s.heap.length + 4) (s.heap.length + 3),
       Write.Create (s.heap.length + 5) (s.heap.length + 3)]
    have g1 := hg 1
    have g2 := hg 2
    have g3 := hg 3
    have g4 := hg 4
    have g5 := hg 5
    have g6 := hg 6
    simp only [List.getElem?_cons_zero, List.getElem?_cons_succ] at g1 g2 g3 g4 g5 g6
    refine ⟨_, hres, ?_, ?_, ?_, ?_, ?_, ?_⟩
    · simp only [Builder.deref, index, g1]
    · simp only [Builder.deref, index, g2]
    · simp only [Builder.deref, index, g3]
    · simp only [Builder.deref, index, g4]
    · simp only [Builder.deref, index, g5]
    · simp only [Builder.deref, index, g6]

/-- In `Example.rect` the lowering of the 2×3 by 3×5 product returns with the accessors of the
objects 1, 2 and 3 as the objects 5, 6 and 7, the operands of the product (object 8) and the
target of the write (object 10); at the grid index `(1, 2, 4)` they read `(1, 2)`, `(2, 4)`
and `(1, 4)`. -/
theorem contraction_accessors_witness :
    ∃ (s' : Builder) (MA MB MC : MatrixXi64) (sA sB sC : List Int)
      (tA tB tC : Option TensorType),
      MatrixMultiplyCreator.AffineExpress (fun _ => false) [] 2 [1, 2] [3] Example.rect =
        .ok s' ∧
      s'.deref 5 = .ok ⟨.Accessor 1 MA sA, tA, []⟩ ∧
      s'.deref 6 = .ok ⟨.Accessor 2 MB sB, tB, []⟩ ∧
      s'.deref 7 = .ok ⟨.Accessor 3 MC sC, tC, []⟩ ∧
      s'.deref 8 = .ok ⟨.Mul 5 6, none, []⟩ ∧
      s'.deref 10 = .ok ⟨.Write 9 7, none, []⟩ ∧
      Accessor.coordinate MA sA [1, 2, 4] = [1, 2] ∧
      Accessor.coordinate MB sB [1, 2, 4] = [2, 4] ∧
      Accessor.coordinate MC sC [1, 2, 4] = [1, 4] := by
  obtain ⟨s1, s2, u, MA, MB, MC, sA, sB, sC, tA, tB, tC, -, -, -, -, -, -, -, -, -, -, -,
      h4, -, -, -, -, h5⟩ := contraction_accessors (fun _ => false) [] 0 Example.rect
    0 [] [] ⟨.OperatorInstance [] [] "op" "op", none, []⟩ 1 2 3 (.FloatType 32)
    (.FloatType 32) (.FloatType 32) 2 3 5 rfl rfl rfl rfl rfl rfl
    (by intro j hj; cases hj)
  obtain ⟨s', h6, a1, a2, a3, a4, -, a6⟩ := h5 rfl (by intro j hj; cases hj)
  exact ⟨s', MA, MB, MC, sA, sB, sC, tA, tB, tC, h6, a1, a2, a3, a4, a6, (h4 1 2 4).1,
    (h4 1 2 4).2.1, (h4 1 2 4).2.2⟩

/-- C18, amended. The shape law is enforced before anything is emitted: for operands `a`, `b`
and an output `c` of rank 2, of shapes `(m, k)`, `(k', n)` and `(m', n')`, where the elements
of `a` are scalars, in a builder with a block open and with no kernel matching,
`MatrixMultiplyCreator::AffineExpress` fails if and only if `k ≠ k'` or `m' ≠ m` or `n' ≠ n`.
When the law is violated, whatever the element types, the call stops on the assertion of the
shape law, and the builder in which it stops is the builder `s` it was called in: no grid has
been opened, no object has been inserted into any block and the stacks are as they were.
The run that keeps the builder of a fault is the run of `AffineExpress` once that builder is
forgotten. When the law holds and the recursive call fails, the call stops in the builder of
that failure, reached from one in which the grid is open. When the law holds and the elements
of `a` are scalars, the call returns with the stacks as they were. -/
theorem shape_law_enforced (enable_multi_thread : TensorType → Bool)
    (kernel_queue : List Kernel) (fuel : Nat) (s : Builder) (blk : Nat) (bs : List Nat)
    (its : List Iterator) (nd : Node) (a b c : Nat) (ea eb ec : TensorType)
    (m k k' n m' n' : Int)
    (hb : s.block_stack = blk :: bs) (hi : s.iterator_stack = ⟨blk⟩ :: its)
    (hn : s.heap[blk]? = some nd)
    (hta : s.typeOf a = .ok (TensorType.CreateMatrixType ea m k))
    (htb : s.typeOf b = .ok (TensorType.CreateMatrixType eb k' n))
    (htc : s.typeOf c = .ok (TensorType.CreateMatrixType ec m' n'))
    (hk : ∀ j ∈ kernel_queue, j.Match [a, b] [c] s = .ok false)
    (hk' : ∀ j ∈ kernel_queue,
      j.Match [s.heap.length + 1, s.heap.length + 2] [s.heap.length + 3]
        (MatrixMultiplyCreator.AffineExpress.inGrid s blk nd
          (enable_multi_thread (TensorType.CreateMatrixType ea m k)) a b c ea eb ec m k n) =
        .ok false) :
    ((k ≠ k' ∨ m' ≠ m ∨ n' ≠ n) →
      MatrixMultiplyCreator.AffineExpress.shapeLaw (TensorType.CreateMatrixType ea m k) b c s =
        .error .assertion ∧
      (∀ recurse, MatrixMultiplyCreator.AffineExpress.tensor enable_multi_thread recurse a b c
        (TensorType.CreateMatrixType ea m k) s = .error .assertion) ∧
      MatrixMultiplyCreator.AffineExpress enable_multi_thread kernel_queue (fuel + 1)
        [a, b] [c] s = .error .assertion ∧
      (∀ recurse, MatrixMultiplyCreator.AffineExpress.tensor.traced enable_multi_thread
        recurse a b c (TensorType.CreateMatrixType ea m k) s = .error (.assertion, s)) ∧
      MatrixMultiplyCreator.AffineExpress.traced enable_multi_thread kernel_queue (fuel + 1)
        [a, b] [c] s = .error (.assertion, s)) ∧
    (∀ f ins outs u, forgetBuilder (MatrixMultiplyCreator.AffineExpress.traced
        enable_multi_thread kernel_queue f ins outs u) =
      MatrixMultiplyCreator.AffineExpress enable_multi_thread kernel_queue f ins outs u) ∧
    (¬ (k ≠ k' ∨ m' ≠ m ∨ n' ≠ n) →
      (MatrixMultiplyCreator.AffineExpress.inGrid s blk nd
          (enable_multi_thread (TensorType.CreateMatrixType ea m k)) a b c ea eb ec
          m k n).parallel_stack = s.heap.length :: s.parallel_stack ∧
      ∀ e u, MatrixMultiplyCreator.AffineExpress.traced enable_multi_thread kernel_queue fuel
          [s.heap.length + 1, s.heap.length + 2] [s.heap.length + 3]
          (MatrixMultiplyCreator.AffineExpress.inGrid s blk nd
            (enable_multi_thread (TensorType.CreateMatrixType ea m k)) a b c ea eb ec
            m k n) = .error (e, u) →
        MatrixMultiplyCreator.AffineExpress.traced enable_multi_thread kernel_queue (fuel + 1)
          [a, b] [c] s = .error (e, u)) ∧
    (ea.IsScalar = true →
      ((∃ e, MatrixMultiplyCreator.AffineExpress enable_multi_thread kernel_queue (fuel + 2)
        [a, b] [c] s = .error e) ↔ (k ≠ k' ∨ m' ≠ m ∨ n' ≠ n)) ∧
      (¬ (k ≠ k' ∨ m' ≠ m ∨ n' ≠ n) →
        ∃ s', MatrixMultiplyCreator.AffineExpress enable_multi_thread kernel_queue (fuel + 2)
          [a, b] [c] s = .ok s' ∧ s'.stackState = s.stackState)) := by
  have hfail : ∀ f, (k ≠ k' ∨ m' ≠ m ∨ n' ≠ n) →
      MatrixMultiplyCreator.AffineExpress enable_multi_thread kernel_queue (f + 1)
        [a, b] [c] s = .error .assertion := by
    intro f hv
    rw [MatrixMultiplyCreator.AffineExpress.no_match_eq_tensor enable_multi_thread
        kernel_queue f a b c hta rfl hk,
      MatrixMultiplyCreator.AffineExpress.tensor_violated _ _ a ea eb ec m k k' n m' n'
        htb htc hv]
  have hok : ea.IsScalar = true → ¬ (k ≠ k' ∨ m' ≠ m ∨ n' ≠ n) →
      ∃ s', MatrixMultiplyCreator.AffineExpress enable_multi_thread kernel_queue (fuel + 2)
        [a, b] [c] s = .ok s' ∧ s'.stackState = s.stackState := by
    intro he hv
    simp only [not_or, not_not] at hv
    obtain ⟨h1, h2, h3⟩ := hv
    subst h1 h2 h3
    rw [MatrixMultiplyCreator.AffineExpress.no_match_matrix enable_multi_thread kernel_queue
      fuel a b c ea eb ec m' k n' he hb hi hn hta htb htc hk hk']
    exact ⟨_, MatrixMultiplyCreator.AffineExpress.matrix_eq enable_multi_thread fuel a b c
      ea eb ec m' k n' he hb hi hn hta htb htc, rfl⟩
  refine ⟨fun hv => ⟨MatrixMultiplyCreator.AffineExpress.shapeLaw_violated ea eb ec m k k' n
      m' n' htb htc hv, fun recurse => MatrixMultiplyCreator.AffineExpress.tensor_violated _
      recurse a ea eb ec m k k' n m' n' htb htc hv, hfail fuel hv,
      fun recurse => MatrixMultiplyCreator.AffineExpress.tensor_traced_violated _
      recurse a ea eb ec m k k' n m' n' htb htc hv, ?_⟩,
    fun f ins outs u => MatrixMultiplyCreator.AffineExpress.traced_forget
      enable_multi_thread kernel_queue f ins outs u, ?_, fun he => ⟨⟨?_, ?_⟩, hok he⟩⟩
  · rw [MatrixMultiplyCreator.AffineExpress.traced_tensor enable_multi_thread kernel_queue
        fuel a b c hta rfl hk,
      MatrixMultiplyCreator.AffineExpress.tensor_traced_violated _ _ a ea eb ec m k k' n m' n'
        htb htc hv]
  · intro hv
    simp only [not_or, not_not] at hv
    obtain ⟨h1, h2, h3⟩ := hv
    subst h1 h2 h3
    refine ⟨rfl, ?_⟩
    intro e u hr
    rw [MatrixMultiplyCreator.AffineExpress.traced_tensor enable_multi_thread kernel_queue
        fuel a b c hta rfl hk,
      MatrixMultiplyCreator.AffineExpress.tensor_traced_eq enable_multi_thread _ a b c
        ea eb ec m' k n' hb hi hn hta htb htc, hr]
  · rintro ⟨e, h⟩
    by_contra hv
    obtain ⟨s', h', -⟩ := hok he hv
    rw [h'] at h
    cases h
  · intro hv
    exact ⟨_, hfail (fuel + 1) hv⟩

/-- The 4×1 by 2×4 product of `Example.mismatched` violates the law: the call stops on the
assertion in the builder it was called in. The 2×3 by 3×5 product of `Example.rect` satisfies
it and returns. -/
theorem shape_law_enforced_witness :
    MatrixMultiplyCreator.AffineExpress (fun _ => false) [] 2 [1, 2] [3] Example.mismatched =
      .error .assertion ∧
    MatrixMultiplyCreator.AffineExpress.traced (fun _ => false) [] 2 [1, 2] [3]
      Example.mismatched = .error (.assertion, Example.mismatched) ∧
    ∃ s', MatrixMultiplyCreator.AffineExpress (fun _ => false) [] 2 [1, 2] [3] Example.rect =
      .ok s' ∧ s'.stackState = Example.rect.stackState := by
  have h1 := (shape_law_enforced (fun _ => false) [] 1 Example.mismatched 0 [] []
    ⟨.OperatorInstance [] [] "op" "op", none, []⟩ 1 2 3 (.FloatType 32) (.FloatType 32)
    (.FloatType 32) 4 1 2 4 4 4 rfl rfl rfl rfl rfl rfl (by intro j hj; cases hj)
    (by intro j hj; cases hj)).1 (Or.inl (by decide))
  have h2 := ((shape_law_enforced (fun _ => false) [] 0 Example.rect 0 [] []
    ⟨.OperatorInstance [] [] "op" "op", none, []⟩ 1 2 3 (.FloatType 32) (.FloatType 32)
    (.FloatType 32) 2 3 3 5 2 5 rfl rfl rfl rfl rfl rfl (by intro j hj; cases hj)
    (by intro j hj; cases hj)).2.2.2 rfl).2 (by decide)
  exact ⟨h1.2.2.1, h1.2.2.2.2, h2⟩

end Galois
